import Mathlib

/-! # goserver: session and credential subsystem

A shallow embedding of `internal/auth/auth.go` and of the login, refresh and
revoke handlers of the `goserver` repository, together with the library
routines those functions delegate to (`encoding/hex`, `encoding/base64`,
`crypto/hmac`, `crypto/sha256`, `golang-jwt/jwt/v4`, `google/uuid`,
`x/crypto/bcrypt`).

Go strings and byte slices are lists of bytes; instants are nanoseconds since
the Unix epoch; the clock and the entropy source are explicit inputs.
-/

set_option autoImplicit false

namespace Goserver

/-! ## Bytes and strings -/

/-- One byte. -/
abbrev Byte := Fin 256

/-- Go `string` and `[]byte`: a sequence of bytes. -/
abbrev GoString := List Byte

/-- The byte with value `n` modulo 256. -/
def byte (n : Nat) : Byte := ⟨n % 256, Nat.mod_lt n (by decide)⟩

/-- The bytes of an ASCII literal. -/
def lit (s : String) : GoString := s.toList.map (fun c => byte c.toNat)

/-- Go `error` values, by message. -/
abbrev GoError := String

/-! ## `encoding/hex` -/

/-- The table `hextable` of `encoding/hex`. -/
def hextable : GoString := lit "0123456789abcdef"

/-- `hex.EncodeToString`: two lower-case digits per byte, high nibble first. -/
def hexEncodeToString : List Byte → GoString
  | [] => []
  | v :: rest =>
      hextable.getD (v.val / 16) 0 :: hextable.getD (v.val % 16) 0 :: hexEncodeToString rest

/-- The value of a hexadecimal digit, `fromHexChar` of `encoding/hex`. -/
def fromHexChar (c : Byte) : Option Nat :=
  if 48 ≤ c.val ∧ c.val ≤ 57 then some (c.val - 48)
  else if 97 ≤ c.val ∧ c.val ≤ 102 then some (c.val - 97 + 10)
  else if 65 ≤ c.val ∧ c.val ≤ 70 then some (c.val - 65 + 10)
  else none

/-- `hex.DecodeString`: fails on a digit outside `0-9a-fA-F` and on odd length. -/
def hexDecodeString : GoString → Option (List Byte)
  | [] => some []
  | [_] => none
  | p :: q :: rest =>
      match fromHexChar p, fromHexChar q with
      | some a, some b =>
          match hexDecodeString rest with
          | some out => some (byte (a * 16 + b) :: out)
          | none => none
      | _, _ => none

/-- A lower-case hexadecimal digit, `0-9a-f`. -/
def isLowerHexDigit (c : Byte) : Bool :=
  (48 ≤ c.val && c.val ≤ 57) || (97 ≤ c.val && c.val ≤ 102)

/-! ## `encoding/base64` -/

/-- An `Encoding` of `encoding/base64`: its 64-character alphabet and its
padding character (`none` for `NoPadding`). Strict mode is off, as in every
encoding used here. -/
structure Encoding where
  alphabet : GoString
  padChar : Option Byte

/-- `base64.RawURLEncoding`. -/
def RawURLEncoding : Encoding :=
  { alphabet := lit "ABCDEFGHIJKLMNOPQRSTUVWXYZabcdefghijklmnopqrstuvwxyz0123456789-_"
    padChar := none }

/-- The entry `enc.encode[i]`. -/
def Encoding.enc (e : Encoding) (i : Nat) : Byte := e.alphabet.getD i 0

/-- The position of `c` in a list, counted from `i`. -/
def indexFrom (c : Byte) : List Byte → Nat → Option Nat
  | [], _ => none
  | x :: xs, i => if x = c then some i else indexFrom c xs (i + 1)

/-- The entry `enc.decodeMap[c]`: the 6-bit value of `c`, `none` for `0xff`. -/
def Encoding.decodeMap (e : Encoding) (c : Byte) : Option Nat := indexFrom c e.alphabet 0

/-- The padding that ends a short block. -/
def Encoding.pad (e : Encoding) (n : Nat) : GoString :=
  match e.padChar with
  | none => []
  | some p => List.replicate n p

/-- `Encoding.Encode`: three bytes become four characters; a final block of one
or two bytes becomes two or three characters and the padding. The shifts and
ors of the source act on disjoint bit ranges and are written as sums. -/
def Encoding.Encode (e : Encoding) : List Byte → GoString
  | a :: b :: c :: rest =>
      let val := a.val * 65536 + b.val * 256 + c.val
      e.enc (val / 262144 % 64) :: e.enc (val / 4096 % 64) :: e.enc (val / 64 % 64)
        :: e.enc (val % 64) :: Encoding.Encode e rest
  | [a, b] =>
      let val := a.val * 65536 + b.val * 256
      [e.enc (val / 262144 % 64), e.enc (val / 4096 % 64), e.enc (val / 64 % 64)] ++ e.pad 1
  | [a] =>
      let val := a.val * 65536
      [e.enc (val / 262144 % 64), e.enc (val / 4096 % 64)] ++ e.pad 2
  | [] => []

/-- Whether `c` is a line feed or a carriage return. -/
def isNewline (c : Byte) : Bool := c.val = 10 || c.val = 13

/-- The loop `for si < len(src) && (src[si] == '\n' || src[si] == '\r')`. -/
def skipNewlines : List Byte → List Byte
  | [] => []
  | c :: rest => if isNewline c then skipNewlines rest else c :: rest

/-- The bytes of a quantum of `dlen` six-bit values (`dlen - 1` bytes). -/
def quantumBytes (dbuf : List Nat) : List Byte :=
  let val := dbuf.getD 0 0 * 262144 + dbuf.getD 1 0 * 4096 + dbuf.getD 2 0 * 64 + dbuf.getD 3 0
  ([byte (val / 65536), byte (val / 256), byte val]).take (dbuf.length - 1)

/-- `Encoding.Decode` with `decodeQuantum` unrolled over the input. `dbuf`
holds the six-bit values of the quantum being read. Line feeds and carriage
returns are skipped, any other character outside the alphabet that is not the
padding character is an error, padding must complete the quantum and end the
input, and an input that stops inside a quantum is an error when the encoding
pads or when one character is left over. -/
def Encoding.decodeFrom (e : Encoding) : List Nat → List Byte → Option (List Byte)
  | dbuf, [] =>
      if dbuf.length = 0 then some []
      else if dbuf.length = 1 ∨ e.padChar ≠ none then none
      else some (quantumBytes dbuf)
  | dbuf, c :: rest =>
      match e.decodeMap c with
      | some out =>
          if dbuf.length = 3 then
            (Encoding.decodeFrom e [] rest).map (quantumBytes (dbuf ++ [out]) ++ ·)
          else Encoding.decodeFrom e (dbuf ++ [out]) rest
      | none =>
          if isNewline c then Encoding.decodeFrom e dbuf rest
          else if some c ≠ e.padChar then none
          else if dbuf.length < 2 then none
          else if dbuf.length = 2 then
            match skipNewlines rest with
            | [] => none
            | d :: rest2 =>
                if some d ≠ e.padChar then none
                else if skipNewlines rest2 ≠ [] then none
                else some (quantumBytes dbuf)
          else if skipNewlines rest ≠ [] then none
          else some (quantumBytes dbuf)

/-- `Encoding.DecodeString`. -/
def Encoding.DecodeString (e : Encoding) (s : GoString) : Option (List Byte) :=
  e.decodeFrom [] s

/-! ## `crypto/sha256`, `crypto/sha512`, `crypto/hmac` -/

/-- The parameters in which SHA-256, SHA-384 and SHA-512 differ (FIPS 180-4):
the word size in bits, the round constants, the initial hash value, the
rotation and shift amounts of the four sigma functions and the number of
digest bytes kept. Words are naturals below `2 ^ w`. -/
structure Sha2 where
  w : Nat
  K : List Nat
  init : List Nat
  bigSigma0 : Nat × Nat × Nat
  bigSigma1 : Nat × Nat × Nat
  smallSigma0 : Nat × Nat × Nat
  smallSigma1 : Nat × Nat × Nat
  size : Nat

/-- Rotation of a `w`-bit word to the right by `n` bits. -/
def rotr (w x n : Nat) : Nat := (x / 2 ^ n + x * 2 ^ (w - n)) % 2 ^ w

/-- The functions `Σ0` and `Σ1`: the exclusive or of three rotations. -/
def Sha2.bigSigma (h : Sha2) (r : Nat × Nat × Nat) (x : Nat) : Nat :=
  rotr h.w x r.1 ^^^ rotr h.w x r.2.1 ^^^ rotr h.w x r.2.2

/-- The functions `σ0` and `σ1`: two rotations and a shift. -/
def Sha2.smallSigma (h : Sha2) (r : Nat × Nat × Nat) (x : Nat) : Nat :=
  rotr h.w x r.1 ^^^ rotr h.w x r.2.1 ^^^ (x / 2 ^ r.2.2)

/-- A big-endian word from bytes. -/
def beWord (bs : List Byte) : Nat := bs.foldl (fun acc b => acc * 256 + b.val) 0

/-- The `n` big-endian bytes of `x`. -/
def beBytes : Nat → Nat → List Byte
  | 0, _ => []
  | n + 1, x => byte (x / 256 ^ n) :: beBytes n x

/-- Consecutive chunks of `n + 1` elements, `fuel` of them at most. -/
def chunks {α : Type} (n : Nat) : Nat → List α → List (List α)
  | 0, _ => []
  | fuel + 1, xs =>
      if xs.isEmpty then [] else xs.take (n + 1) :: chunks n fuel (xs.drop (n + 1))

/-- The message schedule extended by `n` words. -/
def Sha2.schedule (h : Sha2) : Nat → List Nat → List Nat
  | 0, ws => ws
  | n + 1, ws =>
      let t := ws.length
      let x := (h.smallSigma h.smallSigma1 (ws.getD (t - 2) 0) + ws.getD (t - 7) 0
        + h.smallSigma h.smallSigma0 (ws.getD (t - 15) 0) + ws.getD (t - 16) 0) % 2 ^ h.w
      Sha2.schedule h n (ws ++ [x])

/-- One round on the working variables `a .. h`. -/
def Sha2.round (h : Sha2) (v : List Nat) (kw : Nat × Nat) : List Nat :=
  match v with
  | [a, b, c, d, e, f, g, hh] =>
      let ch := (e &&& f) ^^^ ((2 ^ h.w - 1 - e) &&& g)
      let maj := (a &&& b) ^^^ (a &&& c) ^^^ (b &&& c)
      let t1 := hh + h.bigSigma h.bigSigma1 e + ch + kw.1 + kw.2
      let t2 := h.bigSigma h.bigSigma0 a + maj
      [(t1 + t2) % 2 ^ h.w, a, b, c, (d + t1) % 2 ^ h.w, e, f, g]
  | _ => v

/-- The compression of one block of sixteen words into the hash value. -/
def Sha2.block (h : Sha2) (hv : List Nat) (blk : List Byte) : List Nat :=
  let ws := h.schedule (h.K.length - 16) ((chunks (h.w / 8 - 1) 16 blk).map beWord)
  let v := (h.K.zip ws).foldl h.round hv
  List.zipWith (fun x y => (x + y) % 2 ^ h.w) hv v

/-- The padded message: a one bit, zeros up to a block boundary less the
length field, and the bit length as a big-endian number of two words. -/
def Sha2.pad (h : Sha2) (msg : List Byte) : List Byte :=
  let bs := h.w * 2
  let lenField := h.w / 4
  let zeros := (bs - (msg.length + 1 + lenField) % bs) % bs
  msg ++ [byte 128] ++ List.replicate zeros (byte 0) ++ beBytes lenField (msg.length * 8)

/-- The digest of a message. -/
def Sha2.sum (h : Sha2) (msg : List Byte) : List Byte :=
  let p := h.pad msg
  let hv := (chunks (h.w * 2 - 1) (p.length / (h.w * 2)) p).foldl h.block h.init
  ((hv.map (beBytes (h.w / 8))).flatten).take h.size

/-- The table `_K` of `crypto/sha256`: the first 32 bits of the fractional parts
of the cube roots of the first 64 primes. -/
def K256 : List Nat :=
  [0x428a2f98, 0x71374491, 0xb5c0fbcf, 0xe9b5dba5, 0x3956c25b, 0x59f111f1, 0x923f82a4, 0xab1c5ed5,
   0xd807aa98, 0x12835b01, 0x243185be, 0x550c7dc3, 0x72be5d74, 0x80deb1fe, 0x9bdc06a7, 0xc19bf174,
   0xe49b69c1, 0xefbe4786, 0x0fc19dc6, 0x240ca1cc, 0x2de92c6f, 0x4a7484aa, 0x5cb0a9dc, 0x76f988da,
   0x983e5152, 0xa831c66d, 0xb00327c8, 0xbf597fc7, 0xc6e00bf3, 0xd5a79147, 0x06ca6351, 0x14292967,
   0x27b70a85, 0x2e1b2138, 0x4d2c6dfc, 0x53380d13, 0x650a7354, 0x766a0abb, 0x81c2c92e, 0x92722c85,
   0xa2bfe8a1, 0xa81a664b, 0xc24b8b70, 0xc76c51a3, 0xd192e819, 0xd6990624, 0xf40e3585, 0x106aa070,
   0x19a4c116, 0x1e376c08, 0x2748774c, 0x34b0bcb5, 0x391c0cb3, 0x4ed8aa4a, 0x5b9cca4f, 0x682e6ff3,
   0x748f82ee, 0x78a5636f, 0x84c87814, 0x8cc70208, 0x90befffa, 0xa4506ceb, 0xbef9a3f7, 0xc67178f2]

/-- The table `_K` of `crypto/sha512`: the first 64 bits of the fractional parts
of the cube roots of the first 80 primes. -/
def K512 : List Nat :=
  [0x428a2f98d728ae22, 0x7137449123ef65cd, 0xb5c0fbcfec4d3b2f, 0xe9b5dba58189dbbc,
   0x3956c25bf348b538, 0x59f111f1b605d019, 0x923f82a4af194f9b, 0xab1c5ed5da6d8118,
   0xd807aa98a3030242, 0x12835b0145706fbe, 0x243185be4ee4b28c, 0x550c7dc3d5ffb4e2,
   0x72be5d74f27b896f, 0x80deb1fe3b1696b1, 0x9bdc06a725c71235, 0xc19bf174cf692694,
   0xe49b69c19ef14ad2, 0xefbe4786384f25e3, 0x0fc19dc68b8cd5b5, 0x240ca1cc77ac9c65,
   0x2de92c6f592b0275, 0x4a7484aa6ea6e483, 0x5cb0a9dcbd41fbd4, 0x76f988da831153b5,
   0x983e5152ee66dfab, 0xa831c66d2db43210, 0xb00327c898fb213f, 0xbf597fc7beef0ee4,
   0xc6e00bf33da88fc2, 0xd5a79147930aa725, 0x06ca6351e003826f, 0x142929670a0e6e70,
   0x27b70a8546d22ffc, 0x2e1b21385c26c926, 0x4d2c6dfc5ac42aed, 0x53380d139d95b3df,
   0x650a73548baf63de, 0x766a0abb3c77b2a8, 0x81c2c92e47edaee6, 0x92722c851482353b,
   0xa2bfe8a14cf10364, 0xa81a664bbc423001, 0xc24b8b70d0f89791, 0xc76c51a30654be30,
   0xd192e819d6ef5218, 0xd69906245565a910, 0xf40e35855771202a, 0x106aa07032bbd1b8,
   0x19a4c116b8d2d0c8, 0x1e376c085141ab53, 0x2748774cdf8eeb99, 0x34b0bcb5e19b48a8,
   0x391c0cb3c5c95a63, 0x4ed8aa4ae3418acb, 0x5b9cca4f7763e373, 0x682e6ff3d6b2b8a3,
   0x748f82ee5defb2fc, 0x78a5636f43172f60, 0x84c87814a1f0ab72, 0x8cc702081a6439ec,
   0x90befffa23631e28, 0xa4506cebde82bde9, 0xbef9a3f7b2c67915, 0xc67178f2e372532b,
   0xca273eceea26619c, 0xd186b8c721c0c207, 0xeada7dd6cde0eb1e, 0xf57d4f7fee6ed178,
   0x06f067aa72176fba, 0x0a637dc5a2c898a6, 0x113f9804bef90dae, 0x1b710b35131c471b,
   0x28db77f523047d84, 0x32caab7b40c72493, 0x3c9ebe0a15c9bebc, 0x431d67c49c100d4c,
   0x4cc5d4becb3e42b6, 0x597f299cfc657e2a, 0x5fcb6fab3ad6faec, 0x6c44198c4a475817]

/-- SHA-256. -/
def SHA256 : Sha2 :=
  { w := 32, K := K256
    init := [0x6a09e667, 0xbb67ae85, 0x3c6ef372, 0xa54ff53a, 0x510e527f, 0x9b05688c, 0x1f83d9ab,
      0x5be0cd19]
    bigSigma0 := (2, 13, 22), bigSigma1 := (6, 11, 25)
    smallSigma0 := (7, 18, 3), smallSigma1 := (17, 19, 10), size := 32 }

/-- SHA-512. -/
def SHA512 : Sha2 :=
  { w := 64, K := K512
    init :=
    [0x6a09e667f3bcc908, 0xbb67ae8584caa73b, 0x3c6ef372fe94f82b, 0xa54ff53a5f1d36f1,
     0x510e527fade682d1, 0x9b05688c2b3e6c1f, 0x1f83d9abfb41bd6b, 0x5be0cd19137e2179,]
    bigSigma0 := (28, 34, 39), bigSigma1 := (14, 18, 41)
    smallSigma0 := (1, 8, 7), smallSigma1 := (19, 61, 6), size := 64 }

/-- SHA-384: SHA-512 from another initial value, cut to 48 bytes. -/
def SHA384 : Sha2 :=
  { w := 64, K := K512
    init :=
    [0xcbbb9d5dc1059ed8, 0x629a292a367cd507, 0x9159015a3070dd17, 0x152fecd8f70e5939,
     0x67332667ffc00b31, 0x8eb44a8768581511, 0xdb0c2e0d64f98fa7, 0x47b5481dbefa4fa4]
    bigSigma0 := (28, 34, 39), bigSigma1 := (14, 18, 41)
    smallSigma0 := (1, 8, 7), smallSigma1 := (19, 61, 6), size := 48 }

/-- The block size of the hash in bytes. -/
def Sha2.blockSize (h : Sha2) : Nat := h.w * 2

/-- The key block of `hmac.New`: a key longer than a block is hashed first, and
the key is then padded with zero bytes to the block size. -/
def hmacKeyBlock (h : Sha2) (key : List Byte) : List Byte :=
  let k := if key.length > h.blockSize then h.sum key else key
  k ++ List.replicate (h.blockSize - k.length) (byte 0)

/-- The tag of `msg` under `key`: `hmac.New(h, key)`, `Write(msg)`, `Sum(nil)`. -/
def hmacSum (h : Sha2) (key msg : List Byte) : List Byte :=
  let kb := hmacKeyBlock h key
  let ipad := kb.map (fun b => byte (b.val ^^^ 0x36))
  let opad := kb.map (fun b => byte (b.val ^^^ 0x5c))
  h.sum (opad ++ h.sum (ipad ++ msg))

/-! ## `unicode/utf8` -/

/-- Whether `c` is a continuation byte in the range `lo ..= hi`. -/
def inRange (lo hi : Nat) (c : Byte) : Bool := lo ≤ c.val && c.val ≤ hi

/-- The length of the well-formed UTF-8 sequence at the head of the input, as
`utf8.DecodeRune` accepts it, and `0` when the head byte starts none. -/
def utf8SeqLen : List Byte → Nat
  | [] => 0
  | c :: rest =>
      if c.val < 128 then 1
      else if inRange 0xC2 0xDF c then
        match rest with
        | c1 :: _ => if inRange 0x80 0xBF c1 then 2 else 0
        | _ => 0
      else if inRange 0xE0 0xEF c then
        match rest with
        | c1 :: c2 :: _ =>
            let lo := if c.val = 0xE0 then 0xA0 else 0x80
            let hi := if c.val = 0xED then 0x9F else 0xBF
            if inRange lo hi c1 && inRange 0x80 0xBF c2 then 3 else 0
        | _ => 0
      else if inRange 0xF0 0xF4 c then
        match rest with
        | c1 :: c2 :: c3 :: _ =>
            let lo := if c.val = 0xF0 then 0x90 else 0x80
            let hi := if c.val = 0xF4 then 0x8F else 0xBF
            if inRange lo hi c1 && inRange 0x80 0xBF c2 && inRange 0x80 0xBF c3 then 4 else 0
        | _ => 0
      else 0

/-- The encoding of U+FFFD, `utf8.RuneError`. -/
def runeError : GoString := [byte 0xEF, byte 0xBF, byte 0xBD]

/-- `utf8.EncodeRune`: surrogates and values above U+10FFFF become U+FFFD. -/
def encodeRune (r : Nat) : GoString :=
  if r < 0x80 then [byte r]
  else if r < 0x800 then [byte (0xC0 + r / 64), byte (0x80 + r % 64)]
  else if 0xD800 ≤ r ∧ r < 0xE000 then runeError
  else if r < 0x10000 then [byte (0xE0 + r / 4096), byte (0x80 + r / 64 % 64), byte (0x80 + r % 64)]
  else if r < 0x110000 then
    [byte (0xF0 + r / 262144), byte (0x80 + r / 4096 % 64), byte (0x80 + r / 64 % 64),
      byte (0x80 + r % 64)]
  else runeError

/-! ## `encoding/json`: reading -/

/-- A JSON value as the scanner of `encoding/json` delimits it. A number keeps
its literal; a string is held unquoted. -/
inductive JSON where
  | null
  | bool (b : Bool)
  | number (text : GoString)
  | string (s : GoString)
  | array (xs : List JSON)
  | object (members : List (GoString × JSON))

/-- `isSpace` of the scanner: space, tab, carriage return, line feed. -/
def isSpace (c : Byte) : Bool := c.val = 32 || c.val = 9 || c.val = 13 || c.val = 10

/-- The input without its leading white space. -/
def skipSpace : List Byte → List Byte
  | [] => []
  | c :: rest => if isSpace c then skipSpace rest else c :: rest

/-- Four hexadecimal digits as a number, and the input after them. -/
def hex4 : List Byte → Option (Nat × List Byte)
  | a :: b :: c :: d :: rest =>
      match fromHexChar a, fromHexChar b, fromHexChar c, fromHexChar d with
      | some x, some y, some z, some w => some (x * 4096 + y * 256 + z * 16 + w, rest)
      | _, _, _, _ => none
  | _ => none

/-- `getu4`: the value of an escape `\uXXXX` at the head of the input. -/
def getu4 : List Byte → Option (Nat × List Byte)
  | b :: u :: rest => if b.val = 92 ∧ u.val = 117 then hex4 rest else none
  | _ => none

/-- The byte a single-character escape stands for. -/
def simpleEscape (e : Byte) : Option Byte :=
  if e.val = 34 ∨ e.val = 92 ∨ e.val = 47 then some e
  else if e.val = 98 then some (byte 8)
  else if e.val = 102 then some (byte 12)
  else if e.val = 110 then some (byte 10)
  else if e.val = 114 then some (byte 13)
  else if e.val = 116 then some (byte 9)
  else none

/-- A string literal after its opening quote: the scanner's check and
`unquoteBytes` in one pass. Control characters and unknown escapes are
rejected; `\u` escapes are encoded as UTF-8, a surrogate pair as one rune and a
lone surrogate as U+FFFD; bytes that are not well-formed UTF-8 become U+FFFD.
Returns the unquoted string and the input after the closing quote. -/
def scanString : Nat → List Byte → Option (GoString × List Byte)
  | 0, _ => none
  | _, [] => none
  | fuel + 1, c :: rest =>
      if c.val = 34 then some ([], rest)
      else if c.val = 92 then
        match rest with
        | [] => none
        | e :: rest1 =>
            if e.val = 117 then
              match hex4 rest1 with
              | none => none
              | some (rr, rest2) =>
                  if 0xD800 ≤ rr ∧ rr < 0xE000 then
                    match getu4 rest2 with
                    | some (rr1, rest3) =>
                        if rr < 0xDC00 ∧ 0xDC00 ≤ rr1 ∧ rr1 < 0xE000 then
                          (scanString fuel rest3).map fun r =>
                            (encodeRune ((rr - 0xD800) * 1024 + (rr1 - 0xDC00) + 0x10000) ++ r.1, r.2)
                        else (scanString fuel rest2).map fun r => (runeError ++ r.1, r.2)
                    | none => (scanString fuel rest2).map fun r => (runeError ++ r.1, r.2)
                  else (scanString fuel rest2).map fun r => (encodeRune rr ++ r.1, r.2)
            else
              match simpleEscape e with
              | none => none
              | some b => (scanString fuel rest1).map fun r => (b :: r.1, r.2)
      else if c.val < 32 then none
      else if c.val < 128 then (scanString fuel rest).map fun r => (c :: r.1, r.2)
      else
        let n := utf8SeqLen (c :: rest)
        if n = 0 then (scanString fuel rest).map fun r => (runeError ++ r.1, r.2)
        else (scanString fuel ((c :: rest).drop n)).map fun r => ((c :: rest).take n ++ r.1, r.2)

/-- Whether `c` is a decimal digit. -/
def isDigit (c : Byte) : Bool := 48 ≤ c.val && c.val ≤ 57

/-- The leading decimal digits of the input and the input after them. -/
def spanDigits : List Byte → List Byte × List Byte
  | [] => ([], [])
  | c :: rest =>
      if isDigit c then ((spanDigits rest).1.cons c, (spanDigits rest).2) else ([], c :: rest)

/-- A number literal at the head of the input: an optional minus, `0` or a
digit string without leading zero, an optional fraction and an optional
exponent. Returns the literal and the input after it. -/
def scanNumber (bs : List Byte) : Option (GoString × List Byte) :=
  let (sign, r0) := match bs with
    | c :: rest => if c.val = 45 then ([c], rest) else ([], bs)
    | [] => ([], bs)
  match r0 with
  | [] => none
  | d :: r1 =>
      if ¬ isDigit d then none
      else
        let (intPart, r2) := if d.val = 48 then ([d], r1) else (d :: (spanDigits r1).1, (spanDigits r1).2)
        let fracRes : Option (GoString × List Byte) :=
          match r2 with
          | p :: r3 =>
              if p.val = 46 then
                if (spanDigits r3).1.isEmpty then none else some (p :: (spanDigits r3).1, (spanDigits r3).2)
              else some ([], r2)
          | [] => some ([], r2)
        match fracRes with
        | none => none
        | some (frac, r4) =>
            let expRes : Option (GoString × List Byte) :=
              match r4 with
              | e :: r5 =>
                  if e.val = 101 ∨ e.val = 69 then
                    let (esign, r6) := match r5 with
                      | s :: rest => if s.val = 43 ∨ s.val = 45 then ([s], rest) else ([], r5)
                      | [] => ([], r5)
                    if (spanDigits r6).1.isEmpty then none
                    else some (e :: esign ++ (spanDigits r6).1, (spanDigits r6).2)
                  else some ([], r4)
              | [] => some ([], r4)
            match expRes with
            | none => none
            | some (ex, r7) => some (sign ++ intPart ++ frac ++ ex, r7)

/-- The input after the literal `word`, when the input starts with it. -/
def stripPrefix : List Byte → List Byte → Option (List Byte)
  | [], bs => some bs
  | _ :: _, [] => none
  | w :: ws, b :: bs => if w = b then stripPrefix ws bs else none

/-- `maxNestingDepth` of the scanner. -/
def maxNestingDepth : Nat := 10000

mutual
/-- One JSON value at the head of the input (white space skipped by the
caller) and the input after it. `depth` counts the arrays and objects that may
still be opened. -/
def parseValue : Nat → Nat → List Byte → Option (JSON × List Byte)
  | 0, _, _ => none
  | _, _, [] => none
  | fuel + 1, depth, c :: rest =>
      if c.val = 123 then
        match depth with
        | 0 => none
        | depth + 1 =>
            match skipSpace rest with
            | [] => none
            | d :: rest1 =>
                if d.val = 125 then some (.object [], rest1)
                else (parseMembers fuel depth (d :: rest1)).map fun r => (.object r.1, r.2)
      else if c.val = 91 then
        match depth with
        | 0 => none
        | depth + 1 =>
            match skipSpace rest with
            | [] => none
            | d :: rest1 =>
                if d.val = 93 then some (.array [], rest1)
                else (parseElements fuel depth (d :: rest1)).map fun r => (.array r.1, r.2)
      else if c.val = 34 then (scanString (rest.length + 1) rest).map fun r => (.string r.1, r.2)
      else if c.val = 116 then (stripPrefix (lit "rue") rest).map fun r => (.bool true, r)
      else if c.val = 102 then (stripPrefix (lit "alse") rest).map fun r => (.bool false, r)
      else if c.val = 110 then (stripPrefix (lit "ull") rest).map fun r => (.null, r)
      else (scanNumber (c :: rest)).map fun r => (.number r.1, r.2)
/-- The members of an object from its first key on, up to the closing brace. -/
def parseMembers : Nat → Nat → List Byte → Option (List (GoString × JSON) × List Byte)
  | 0, _, _ => none
  | _, _, [] => none
  | fuel + 1, depth, c :: rest =>
      if c.val ≠ 34 then none
      else
        match scanString (rest.length + 1) rest with
        | none => none
        | some (key, rest1) =>
            match skipSpace rest1 with
            | [] => none
            | colon :: rest2 =>
                if colon.val ≠ 58 then none
                else
                  match parseValue fuel depth (skipSpace rest2) with
                  | none => none
                  | some (v, rest3) =>
                      match skipSpace rest3 with
                      | [] => none
                      | d :: rest4 =>
                          if d.val = 125 then some ([(key, v)], rest4)
                          else if d.val = 44 then
                            (parseMembers fuel depth (skipSpace rest4)).map fun r =>
                              ((key, v) :: r.1, r.2)
                          else none
/-- The elements of an array from its first element on, up to the closing
bracket. -/
def parseElements : Nat → Nat → List Byte → Option (List JSON × List Byte)
  | 0, _, _ => none
  | fuel + 1, depth, bs =>
      match parseValue fuel depth bs with
      | none => none
      | some (v, rest1) =>
          match skipSpace rest1 with
          | [] => none
          | d :: rest2 =>
              if d.val = 93 then some ([v], rest2)
              else if d.val = 44 then
                (parseElements fuel depth (skipSpace rest2)).map fun r => (v :: r.1, r.2)
              else none
end

/-- The first JSON value of the input, after leading white space, and the
input after it: what `Decoder.Decode` reads. -/
def readValue (bs : List Byte) : Option (JSON × List Byte) :=
  parseValue (bs.length + 1) maxNestingDepth (skipSpace bs)

/-- The value of an input that is one JSON value with white space around it:
what `checkValid` of `json.Unmarshal` accepts. -/
def parseDocument (bs : List Byte) : Option JSON :=
  match readValue bs with
  | some (v, rest) => if (skipSpace rest).isEmpty then some v else none
  | none => none

/-- The number a string of decimal digits denotes. -/
def digitsVal (ds : List Byte) : Nat := ds.foldl (fun acc d => acc * 10 + (d.val - 48)) 0

/-- A decimal number `± mant × 10 ^ exp`. -/
structure Decimal where
  neg : Bool
  mant : Nat
  exp : Int

/-- The value of a number literal that `scanNumber` accepted. -/
def parseDecimal (text : GoString) : Decimal :=
  let (neg, r0) := match text with
    | c :: rest => if c.val = 45 then (true, rest) else (false, text)
    | [] => (false, text)
  let intPart := (spanDigits r0).1
  let r1 := (spanDigits r0).2
  let (frac, r2) := match r1 with
    | p :: rest => if p.val = 46 then ((spanDigits rest).1, (spanDigits rest).2) else ([], r1)
    | [] => ([], r1)
  let e : Int := match r2 with
    | _ :: s :: rest =>
        if s.val = 45 then -(digitsVal (spanDigits rest).1 : Int)
        else if s.val = 43 then (digitsVal (spanDigits rest).1 : Int)
        else (digitsVal (spanDigits (s :: rest)).1 : Int)
    | _ => 0
  { neg := neg, mant := digitsVal (intPart ++ frac), exp := e - frac.length }

/-- Whether `strconv.ParseFloat(text, 64)` stays in range: the magnitude is
below the midpoint between the largest `float64` and `2 ^ 1024`. -/
def Decimal.inFloatRange (d : Decimal) : Bool :=
  let bound := 2 ^ 1024 - 2 ^ 970
  if 0 ≤ d.exp then decide (d.mant * 10 ^ d.exp.toNat < bound)
  else decide (d.mant < bound * 10 ^ (-d.exp).toNat)

/-- The instant `time.Unix(int64(round), int64(frac * 1e9))` for a decimal
number of seconds, in nanoseconds: the number of nanoseconds cut towards zero.
The binary rounding of `float64` is left out; the result is exact for integers
of magnitude below `2 ^ 53`. -/
def Decimal.unixNanos (d : Decimal) : Int :=
  let e := d.exp + 9
  let mag : Nat := if 0 ≤ e then d.mant * 10 ^ e.toNat else d.mant / 10 ^ (-e).toNat
  if d.neg then -(mag : Int) else (mag : Int)

/-- `isValidNumber`: the whole string is one number literal. -/
def isValidNumber (s : GoString) : Bool :=
  match scanNumber s with
  | some (_, rest) => rest.isEmpty
  | none => false

/-- Whether every number in the value converts to `float64`, as decoding into
`interface{}` requires. -/
def JSON.numbersInRange : JSON → Bool
  | .number t => (parseDecimal t).inFloatRange
  | .array xs => allInRange xs
  | .object ms => membersInRange ms
  | _ => true
where
  /-- Every element of an array. -/
  allInRange : List JSON → Bool
    | [] => true
    | x :: xs => JSON.numbersInRange x && allInRange xs
  /-- Every value of an object. -/
  membersInRange : List (GoString × JSON) → Bool
    | [] => true
    | (_, v) :: ms => JSON.numbersInRange v && membersInRange ms

/-! ## `encoding/json`: writing -/

/-- The decimal digits of `n`, at most `fuel` of them. -/
def fmtDigits : Nat → Nat → List Byte
  | 0, _ => []
  | fuel + 1, n =>
      if n < 10 then [byte (48 + n)] else fmtDigits fuel (n / 10) ++ [byte (48 + n % 10)]

/-- `strconv.FormatInt(n, 10)`. -/
def formatInt (n : Int) : GoString :=
  if n < 0 then byte 45 :: fmtDigits (n.natAbs + 1) n.natAbs else fmtDigits (n.natAbs + 1) n.natAbs

/-- `htmlSafeSet`: the ASCII characters a JSON string holds unescaped. -/
def htmlSafe (c : Byte) : Bool :=
  32 ≤ c.val && c.val < 128 && c.val ≠ 34 && c.val ≠ 92 && c.val ≠ 60 && c.val ≠ 62 && c.val ≠ 38

/-- The body of a JSON string literal for a Go string, `appendString` with
HTML escaping on. -/
def quoteBody : Nat → List Byte → GoString
  | 0, _ => []
  | _, [] => []
  | fuel + 1, c :: rest =>
      if htmlSafe c then c :: quoteBody fuel rest
      else if c.val < 128 then
        (if c.val = 92 ∨ c.val = 34 then [byte 92, c]
         else if c.val = 8 then lit "\\b"
         else if c.val = 12 then lit "\\f"
         else if c.val = 10 then lit "\\n"
         else if c.val = 13 then lit "\\r"
         else if c.val = 9 then lit "\\t"
         else lit "\\u00" ++ [hextable.getD (c.val / 16) 0, hextable.getD (c.val % 16) 0])
        ++ quoteBody fuel rest
      else
        let n := utf8SeqLen (c :: rest)
        if n = 0 then lit "\\ufffd" ++ quoteBody fuel rest
        else if (c :: rest).take 3 = [byte 0xE2, byte 0x80, byte 0xA8] then
          lit "\\u2028" ++ quoteBody fuel (rest.drop 2)
        else if (c :: rest).take 3 = [byte 0xE2, byte 0x80, byte 0xA9] then
          lit "\\u2029" ++ quoteBody fuel (rest.drop 2)
        else (c :: rest).take n ++ quoteBody fuel ((c :: rest).drop n)

/-- A Go string as a JSON string literal. -/
def jsonQuote (s : GoString) : GoString := byte 34 :: quoteBody s.length s ++ [byte 34]

/-- The elements of a list joined by commas. -/
def joinComma : List GoString → GoString
  | [] => []
  | [x] => x
  | x :: y :: rest => x ++ byte 44 :: joinComma (y :: rest)

/-! ## `github.com/google/uuid` -/

/-- A `uuid.UUID`: sixteen bytes. -/
abbrev UUID := { bs : List Byte // bs.length = 16 }

/-- The zero identity `uuid.Nil`. -/
def UUID.Nil : UUID := ⟨List.replicate 16 (byte 0), by decide⟩

/-- `UUID.String`: the form `xxxxxxxx-xxxx-xxxx-xxxx-xxxxxxxxxxxx`. -/
def UUID.String (u : UUID) : GoString :=
  hexEncodeToString (u.val.take 4) ++ byte 45 :: hexEncodeToString ((u.val.drop 4).take 2)
    ++ byte 45 :: hexEncodeToString ((u.val.drop 6).take 2)
    ++ byte 45 :: hexEncodeToString ((u.val.drop 8).take 2)
    ++ byte 45 :: hexEncodeToString (u.val.drop 10)

/-- `xtob`: the byte two hexadecimal digits denote. -/
def xtob (x1 x2 : Byte) : Option Byte :=
  match fromHexChar x1, fromHexChar x2 with
  | some a, some b => some (byte (a * 16 + b))
  | _, _ => none

/-- The bytes read from `s` at the given offsets, up to the first pair of
characters that is not hexadecimal, and whether all were read. -/
def parsePairs (s : GoString) : List Nat → List Byte × Bool
  | [] => ([], true)
  | x :: xs =>
      match xtob (s.getD x 0) (s.getD (x + 1) 0) with
      | some v => (v :: (parsePairs s xs).1, (parsePairs s xs).2)
      | none => ([], false)

/-- The identity whose leading bytes are `bs` and whose other bytes are zero. -/
def UUID.ofPrefix (bs : List Byte) : UUID :=
  ⟨(bs ++ List.replicate 16 (byte 0)).take 16, by simp⟩

/-- ASCII lower-casing of one byte. -/
def toLowerByte (c : Byte) : Byte := if 65 ≤ c.val ∧ c.val ≤ 90 then byte (c.val + 32) else c

/-- The dashed form of `uuid.Parse`, on a string of at least 36 bytes. -/
def parseDashed (s : GoString) : UUID × Option GoError :=
  if s.getD 8 0 ≠ byte 45 ∨ s.getD 13 0 ≠ byte 45 ∨ s.getD 18 0 ≠ byte 45 ∨ s.getD 23 0 ≠ byte 45
  then (UUID.Nil, some "invalid UUID format")
  else
    let r := parsePairs s [0, 2, 4, 6, 9, 11, 14, 16, 19, 21, 24, 26, 28, 30, 32, 34]
    if r.2 then (UUID.ofPrefix r.1, none) else (UUID.ofPrefix r.1, some "invalid UUID format")

/-- `uuid.Parse`: the dashed form, the same after `urn:uuid:` or inside one
leading and one trailing character, or 32 hexadecimal digits. On a digit that
is not hexadecimal the bytes read so far are returned with the error. -/
def uuidParse (s : GoString) : UUID × Option GoError :=
  if s.length = 36 then parseDashed s
  else if s.length = 36 + 9 then
    if (s.take 9).map toLowerByte ≠ lit "urn:uuid:" then (UUID.Nil, some "invalid urn prefix")
    else parseDashed (s.drop 9)
  else if s.length = 36 + 2 then parseDashed (s.drop 1)
  else if s.length = 32 then
    let r := parsePairs s (List.range' 0 16 2)
    if r.2 then (UUID.ofPrefix r.1, none) else (UUID.ofPrefix r.1, some "invalid UUID format")
  else (UUID.Nil, some "invalid UUID length")

/-! ## `time` -/

/-- An instant: nanoseconds since the Unix epoch. -/
abbrev Time := Int

/-- A `time.Duration`: nanoseconds. -/
abbrev Duration := Int

/-- `time.Second`. -/
def Second : Duration := 1000000000

/-- `time.Hour`. -/
def Hour : Duration := 3600 * Second

/-- `t.Truncate(time.Second)`: `t` rounded down to a whole second. -/
def truncateSecond (t : Time) : Time := t / Second * Second

/-! ## `github.com/golang-jwt/jwt/v4`: claims -/

/-- The struct `jwt.RegisteredClaims`. A `*NumericDate` field is `none` when the
pointer is nil. -/
structure RegisteredClaims where
  Issuer : GoString
  Subject : GoString
  Audience : List GoString
  ExpiresAt : Option Time
  NotBefore : Option Time
  IssuedAt : Option Time
  ID : GoString
  deriving DecidableEq

/-- The zero value `jwt.RegisteredClaims{}`. -/
def RegisteredClaims.zero : RegisteredClaims :=
  { Issuer := [], Subject := [], Audience := [], ExpiresAt := none, NotBefore := none,
    IssuedAt := none, ID := [] }

/-- `jwt.NewNumericDate`: the instant truncated to `jwt.TimePrecision`, one
second. -/
def NewNumericDate (t : Time) : Time := truncateSecond t

/-- `NumericDate.MarshalJSON`: the Unix seconds of the truncated instant; at a
precision of one second no fraction is written. -/
def marshalNumericDate (t : Time) : GoString := formatInt (truncateSecond t / Second)

/-- One member `"name":value` of a JSON object. -/
def jsonMember (name : String) (value : GoString) : GoString :=
  byte 34 :: lit name ++ byte 34 :: byte 58 :: value

/-- A field tagged `omitempty`: left out when `present` is false. -/
def omitEmpty (present : Bool) (name : String) (value : GoString) : List GoString :=
  if present then [jsonMember name value] else []

/-- `json.Marshal` of a `jwt.RegisteredClaims`: the non-empty fields in the
order of the struct. -/
def marshalClaims (c : RegisteredClaims) : GoString :=
  byte 123 :: joinComma
    (omitEmpty (!c.Issuer.isEmpty) "iss" (jsonQuote c.Issuer)
      ++ omitEmpty (!c.Subject.isEmpty) "sub" (jsonQuote c.Subject)
      ++ omitEmpty (!c.Audience.isEmpty) "aud"
          (byte 91 :: joinComma (c.Audience.map jsonQuote) ++ [byte 93])
      ++ omitEmpty c.ExpiresAt.isSome "exp" (marshalNumericDate (c.ExpiresAt.getD 0))
      ++ omitEmpty c.NotBefore.isSome "nbf" (marshalNumericDate (c.NotBefore.getD 0))
      ++ omitEmpty c.IssuedAt.isSome "iat" (marshalNumericDate (c.IssuedAt.getD 0))
      ++ omitEmpty (!c.ID.isEmpty) "jti" (jsonQuote c.ID))
    ++ [byte 125]

/-- `json.Marshal` of the header `{"typ": "JWT", "alg": alg}`: a map, so the
keys are written in sorted order. -/
def marshalHeader (alg : GoString) : GoString :=
  byte 123 :: jsonMember "alg" (jsonQuote alg) ++ byte 44 :: jsonMember "typ" (jsonQuote (lit "JWT"))
    ++ [byte 125]

/-- The key of a member folded as the struct decoder matches field names:
ASCII letters in lower case, U+017F as `s` and U+212A as `k`. -/
def foldName : List Byte → List Byte
  | [] => []
  | [c] => [toLowerByte c]
  | [c, d] =>
      if c.val = 0xC5 ∧ d.val = 0xBF then [byte 115] else toLowerByte c :: foldName [d]
  | c :: d :: e :: rest =>
      if c.val = 0xC5 ∧ d.val = 0xBF then byte 115 :: foldName (e :: rest)
      else if c.val = 0xE2 ∧ d.val = 0x84 ∧ e.val = 0xAA then byte 107 :: foldName rest
      else toLowerByte c :: foldName (d :: e :: rest)

/-- A JSON value stored into a `string` field: a string sets it, `null` leaves
it, any other value is a type error. -/
def decodeStringField (v : JSON) (old : GoString) : Option GoString :=
  match v with
  | .string s => some s
  | .null => some old
  | _ => none

/-- `NumericDate.UnmarshalJSON` behind a pointer: `null` clears the pointer; a
number, or a string holding a number, in the range of `float64` becomes the
instant truncated to a second; any other value is an error. -/
def decodeNumericDate (v : JSON) : Option (Option Time) :=
  match v with
  | .null => some none
  | .number t =>
      if (parseDecimal t).inFloatRange then some (some (NewNumericDate (parseDecimal t).unixNanos))
      else none
  | .string s =>
      if isValidNumber s ∧ (parseDecimal s).inFloatRange then
        some (some (NewNumericDate (parseDecimal s).unixNanos))
      else none
  | _ => none

/-- The strings of an array of JSON strings, `none` when an element is not a
string. -/
def stringElements : List JSON → Option (List GoString)
  | [] => some []
  | .string s :: rest => (stringElements rest).map (s :: ·)
  | _ :: _ => none

/-- `ClaimStrings.UnmarshalJSON`: one string, an array of strings, or `null`
(which leaves the field). -/
def decodeAudience (v : JSON) (old : List GoString) : Option (List GoString) :=
  match v with
  | .string s => some [s]
  | .array xs => stringElements xs
  | .null => some old
  | _ => none

/-- One member stored into the claims; a key that matches no field is
skipped. -/
def setClaim (c : RegisteredClaims) (m : GoString × JSON) : Option RegisteredClaims :=
  let k := foldName m.1
  if k = lit "iss" then (decodeStringField m.2 c.Issuer).map fun s => { c with Issuer := s }
  else if k = lit "sub" then (decodeStringField m.2 c.Subject).map fun s => { c with Subject := s }
  else if k = lit "aud" then (decodeAudience m.2 c.Audience).map fun a => { c with Audience := a }
  else if k = lit "exp" then (decodeNumericDate m.2).map fun d => { c with ExpiresAt := d }
  else if k = lit "nbf" then (decodeNumericDate m.2).map fun d => { c with NotBefore := d }
  else if k = lit "iat" then (decodeNumericDate m.2).map fun d => { c with IssuedAt := d }
  else if k = lit "jti" then (decodeStringField m.2 c.ID).map fun s => { c with ID := s }
  else some c

/-- The members of an object stored one after the other. -/
def setClaims (c : RegisteredClaims) : List (GoString × JSON) → Option RegisteredClaims
  | [] => some c
  | m :: ms =>
      match setClaim c m with
      | some c1 => setClaims c1 ms
      | none => none

/-- `json.NewDecoder(claimBytes).Decode(&claims)` into a fresh
`RegisteredClaims`: the first JSON value of the input is decoded and what
follows it is not looked at; an object fills the struct, `null` leaves it
zero, any other value is an error. -/
def decodeClaims (bs : List Byte) : Option RegisteredClaims :=
  match readValue bs with
  | some (.object ms, _) => setClaims RegisteredClaims.zero ms
  | some (.null, _) => some RegisteredClaims.zero
  | _ => none

/-- `json.Unmarshal(headerBytes, &token.Header)` into a map: the input must be
one JSON document, an object or `null`, whose numbers fit `float64`. -/
def unmarshalHeader (bs : List Byte) : Option (List (GoString × JSON)) :=
  match parseDocument bs with
  | some (.object ms) => if (JSON.object ms).numbersInRange then some ms else none
  | some .null => some []
  | _ => none

/-- The map entry `Header[key]`: of several members with one key the last is
kept. -/
def headerLookup (key : GoString) : List (GoString × JSON) → Option JSON
  | [] => none
  | (k, v) :: rest =>
      match headerLookup key rest with
      | some w => some w
      | none => if k = key then some v else none

/-! ## `github.com/golang-jwt/jwt/v4`: signing and parsing -/

/-- The bits of `ValidationError.Errors`. -/
def ValidationErrorMalformed : Nat := 1
/-- The token could not be verified because of a problem with the method. -/
def ValidationErrorUnverifiable : Nat := 2
/-- The signature check failed. -/
def ValidationErrorSignatureInvalid : Nat := 4
/-- The claim `exp` failed. -/
def ValidationErrorExpired : Nat := 16
/-- The claim `iat` failed. -/
def ValidationErrorIssuedAt : Nat := 32
/-- The claim `nbf` failed. -/
def ValidationErrorNotValidYet : Nat := 128

/-- The errors `ValidateJWT` returns: a `*jwt.ValidationError` with its bit
field, or an error made from a message. -/
inductive AuthError where
  | validation (Errors : Nat)
  | message (msg : GoError)
  deriving DecidableEq

/-- The signing methods registered with the package. The asymmetric methods
and `none` are grouped: with a `[]byte` key every one of them refuses to
verify. -/
inductive SigningMethod where
  | HS256
  | HS384
  | HS512
  | keyMismatch

/-- `jwt.GetSigningMethod`. -/
def GetSigningMethod (alg : GoString) : Option SigningMethod :=
  if alg = lit "HS256" then some .HS256
  else if alg = lit "HS384" then some .HS384
  else if alg = lit "HS512" then some .HS512
  else if alg ∈ [lit "RS256", lit "RS384", lit "RS512", lit "PS256", lit "PS384", lit "PS512",
      lit "ES256", lit "ES384", lit "ES512", lit "EdDSA", lit "none"] then some .keyMismatch
  else none

/-- `jwt.EncodeSegment`. -/
def EncodeSegment (seg : List Byte) : GoString := RawURLEncoding.Encode seg

/-- `jwt.DecodeSegment`, with `DecodePaddingAllowed` and `DecodeStrict` off. -/
def DecodeSegment (seg : GoString) : Option (List Byte) := RawURLEncoding.DecodeString seg

/-- `SigningMethodHMAC.Sign` with a `[]byte` key. -/
def hmacSign (h : Sha2) (signingString key : GoString) : GoString :=
  EncodeSegment (hmacSum h key signingString)

/-- `SigningMethodHMAC.Verify` with a `[]byte` key: the signature must decode
and equal the tag of the signing string. `true` stands for a nil error. -/
def hmacVerify (h : Sha2) (signingString signature key : GoString) : Bool :=
  match DecodeSegment signature with
  | none => false
  | some sig => sig = hmacSum h key signingString

/-- `Method.Verify` with the `[]byte` key that the key function of
`ValidateJWT` returns. -/
def SigningMethod.Verify (m : SigningMethod) (signingString signature key : GoString) : Bool :=
  match m with
  | .HS256 => hmacVerify SHA256 signingString signature key
  | .HS384 => hmacVerify SHA384 signingString signature key
  | .HS512 => hmacVerify SHA512 signingString signature key
  | .keyMismatch => false

/-- `strings.Split(s, sep)` for a separator of one byte. -/
def splitOn (sep : Byte) : GoString → List GoString
  | [] => [[]]
  | c :: rest =>
      if c = sep then [] :: splitOn sep rest
      else
        match splitOn sep rest with
        | [] => [[c]]
        | seg :: segs => (c :: seg) :: segs

/-- `Token.SigningString`: the encoded header and claims joined by a period. -/
def SigningString (alg : GoString) (claims : RegisteredClaims) : GoString :=
  EncodeSegment (marshalHeader alg) ++ byte 46 :: EncodeSegment (marshalClaims claims)

/-- `jwt.NewWithClaims(jwt.SigningMethodHS256, claims).SignedString(key)` with
a `[]byte` key: the signing string, a period and the encoded tag. Neither the
marshalling nor the signing can fail. -/
def SignedStringHS256 (claims : RegisteredClaims) (key : GoString) : GoString × Option AuthError :=
  let sstr := SigningString (lit "HS256") claims
  (sstr ++ byte 46 :: hmacSign SHA256 sstr key, none)

/-- What `Parser.ParseUnverified` extracts from a token. -/
structure Token where
  Method : SigningMethod
  Claims : RegisteredClaims
  signingString : GoString
  Signature : GoString

/-- `Parser.ParseUnverified`: exactly three segments, a header that decodes to
a JSON object, claims that decode, and a header `alg` that names a registered
method. -/
def ParseUnverified (tokenString : GoString) : Except AuthError Token :=
  match splitOn (byte 46) tokenString with
  | [p0, p1, p2] =>
      match DecodeSegment p0 with
      | none => .error (.validation ValidationErrorMalformed)
      | some headerBytes =>
          match unmarshalHeader headerBytes with
          | none => .error (.validation ValidationErrorMalformed)
          | some header =>
              match DecodeSegment p1 with
              | none => .error (.validation ValidationErrorMalformed)
              | some claimBytes =>
                  match decodeClaims claimBytes with
                  | none => .error (.validation ValidationErrorMalformed)
                  | some claims =>
                      match headerLookup (lit "alg") header with
                      | some (.string alg) =>
                          match GetSigningMethod alg with
                          | some method =>
                              .ok { Method := method, Claims := claims
                                    signingString := p0 ++ byte 46 :: p1, Signature := p2 }
                          | none => .error (.validation ValidationErrorUnverifiable)
                      | _ => .error (.validation ValidationErrorUnverifiable)
  | _ => .error (.validation ValidationErrorMalformed)

/-- `RegisteredClaims.Valid` at the instant `now`: the bits of the time claims
that fail. A claim that is absent passes. -/
def RegisteredClaims.Valid (c : RegisteredClaims) (now : Time) : Nat :=
  (match c.ExpiresAt with
    | some exp => if now < exp then 0 else ValidationErrorExpired
    | none => 0)
  + (match c.IssuedAt with
    | some iat => if iat ≤ now then 0 else ValidationErrorIssuedAt
    | none => 0)
  + (match c.NotBefore with
    | some nbf => if nbf ≤ now then 0 else ValidationErrorNotValidYet
    | none => 0)

/-- `Parser.ParseWithClaims` (v4.5) with a key function that returns `key`:
the token is parsed, its signature verified, and then its claims validated
against the clock. -/
def ParseWithClaims (now : Time) (tokenString key : GoString) : Except AuthError Token :=
  match ParseUnverified tokenString with
  | .error e => .error e
  | .ok token =>
      if ¬ token.Method.Verify token.signingString token.Signature key then
        .error (.validation ValidationErrorSignatureInvalid)
      else if token.Claims.Valid now ≠ 0 then .error (.validation (token.Claims.Valid now))
      else .ok token

/-! ## `auth.MakeJWT`, `auth.ValidateJWT` -/

/-- The struct literal `claims` of `MakeJWT`. `now1` and `now2` are the two
readings of `time.Now()`, in the order of the literal: the first for
`IssuedAt`, the second for `ExpiresAt`. -/
def MakeJWTClaims (now1 now2 : Time) (userID : UUID) (expiresIn : Duration) : RegisteredClaims :=
  { Issuer := lit "chirpy"
    IssuedAt := some (NewNumericDate now1)
    ExpiresAt := some (NewNumericDate (now2 + expiresIn))
    Subject := userID.String
    Audience := [], NotBefore := none, ID := [] }

/-- Whether a count of nanoseconds fits an `int64`, as a `time.Duration` and
the Unix nanoseconds of a clock reading do. -/
def fitsInt64 (x : Int) : Prop := -(2 ^ 63) ≤ x ∧ x < 2 ^ 63

instance (x : Int) : Decidable (fitsInt64 x) := by unfold fitsInt64; infer_instance

/-- Whether a clock reading is an instant a `time.Time` can hold: its Unix
seconds fit an `int64`. -/
def validTime (t : Int) : Prop := -(2 ^ 63) * 1000000000 ≤ t ∧ t < 2 ^ 63 * 1000000000

instance (t : Int) : Decidable (validTime t) := by unfold validTime; infer_instance

/-- `MakeJWT` of `internal/auth/auth.go`: the claims signed with HS256 under
the secret. -/
def MakeJWT (now1 now2 : Time) (userID : UUID) (tokenSecret : GoString) (expiresIn : Duration) :
    GoString × Option AuthError :=
  SignedStringHS256 (MakeJWTClaims now1 now2 userID expiresIn) tokenSecret

/-- `ValidateJWT` of `internal/auth/auth.go`, at the instant `now` of the
clock: a token that fails to parse or verify gives `uuid.Nil` and the error;
otherwise the result is that of `uuid.Parse` on the subject. -/
def ValidateJWT (now : Time) (tokenString tokenSecret : GoString) : UUID × Option AuthError :=
  match ParseWithClaims now tokenString tokenSecret with
  | .error e => (UUID.Nil, some e)
  | .ok token =>
      let r := uuidParse token.Claims.Subject
      (r.1, r.2.map AuthError.message)

/-! ## The entropy source -/

/-- The state of `crypto/rand.Reader` at a call: either it fails with an error
or it yields a stream of bytes. -/
abbrev RandSource := Except GoError (Nat → Byte)

/-- `rand.Read(b)` on a buffer of `n` bytes: the buffer filled with the next
`n` bytes of the stream, or the error of the source. -/
def randRead (src : RandSource) (n : Nat) : Except GoError (List Byte) :=
  match src with
  | .error e => .error e
  | .ok stream => .ok ((List.range n).map stream)

/-! ## `auth.MakeRefreshToken` -/

/-- `MakeRefreshToken` of `internal/auth/auth.go`: 32 random bytes, hex-encoded;
the empty string and a wrapped error when the entropy source fails. -/
def MakeRefreshToken (src : RandSource) : GoString × Option GoError :=
  match randRead src 32 with
  | .error e => ([], some ("failed to generate random bytes: " ++ e))
  | .ok randomBytes => (hexEncodeToString randomBytes, none)

/-! ## Predicates used in the proofs -/

/-- What the round trip needs of an encoding: the decode map inverts the
alphabet, and the padding character is outside the alphabet and no newline. -/
structure Encoding.Sound (e : Encoding) : Prop where
  inv : ∀ i : Fin 64, e.decodeMap (e.enc i.val) = some i.val
  padOut : ∀ p, e.padChar = some p → e.decodeMap p = none ∧ isNewline p = false

/-- A byte that can follow a number literal: no digit, point or exponent mark. -/
def endsNumber (c : Byte) : Prop := isDigit c = false ∧ c.val ≠ 46 ∧ c.val ≠ 101 ∧ c.val ≠ 69

/-! ## Notions the claims are stated with -/

/-- Whether a segment is base64url-encoded JSON: it is the encoding, as
`EncodeSegment` writes it, of bytes that are one JSON document. -/
def isEncodedJSON (seg : GoString) : Bool :=
  match DecodeSegment seg with
  | some bs => decide (seg = EncodeSegment bs) && (parseDocument bs).isSome
  | none => false

/-- Whether a token is structurally valid, in the words of the specification:
exactly three segments separated by periods, of which the header segment and
the claims segment are base64url-encoded JSON. -/
def structurallyValid (tokenString : GoString) : Bool :=
  match splitOn (byte 46) tokenString with
  | [p0, p1, _] => isEncodedJSON p0 && isEncodedJSON p1
  | _ => false

/-- Whether the segments of a token can be read: exactly three segments
separated by periods, a header segment that the base64 decoder accepts and
that holds one JSON document, and a claims segment that the base64 decoder
accepts and that begins with a JSON value. -/
def segmentsReadable (tokenString : GoString) : Bool :=
  match splitOn (byte 46) tokenString with
  | [p0, p1, _] =>
      (match DecodeSegment p0 with
        | some bs => (parseDocument bs).isSome
        | none => false)
      && (match DecodeSegment p1 with
        | some bs => (readValue bs).isSome
        | none => false)
  | _ => false

/-- Whether `ParseUnverified` finds header and claims in a token: exactly
three segments separated by periods, a header segment that is base64url text
which `json.Unmarshal` accepts for the header map, and a claims segment that is
base64url text which the JSON decoder accepts for `RegisteredClaims`. -/
def parserAccepts (tokenString : GoString) : Bool :=
  match splitOn (byte 46) tokenString with
  | [p0, p1, _] =>
      ((DecodeSegment p0).bind unmarshalHeader).isSome
        && ((DecodeSegment p1).bind decodeClaims).isSome
  | _ => false

/-- The claims a token carries: those `ParseUnverified` reads from it. -/
def tokenClaims (tokenString : GoString) : Option RegisteredClaims :=
  match ParseUnverified tokenString with
  | .ok token => some token.Claims
  | .error _ => none

/-! ## The HTTP layer: requests, responses, collaborators -/

/-- `http.StatusOK`. -/
def StatusOK : Nat := 200
/-- `http.StatusNoContent`. -/
def StatusNoContent : Nat := 204
/-- `http.StatusBadRequest`. -/
def StatusBadRequest : Nat := 400
/-- `http.StatusUnauthorized`. -/
def StatusUnauthorized : Nat := 401
/-- `http.StatusInternalServerError`. -/
def StatusInternalServerError : Nat := 500

/-- The errors of the queries: `sql.ErrNoRows` or any other error. -/
inductive DBError where
  | ErrNoRows
  | other (msg : GoError)
  deriving DecidableEq

/-- The error value a handler hands to `respondWithError` for logging. -/
inductive LoggedError where
  | decode (msg : GoError)
  | db (e : DBError)
  | auth (e : AuthError)
  | message (msg : GoError)
  deriving DecidableEq

/-- The row `database.User`, with the fields the session handlers read. -/
structure User where
  ID : UUID
  Email : GoString
  HashedPassword : GoString
  IsChirpyRed : Bool
  deriving DecidableEq

/-- `database.CreateRefreshTokenParams`. -/
structure CreateRefreshTokenParams where
  UserID : UUID
  Token : GoString
  deriving DecidableEq

/-- The JSON bodies the session handlers send. -/
inductive Payload where
  | login (ID : UUID) (Email Token RefreshToken : GoString) (IsChirpyRed : Bool)
  | token (Token : GoString)
  deriving DecidableEq

/-- What a handler writes: the call it makes on the response writer.
`respondWithError(w, code, msg, err)` and `respondWithJSON(w, code, payload)`
are helpers of the repository outside the given sources; the response is
recorded as the call and its arguments. -/
inductive Response where
  | respondWithError (code : Nat) (msg : String) (err : Option LoggedError)
  | respondWithJSON (code : Nat) (payload : Payload)
  | WriteHeader (code : Nat)
  deriving DecidableEq

/-- The status code of a response. -/
def Response.status : Response → Nat
  | .respondWithError code _ _ => code
  | .respondWithJSON code _ => code
  | .WriteHeader code => code

/-- The message of an error response. -/
def Response.message : Response → Option String
  | .respondWithError _ msg _ => some msg
  | _ => none

/-- The tokens a response carries: access token and refresh token. -/
def Response.tokens : Response → List GoString
  | .respondWithJSON _ (.login _ _ token refreshToken _) => [token, refreshToken]
  | .respondWithJSON _ (.token token) => [token]
  | _ => []

/-- The queries of `database.Queries` that the session handlers call, over a
store of type `σ`. The generated package is outside the given sources, so the
queries are parameters: a lookup reads the store, and an insert or update
returns the store after it. -/
structure Queries (σ : Type) where
  GetUserByEmail : σ → GoString → Except DBError User
  CreateRefreshToken : σ → CreateRefreshTokenParams → Except DBError Unit × σ
  GetUserFromRefreshToken : σ → GoString → Except DBError User
  RevokeRefreshToken : σ → GoString → Except DBError Unit × σ

/-- The functions of package `auth` as a handler calls them during one
request, with the clock and the entropy source of that request fixed. -/
structure Auth where
  CheckPasswordHash : GoString → GoString → Bool
  MakeJWT : UUID → GoString → Duration → GoString × Option AuthError
  MakeRefreshToken : GoString × Option GoError
  GetBearerToken : GoString → GoString × Option GoError

/-- The struct `apiConfig` of `main.go`. A field that a struct literal leaves
out holds its zero value. -/
structure apiConfig (σ : Type) where
  fileserverHits : Int := 0
  DB : Queries σ
  PLATFORM : GoString := []
  secret : GoString
  polkaWebhookSecret : GoString := []

/-- An `http.Request`: its `Authorization` header and its body. -/
structure Request where
  Authorization : GoString
  Body : GoString

/-- The calls on collaborators that change or create session state. -/
inductive Effect where
  | MakeJWT (userID : UUID) (expiresIn : Duration)
  | MakeRefreshToken
  | CreateRefreshToken (arg : CreateRefreshTokenParams)
  | RevokeRefreshToken (token : GoString)
  deriving DecidableEq

/-- What a handler leaves behind: its response, the store after it, and the
effects it performed, in order. -/
structure Outcome (σ : Type) where
  response : Response
  store : σ
  effects : List Effect

/-- The request struct of `handlerLogin`. -/
structure Credentials where
  Email : GoString
  Password : GoString
  deriving DecidableEq

/-- One member stored into the request struct of `handlerLogin`. -/
def setCredential (c : Credentials) (m : GoString × JSON) : Option Credentials :=
  let k := foldName m.1
  if k = lit "email" then (decodeStringField m.2 c.Email).map fun s => { c with Email := s }
  else if k = lit "password" then
    (decodeStringField m.2 c.Password).map fun s => { c with Password := s }
  else some c

/-- The members of an object stored one after the other. -/
def setCredentials (c : Credentials) : List (GoString × JSON) → Option Credentials
  | [] => some c
  | m :: ms =>
      match setCredential c m with
      | some c1 => setCredentials c1 ms
      | none => none

/-- `json.NewDecoder(r.Body).Decode(&req)` in `handlerLogin`. -/
def decodeCredentials (body : GoString) : Option Credentials :=
  match readValue body with
  | some (.object ms, _) => setCredentials { Email := [], Password := [] } ms
  | some (.null, _) => some { Email := [], Password := [] }
  | _ => none

/-! ## `handlerLogin` -/

/-- `handlerLogin` of `login.go`, from the store `st`. -/
def handlerLogin {σ : Type} (cfg : apiConfig σ) (auth : Auth) (st : σ) (r : Request) : Outcome σ :=
  match decodeCredentials r.Body with
  | none =>
      { response := .respondWithError StatusBadRequest "Couldn't decode parameters"
          (some (.decode "invalid body"))
        store := st, effects := [] }
  | some req =>
      match cfg.DB.GetUserByEmail st req.Email with
      | .error .ErrNoRows =>
          { response := .respondWithError StatusUnauthorized "Invalid email or password" none
            store := st, effects := [] }
      | .error e =>
          { response := .respondWithError StatusInternalServerError "Couldn't find user"
              (some (.db e))
            store := st, effects := [] }
      | .ok user =>
          if ¬ auth.CheckPasswordHash req.Password user.HashedPassword then
            { response := .respondWithError StatusUnauthorized "Invalid email or password" none
              store := st, effects := [] }
          else
            match auth.MakeJWT user.ID cfg.secret Hour with
            | (_, some err) =>
                { response := .respondWithError StatusInternalServerError
                    "Couldn't generate access token" (some (.auth err))
                  store := st, effects := [.MakeJWT user.ID Hour] }
            | (accessToken, none) =>
                match auth.MakeRefreshToken with
                | (_, some err) =>
                    { response := .respondWithError StatusInternalServerError
                        "Couldn't generate refresh token" (some (.message err))
                      store := st, effects := [.MakeJWT user.ID Hour, .MakeRefreshToken] }
                | (refreshTokenString, none) =>
                    match cfg.DB.CreateRefreshToken st
                        { UserID := user.ID, Token := refreshTokenString } with
                    | (.error e, st1) =>
                        { response := .respondWithError StatusInternalServerError
                            "Couldn't store refresh token" (some (.db e))
                          store := st1
                          effects := [.MakeJWT user.ID Hour, .MakeRefreshToken,
                            .CreateRefreshToken { UserID := user.ID, Token := refreshTokenString }] }
                    | (.ok _, st1) =>
                        { response := .respondWithJSON StatusOK
                            (.login user.ID user.Email accessToken refreshTokenString
                              user.IsChirpyRed)
                          store := st1
                          effects := [.MakeJWT user.ID Hour, .MakeRefreshToken,
                            .CreateRefreshToken { UserID := user.ID, Token := refreshTokenString }] }

/-! ## `golang.org/x/crypto/blowfish` -/

/-- The initial subkeys `p` of `const.go`: the first hexadecimal digits of the
fraction of pi. -/
def blowfishP : Array Nat := Array.mk
  [0x243f6a88, 0x85a308d3, 0x13198a2e, 0x03707344, 0xa4093822, 0x299f31d0, 0x082efa98, 0xec4e6c89,
   0x452821e6, 0x38d01377, 0xbe5466cf, 0x34e90c6c, 0xc0ac29b7, 0xc97c50dd, 0x3f84d5b5, 0xb5470917,
   0x9216d5d9, 0x8979fb1b]

/-- The digits of pi that follow, eight words of 32 bits to a number. -/
def blowfishDigits : List Nat :=
  [0xd1310ba698dfb5ac2ffd72dbd01adfb7b8e1afed6a267e96ba7c9045f12c7f99,
   0x24a19947b3916cf70801f2e2858efc16636920d871574e69a458fea3f4933d7e,
   0x0d95748f728eb658718bcd5882154aee7b54a41dc25a59b59c30d5392af26013,
   0xc5d1b023286085f0ca417918b8db38ef8e79dcb0603a180e6c9e0e8bb01e8a3e,
   0xd71577c1bd314b2778af2fda55605c60e65525f3aa55ab945748986263e81440,
   0x55ca396a2aab10b6b4cc5c341141e8cea15486af7c72e993b3ee1411636fbc2a,
   0x2ba9c55d741831f6ce5c3e169b87931eafd6ba336c24cf5c7a32538128958677,
   0x3b8f48986b4bb9afc4bfe81b6628219361d809ccfb21a991487cac605dec8032,
   0xef845d5de98575b1dc262302eb651b8823893e81d396acc50f6d6ff383f44239,
   0x2e0b4482a484200469c8f04a9e1f9b5e21c66842f6e96c9a670c9c61abd388f0,
   0x6a51a0d2d8542f68960fa728ab5133a36eef0b6c137a3be4ba3bf0507efb2a98,
   0xa1f1651d39af017666ca593e82430e888cee8619456f9fb47d84a5c33b8b5ebe,
   0xe06f75d885c12073401a449f56c16aa64ed3aa62363f77061bfedf72429b023d,
   0x37d0d724d00a1248db0fead349f1c09b075372c980991b7b25d479d8f6e8def7,
   0xe3fe501ab6794c3b976ce0bd04c006bac1a94fb6409f60c45e5c9ec2196a2463,
   0x68fb6faf3e6c53b51339b2eb3b52ec6f6dfc511f9b30952ccc814544af5ebd09,
   0xbee3d004de334afd660f2807192e4bb3c0cba85745c8740fd20b5f39b9d3fbdb,
   0x5579c0bd1a60320ad6a100c6402c7279679f25fefb1fa3cc8ea5e9f8db3222f8,
   0x3c7516dffd616b152f501ec8ad0552ab323db5fafd23876053317b483e00df82,
   0x9e5c57bbca6f8ca01a87562edf1769dbd542a8f6287effc3ac6732c68c4f5573,
   0x695b27b0bbca58c8e1ffa35db8f011a010fa3d98fd2183b84afcb56c2dd1d35b,
   0x9a53e479b6f84565d28e49bc4bfb9790e1ddf2daa4cb7e3362fb1341cee4c6e8,
   0xef20cada36774c01d07e9efe2bf11fb495dbda4dae909198eaad8e716b93d5a0,
   0xd08ed1d0afc725e08e3c5b2f8e7594b78ff6e2fbf2122b648888b812900df01c,
   0x4fad5ea0688fc31cd1cff191b3a8c1ad2f2f2218be0e1777ea752dfe8b021fa1,
   0xe5a0cc0fb56f74e818acf3d6ce89e299b4a84fe0fd13e0b77cc43b81d2ada8d9,
   0x165fa2668095770593cc7314211a1477e6ad206577b5fa86c75442f5fb9d35cf,
   0xebcdaf0c7b3e89a0d6411bd3ae1e7e4900250e2d2071b35e226800bb57b8e0af,
   0x2464369bf009b91e5563911d59dfa6aa78c14389d95a537f207d5ba202e5b9c5,
   0x832603766295cfa911c819684e734a41b3472dca7b14a94a1b5100529a532915,
   0xd60f573fbc9bc6e42b60a47681e6740008ba6fb5571be91ff296ec6b2a0dd915,
   0xb6636521e7b9f9b6ff34052ec585566453b02d5da99f8fa108ba47996e85076a,
   0x4b7a70e9b5b32944db75092ec4192623ad6ea6b049a7df7d9cee60b88fedb266,
   0xecaa8c71699a17ff5664526cc2b19ee1193602a575094c29a0591340e4183a3e,
   0x3f54989a5b429d656b8fe4d699f73fd6a1d29c07efe830f54d2d38e6f0255dc1,
   0x4cdd20868470eb266382e9c6021ecc5e09686b3f3ebaefc93c9718146b6a70a1,
   0x687f358452a0e286b79c5305aa5007373e07841c7fdeae5c8e7d44ec5716f2b8,
   0xb03ada37f0500c0df01c1f040200b3ffae0cf51a3cb574b225837a58dc0921bd,
   0xd19113f97ca92ff69432477322f547013ae5e58137c2dadcc8b576349af3dda7,
   0xa94461460fd0030eecc8c73ea4751e41e238cd993bea0e2f3280bba1183eb331,
   0x4e548b384f6db9086f420d03f60a04bf2cb8129024977c795679b072bcaf89af,
   0xde9a771fd9930810b38bae12dccf3f2e5512721f2e6b7124501adde69f84cd87,
   0x7a5847187408da17bc9f9abce94b7d8cec7aec3adb851dfa63094366c464c3d2,
   0xef1c18473215d908dd433b3724c2ba1612a14d432a65c45150940002133ae4dd,
   0x71dff89e10314e5581ac77d65f11199b043556f1d7a3c76b3c11183b5924a509,
   0xf28fe6ed97f1fbfa9ebabf2c1e153c6e86e34570eae96fb1860e5e0a5a3e2ab3,
   0x771fe71c4e3d06fa2965dcb999e71d0f803e89d65266c8252e4cc9789c10b36a,
   0xc6150eba94e2ea78a5fc3c531e0a2df4f2f74ea7361d2b3d1939260f19c27960,
   0x5223a708f71312b6ebadfe6eeac31f66e3bc4595a67bc883b17f37d1018cff28,
   0xc332ddefbe6c5aa56558218568ab9802eecea50fdb2f953b2aef7dad5b6e2f84,
   0x1521b62829076170ecdd4775619f151013cca830eb61bd960334fe1eaa0363cf,
   0xb5735c904c70a239d59e9e0bcbaade14eecc86bc60622ca79cab5cabb2f3846e,
   0x648b1eaf19bdf0caa02369b9655abb5040685a323c2ab4b3319ee9d5c021b8f7,
   0x9b540b19875fa09995f7997e623d7da8f837889a97e32d7711ed935f16681281,
   0x0e358829c7e61fd696dedfa17858ba9957f584a51b2272639b83c3ff1ac24696,
   0xcdb30aeb532e30548fd948e46dbc312858ebf2ef34c6ffeafe28ed61ee7c3c73,
   0x5d4a14d9e864b7e342105d14203e13e045eee2b6a3aaabeadb6c4f15facb4fd0,
   0xc742f442ef6abbb5654f3b1d41cd2105d81e799e86854dc7e44b476a3d816250,
   0xcf62a1f25b8d2646fc8883a0c1c7b6a37f1524c369cb749247848a0b5692b285,
   0x095bbf00ad19489d1462b17423820e0058428d2a0c55f5ea1dadf43e233f7061,
   0x3372f0928d937e41d65fecf16c223bdb7cde3759cbee74604085f2a7ce77326e,
   0xa607808419f8509ee8efd85561d99735a969a7aac50c06c25a04abfc800bcadc,
   0x9e447a2ec3453484fdd567050e1e9ec9db73dbd3105588cd675fda79e3674340,
   0xc5c43465713e38d83d28f89ef16dff20153e21e78fb03d4ae6e39f2bdb83adf7,
   0xe93d5a68948140f7f64c261c94692934411520f77602d4f7bcf46b2ed4a20068,
   0xd40824713320f46a43b7d4b7500061af1e39f62e9724454614214f74bf8b8840,
   0x4d95fc1d96b591af70f4ddd366a02f45bfbc09ec03bd97857fac6dd031cb8504,
   0x96eb27b355fd3941da2547e6abca0a9a28507825530429f40a2c86dae9b66dfb,
   0x68dc1462d7486900680ec0a427a18dee4f3ffea2e887ad8cb58ce0067af4d6b6,
   0xaace1e7cd3375fecce78a399406b2a4220fe9e35d9f385b9ee39d7ab3b124e8b,
   0x1dc9faf74b6d185626a36631eae397b23a6efa74dd5b43326841e7f7ca7820fb,
   0xfb0af54ed8feb397454056acba48952755533a3a20838d87fe6ba9b7d096954b,
   0x55a867bca1159a58cca9296399e1db33a62a4a563f3125f95ef47e1c9029317c,
   0xfdf8e80204272f7080bb155c05282ce395c11548e4c66d2248c1133fc70f86dc,
   0x07f9c9ee41041f0f404779a45d886e17325f51ebd59bc0d1f2bcc18f41113564,
   0x257b7834602a9c60dff8e8a31f636c1b0e12b4c202e1329eaf664fd1cad18115,
   0x6b2395e0333e92e13b240b62eebeb92285b2a20ee6ba0d99de720c8c2da2f728,
   0xd012784595b794fd647d0862e7ccf5f05449a36f877d48fac39dfd27f33e8d1e,
   0x0a476341992eff743a6f6eabf4f8fd37a812dc60a1ebddf8991be14cdb6e6b0d,
   0xc67b55106d672c372765d43bdcd0e804f1290dc7cc00ffa3b5390f92690fed0b,
   0x667b9ffbcedb7d9ca091cf0bd9155ea3bb132f88515bad247b9479bf763bd6eb,
   0x37392eb3cc1159798026e297f42e312d6842ada7c66a2b3b12754ccc782ef11c,
   0x6a124237b79251e706a1bbe64bfb63501a6b101811caedfa3d25bdd8e2e1c3c9,
   0x444216590a121386d90cec6ed5abea2a64af674eda86a85fbebfe98864e4c3fe,
   0x9dbc8057f0f7c08660787bf86003604dd1fd8346f6381fb07745ae04d736fccc,
   0x83426b33f01eab71b08041873c005e5f77a057bebde8ae2455464299bf582e61,
   0x4e58f48ff2ddfda2f474ef388789bdc25366f9c3c8b38e74b475f25546fcd9b9,
   0x7aeb26618b1ddf84846a0e79915f95e2466e598e20b457708cd55591c902de4c,
   0xb90bace1bb8205d011a862487574a99eb77f19b6e0a9dc09662d09a1c4324633,
   0xe85a1f0209f0be8c4a99a0251d6efe101ab93d1d0ba5a4dfa186f20f2868f169,
   0xdcb7da83573906fea1e2ce9b4fcd7f5250115e01a70683faa002b5c40de6d027,
   0x9af88c27773f8641c3604c0661a806b5f0177a28c0f586e0006058aa30dc7d62,
   0x11e69ed72338ea6353c2dd94c2c21634bbcbee5690bcb6deebfc7da1ce591d76,
   0x6f05e4094b7c018839720a3d7c927c2486e3725f724d9db91ac15bb4d39eb8fc,
   0xed54557808fca5b5d83d7cd34dad0fc41e50ef5eb161e6f8a28514d96c51133c,
   0x6fd5c7e756e14ec4362abfceddc6c837d79a323492638212670efa8e406000e0,
   0x3a39ce37d3faf5cfabc277375ac52d1b5cb0679e4fa33742d382274099bc9bbe,
   0xd5118e9dbf0f7315d62d1c7ec700c47bb78c1b6b21a19045b26eb1be6a366eb4,
   0x5748ab2fbc946e79c6a376d26549c2c8530ff8ee468dde7dd5730a1d4cd04dc6,
   0x2939bbdba9ba4650ac9526e8be5ee304a1fad5f06a2d519a63ef8ce29a86ee22,
   0xc089c2b843242ef6a51e03aa9cf2d0a483c061ba9be96a4d8fe51550ba645bd6,
   0x2826a2f9a73a3ae14ba99586ef5562e9c72fefd3f752f7da3f046f6977fa0a59,
   0x80e4a91587b086019b09e6ad3b3ee593e990fd5a9e34d7972cf0b7d9022b8b51,
   0x96d5ac3a017da67dd1cf3ed67c7d2d281f9f25cfadf2b89b5ad6b4725a88f54c,
   0xe029ac71e019a5e647b0acfded93fa9be8d3c48d283b57ccf8d5662979132e28,
   0x785f0191ed756055f7960e44e3d35e8c15056dd488f46dba03a161250564f0bd,
   0xc3eb9e153c9057a297271aeca93a072a1b3f6d9b1e6321f5f59c66fb26dcf319,
   0x7533d928b155fdf5035634828aba3cbb28517711c20ad9f8abcc5167ccad925f,
   0x4de817513830dc8e379d58629320f991ea7a90c2fb3e7bce5121ce64774fbe32,
   0xa8b6e37ec3293d4648de53696413e680a2ae0810dd6db22469852dfd09072166,
   0xb39a460a6445c0dd586cdecf1c20c8ae5bbef7dd1b588d40ccd2017f6bb4e3bb,
   0xdda26a7e3a59ff453e350a44bcb4cdd572eacea8fa6484bb8d6612aebf3c6f47,
   0xd29be463542f5d9eaec2771bf64e6370740e0d8de75b1357f8721671af537d5d,
   0x4040cb084eb4e2cc34d2466a0115af84e1b0042895983a1d06b89fb4ce6ea048,
   0x6f3f3b823520ab82011a1d4b277227f8611560b1e7933fdcbb3a792b344525bd,
   0xa08839e151ce794b2f32c9b7a01fbac9e01cc87ebcc7d1f6cf0111c3a1e8aac7,
   0x1a908749d44fbd9ad0dadecbd50ada380339c32ac69136678df9317ce0b12b4f,
   0xf79e59b743f5bb3af2d519ff27d9459cbf97222c15e6fc2a0f91fc719b941525,
   0xfae59361ceb69cebc2a8645912baa8d1b6c1075ee3056a0c10d25065cb03a442,
   0xe0ec6e0e1698db3b4c98a0be3278e9649f1f9532e0d392dfd3a0342b8971f21e,
   0x1b0a74414ba3348cc5be7120c37632d8df359f8d9b992f2ee60b6f470fe3f11d,
   0xe54cda541edad891ce6279cfcd3e7e6f1618b166fd2c1d05848fd2c5f6fb2299,
   0xf523f357a632762393a8353156cccd02acf081625a75ebb56e16369788d273cc,
   0xde96629281b949d04c50901b71c65614e6c6c7bd327a140a45e1d006c3f27b9a,
   0xc9aa53fd62a80f00bb25bfe235bdd2f671126905b2040222b6cbcf7ccd769c2b,
   0x53113ec01640e3d338abbd602547adf0ba38209cf746ce7677afa1c520756060,
   0x85cbfe4e8ae88dd87aaaf9b04cf9aa7e1948c25c02fb8a8c01c36ae4d6ebe1f9,
   0x90d4f869a65cdea03f09252dc208e69fb74e6132ce77e25b578fdfe33ac372e6]

/-- The eight 32-bit words of a number of 256 bits, the highest first. -/
def wordsOf (chunk : Nat) : List Nat :=
  (List.range 8).map fun i => chunk / 2 ^ (32 * (7 - i)) % 4294967296

/-- The initial substitution boxes `s0`, `s1`, `s2`, `s3` of `const.go`, one
after another. -/
def blowfishS : Array Nat := Array.mk (blowfishDigits.flatMap wordsOf)

/-- A `blowfish.Cipher`: the subkeys and the four boxes, one after another. -/
structure Cipher where
  p : Array Nat
  s : Array Nat

/-- `initCipher`. -/
def initCipher : Cipher := { p := blowfishP, s := blowfishS }

/-- The round function on a 32-bit word, with the additions of `uint32`. -/
def Cipher.f (c : Cipher) (x : Nat) : Nat :=
  ((((c.s.getD (x / 16777216 % 256) 0 + c.s.getD (256 + x / 65536 % 256) 0) % 4294967296)
      ^^^ c.s.getD (512 + x / 256 % 256) 0)
    + c.s.getD (768 + x % 256) 0) % 4294967296

/-- `encryptBlock`: sixteen rounds and the final exclusive or. -/
def encryptBlock (l r : Nat) (c : Cipher) : Nat × Nat :=
  let st := (List.range' 1 16).foldl
    (fun (st : Nat × Nat) i => ((st.2 ^^^ c.f st.1) ^^^ c.p.getD i 0, st.1))
    (l ^^^ c.p.getD 0 0, r)
  (st.2 ^^^ c.p.getD 17 0, st.1)

/-- `getNextWord`: the next four bytes of `b`, read cyclically from position
`pos`, as a big-endian word, and the position after them. -/
def getNextWord (b : List Byte) (pos : Nat) : Nat × Nat :=
  (List.range 4).foldl
    (fun (st : Nat × Nat) _ =>
      (st.1 * 256 + (b.getD st.2 0).val, if st.2 + 1 ≥ b.length then 0 else st.2 + 1))
    (0, pos)

/-- The subkeys after `p[i] ^= getNextWord(key, &j)` for the 18 entries. -/
def xorKey (key : List Byte) (c : Cipher) : Cipher :=
  let st := (List.range 18).foldl
    (fun (st : Array Nat × Nat) i =>
      let w := getNextWord key st.2
      (st.1.setD i (st.1.getD i 0 ^^^ w.1), w.2))
    (c.p, 0)
  { c with p := st.1 }

/-- The state of the key schedule: the running block, the position in the
salt and the cipher. -/
structure Schedule where
  l : Nat
  r : Nat
  j : Nat
  c : Cipher

/-- One step of the key schedule: the running block, mixed with the next two
words of the salt when there is one, is encrypted and stored. -/
def Schedule.step (salt : Option (List Byte)) (store : Cipher → Nat → Nat → Cipher)
    (st : Schedule) : Schedule :=
  let (l1, r1, j1) :=
    match salt with
    | none => (st.l, st.r, st.j)
    | some b =>
        let w1 := getNextWord b st.j
        let w2 := getNextWord b w1.2
        (st.l ^^^ w1.1, st.r ^^^ w2.1, w2.2)
  let lr := encryptBlock l1 r1 st.c
  { l := lr.1, r := lr.2, j := j1, c := store st.c lr.1 lr.2 }

/-- The loops that replace the subkeys and the boxes, two entries at a time. -/
def replaceAll (salt : Option (List Byte)) (c : Cipher) : Cipher :=
  let st0 : Schedule := { l := 0, r := 0, j := 0, c := c }
  let st1 := (List.range 9).foldl
    (fun st i => st.step salt fun c l r => { c with p := (c.p.setD (2 * i) l).setD (2 * i + 1) r })
    st0
  let st2 := (List.range 512).foldl
    (fun st i => st.step salt fun c l r => { c with s := (c.s.setD (2 * i) l).setD (2 * i + 1) r })
    st1
  st2.c

/-- `ExpandKey`. -/
def ExpandKey (key : List Byte) (c : Cipher) : Cipher := replaceAll none (xorKey key c)

/-- `expandKeyWithSalt`. -/
def expandKeyWithSalt (key salt : List Byte) (c : Cipher) : Cipher :=
  replaceAll (some salt) (xorKey key c)

/-- `NewSaltedCipher`: without salt it is `NewCipher`, which wants a key of 1
to 56 bytes; with salt it wants a key of at least one byte. -/
def NewSaltedCipher (key salt : List Byte) : Option Cipher :=
  if salt.length = 0 then
    if key.length < 1 ∨ key.length > 56 then none else some (ExpandKey key initCipher)
  else if key.length < 1 then none
  else some (expandKeyWithSalt key salt initCipher)

/-- `Cipher.Encrypt` on one block of eight bytes. -/
def Cipher.Encrypt (c : Cipher) (src : List Byte) : List Byte :=
  let lr := encryptBlock (beWord (src.take 4)) (beWord ((src.drop 4).take 4)) c
  beBytes 4 lr.1 ++ beBytes 4 lr.2

/-! ## `golang.org/x/crypto/bcrypt` -/

/-- `bcEncoding`: the alphabet of bcrypt with the standard padding. -/
def bcEncoding : Encoding :=
  { alphabet := lit "./ABCDEFGHIJKLMNOPQRSTUVWXYZabcdefghijklmnopqrstuvwxyz0123456789"
    padChar := some (byte 61) }

/-- The list without its trailing bytes equal to `c`. -/
def dropTrailing (c : Byte) : List Byte → List Byte
  | [] => []
  | x :: xs =>
      match dropTrailing c xs with
      | [] => if x = c then [] else [x]
      | ys => x :: ys

/-- `base64Encode` of bcrypt: the encoding without its trailing `=`. -/
def base64Encode (src : List Byte) : GoString := dropTrailing (byte 61) (bcEncoding.Encode src)

/-- `base64Decode` of bcrypt: `4 - len % 4` characters `=` are appended before
decoding. -/
def base64Decode (src : GoString) : Option (List Byte) :=
  bcEncoding.DecodeString (src ++ List.replicate (4 - src.length % 4) (byte 61))

/-- `bcrypt.MinCost`. -/
def MinCost : Nat := 4
/-- `bcrypt.MaxCost`. -/
def MaxCost : Nat := 31
/-- `bcrypt.DefaultCost`. -/
def DefaultCost : Nat := 10

/-- The text `OrpheanBeholderScryDoubt` that bcrypt encrypts. -/
def magicCipherData : List Byte := lit "OrpheanBeholderScryDoubt"

/-- A function applied `n` times. -/
def iterate {α : Type} (f : α → α) : Nat → α → α
  | 0, a => a
  | n + 1, a => iterate f n (f a)

/-- `expensiveBlowfishSetup`: the salt is decoded, the key gets a trailing zero
byte, and the key and the salt are expanded `2 ^ cost` times in turn. -/
def expensiveBlowfishSetup (key : List Byte) (cost : Nat) (salt : GoString) : Option Cipher :=
  match base64Decode salt with
  | none => none
  | some csalt =>
      let ckey := key ++ [byte 0]
      match NewSaltedCipher ckey csalt with
      | none => none
      | some c => some (iterate (fun c => ExpandKey csalt (ExpandKey ckey c)) (2 ^ cost) c)

/-- The function `bcrypt` of the package: each of the three blocks of the
magic text is encrypted 64 times, and 23 of the 24 bytes are encoded. -/
def bcryptHash (password : List Byte) (cost : Nat) (salt : GoString) : Option GoString :=
  match expensiveBlowfishSetup password cost salt with
  | none => none
  | some c =>
      let cipherData := (chunks 7 3 magicCipherData).flatMap (iterate c.Encrypt 64)
      some (base64Encode (cipherData.take 23))

/-- The struct `hashed`. -/
structure Hashed where
  hash : GoString
  salt : GoString
  cost : Nat
  major : Byte
  minor : Byte

/-- `fmt.Sprintf("%02d", cost)`. -/
def twoDigits (cost : Nat) : GoString :=
  if cost < 10 then byte 48 :: fmtDigits (cost + 1) cost else fmtDigits (cost + 1) cost

/-- `hashed.Hash`: the fields written into an array of 60 zero bytes, of which
the prefix, 22 bytes of salt and 31 bytes of hash are returned. -/
def Hashed.Hash (p : Hashed) : GoString :=
  let pre := [byte 36, p.major] ++ (if p.minor.val ≠ 0 then [p.minor] else []) ++ [byte 36]
    ++ twoDigits p.cost ++ [byte 36]
  let arr := (pre ++ p.salt.take 22 ++ List.replicate (22 - p.salt.length) (byte 0)
    ++ p.hash ++ List.replicate 60 (byte 0)).take 60
  arr.take (pre.length + 22 + 31)

/-- `strconv.Atoi` on a string of two bytes: two digits, or a sign and a
digit. -/
def atoi2 (a b : Byte) : Option Int :=
  if isDigit b then
    if isDigit a then some ((a.val - 48 : Nat) * 10 + (b.val - 48 : Nat) : Nat)
    else if a.val = 43 then some ((b.val - 48 : Nat) : Nat)
    else if a.val = 45 then some (-((b.val - 48 : Nat) : Nat))
    else none
  else none

/-- `newFromHash`: at least 59 bytes, a `$`, a major version of at most `2`, an
optional minor version before the next `$`, a cost of two characters between
`MinCost` and `MaxCost`, then 22 bytes of salt and the rest as hash. -/
def newFromHash (hashedSecret : GoString) : Option Hashed :=
  if hashedSecret.length < 59 then none
  else if hashedSecret.getD 0 0 ≠ byte 36 then none
  else if (hashedSecret.getD 1 0).val > 50 then none
  else
    let minor := if hashedSecret.getD 2 0 ≠ byte 36 then hashedSecret.getD 2 0 else byte 0
    let n := if hashedSecret.getD 2 0 ≠ byte 36 then 4 else 3
    let rest := hashedSecret.drop n
    match atoi2 (rest.getD 0 0) (rest.getD 1 0) with
    | none => none
    | some cost =>
        if cost < MinCost ∨ cost > MaxCost then none
        else
          some { hash := (rest.drop 3).drop 22, salt := (rest.drop 3).take 22
                 cost := cost.toNat, major := hashedSecret.getD 1 0, minor := minor }

/-- `bcrypt.CompareHashAndPassword`; `true` stands for a nil error. -/
def CompareHashAndPassword (hashedPassword password : List Byte) : Bool :=
  match newFromHash hashedPassword with
  | none => false
  | some p =>
      match bcryptHash password p.cost p.salt with
      | none => false
      | some otherHash => p.Hash = ({ p with hash := otherHash } : Hashed).Hash

/-- `bcrypt.GenerateFromPassword` at the cost `DefaultCost`: a password of more
than 72 bytes is refused with `ErrPasswordTooLong`; the salt is 16 bytes of the
entropy source. -/
def GenerateFromPassword (src : RandSource) (password : List Byte) : Except GoError GoString :=
  if password.length > 72 then .error "bcrypt: password length exceeds 72 bytes"
  else
    match randRead src 16 with
    | .error e => .error e
    | .ok unencodedSalt =>
        let salt := base64Encode unencodedSalt
        match bcryptHash password DefaultCost salt with
        | none => .error "bcrypt: setup failed"
        | some hash =>
            .ok ({ hash := hash, salt := salt, cost := DefaultCost, major := byte 50
                   minor := byte 97 } : Hashed).Hash

/-! ## `unicode`, `strings` -/

/-- `unicode.MaxRune`. -/
def MaxRune : Int := 0x10FFFF

/-- `unicode.UpperLower`: the offset that marks a range of alternating
upper-case and lower-case letters. -/
def UpperLower : Int := MaxRune + 1

/-- The ranges of `unicode.CaseRanges` (Unicode 15.0.0) whose offset to lower
case is not zero, in ascending order: `Lo`, `Hi` and `Delta[LowerCase]`. -/
def CaseRanges : List (Nat × Nat × Int) :=
  [(0x0041, 0x005A, 32), (0x00C0, 0x00D6, 32), (0x00D8, 0x00DE, 32), (0x0100, 0x012F, UpperLower),
   (0x0130, 0x0130, -199), (0x0132, 0x0137, UpperLower), (0x0139, 0x0148, UpperLower),
   (0x014A, 0x0177, UpperLower), (0x0178, 0x0178, -121), (0x0179, 0x017E, UpperLower),
   (0x0181, 0x0181, 210), (0x0182, 0x0185, UpperLower), (0x0186, 0x0186, 206),
   (0x0187, 0x0187, 1), (0x0189, 0x018A, 205), (0x018B, 0x018B, 1), (0x018E, 0x018E, 79),
   (0x018F, 0x018F, 202), (0x0190, 0x0190, 203), (0x0191, 0x0191, 1), (0x0193, 0x0193, 205),
   (0x0194, 0x0194, 207), (0x0196, 0x0196, 211), (0x0197, 0x0197, 209), (0x0198, 0x0198, 1),
   (0x019C, 0x019C, 211), (0x019D, 0x019D, 213), (0x019F, 0x019F, 214),
   (0x01A0, 0x01A5, UpperLower), (0x01A6, 0x01A6, 218), (0x01A7, 0x01A7, 1),
   (0x01A9, 0x01A9, 218), (0x01AC, 0x01AC, 1), (0x01AE, 0x01AE, 218), (0x01AF, 0x01AF, 1),
   (0x01B1, 0x01B2, 217), (0x01B3, 0x01B6, UpperLower), (0x01B7, 0x01B7, 219),
   (0x01B8, 0x01B8, 1), (0x01BC, 0x01BC, 1), (0x01C4, 0x01C4, 2), (0x01C5, 0x01C5, 1),
   (0x01C7, 0x01C7, 2), (0x01C8, 0x01C8, 1), (0x01CA, 0x01CA, 2), (0x01CB, 0x01DC, UpperLower),
   (0x01DE, 0x01EF, UpperLower), (0x01F1, 0x01F1, 2), (0x01F2, 0x01F5, UpperLower),
   (0x01F6, 0x01F6, -97), (0x01F7, 0x01F7, -56), (0x01F8, 0x021F, UpperLower),
   (0x0220, 0x0220, -130), (0x0222, 0x0233, UpperLower), (0x023A, 0x023A, 10795),
   (0x023B, 0x023B, 1), (0x023D, 0x023D, -163), (0x023E, 0x023E, 10792), (0x0241, 0x0241, 1),
   (0x0243, 0x0243, -195), (0x0244, 0x0244, 69), (0x0245, 0x0245, 71),
   (0x0246, 0x024F, UpperLower), (0x0370, 0x0373, UpperLower), (0x0376, 0x0376, 1),
   (0x037F, 0x037F, 116), (0x0386, 0x0386, 38), (0x0388, 0x038A, 37), (0x038C, 0x038C, 64),
   (0x038E, 0x038F, 63), (0x0391, 0x03A1, 32), (0x03A3, 0x03AB, 32), (0x03CF, 0x03CF, 8),
   (0x03D8, 0x03EF, UpperLower), (0x03F4, 0x03F4, -60), (0x03F7, 0x03F7, 1), (0x03F9, 0x03F9, -7),
   (0x03FA, 0x03FA, 1), (0x03FD, 0x03FF, -130), (0x0400, 0x040F, 80), (0x0410, 0x042F, 32),
   (0x0460, 0x0481, UpperLower), (0x048A, 0x04BF, UpperLower), (0x04C0, 0x04C0, 15),
   (0x04C1, 0x04CE, UpperLower), (0x04D0, 0x052F, UpperLower), (0x0531, 0x0556, 48),
   (0x10A0, 0x10C5, 7264), (0x10C7, 0x10C7, 7264), (0x10CD, 0x10CD, 7264),
   (0x13A0, 0x13EF, 38864), (0x13F0, 0x13F5, 8), (0x1C90, 0x1CBA, -3008), (0x1CBD, 0x1CBF, -3008),
   (0x1E00, 0x1E95, UpperLower), (0x1E9E, 0x1E9E, -7615), (0x1EA0, 0x1EFF, UpperLower),
   (0x1F08, 0x1F0F, -8), (0x1F18, 0x1F1D, -8), (0x1F28, 0x1F2F, -8), (0x1F38, 0x1F3F, -8),
   (0x1F48, 0x1F4D, -8), (0x1F59, 0x1F59, -8), (0x1F5B, 0x1F5B, -8), (0x1F5D, 0x1F5D, -8),
   (0x1F5F, 0x1F5F, -8), (0x1F68, 0x1F6F, -8), (0x1F88, 0x1F8F, -8), (0x1F98, 0x1F9F, -8),
   (0x1FA8, 0x1FAF, -8), (0x1FB8, 0x1FB9, -8), (0x1FBA, 0x1FBB, -74), (0x1FBC, 0x1FBC, -9),
   (0x1FC8, 0x1FCB, -86), (0x1FCC, 0x1FCC, -9), (0x1FD8, 0x1FD9, -8), (0x1FDA, 0x1FDB, -100),
   (0x1FE8, 0x1FE9, -8), (0x1FEA, 0x1FEB, -112), (0x1FEC, 0x1FEC, -7), (0x1FF8, 0x1FF9, -128),
   (0x1FFA, 0x1FFB, -126), (0x1FFC, 0x1FFC, -9), (0x2126, 0x2126, -7517), (0x212A, 0x212A, -8383),
   (0x212B, 0x212B, -8262), (0x2132, 0x2132, 28), (0x2160, 0x216F, 16), (0x2183, 0x2183, 1),
   (0x24B6, 0x24CF, 26), (0x2C00, 0x2C2F, 48), (0x2C60, 0x2C60, 1), (0x2C62, 0x2C62, -10743),
   (0x2C63, 0x2C63, -3814), (0x2C64, 0x2C64, -10727), (0x2C67, 0x2C6C, UpperLower),
   (0x2C6D, 0x2C6D, -10780), (0x2C6E, 0x2C6E, -10749), (0x2C6F, 0x2C6F, -10783),
   (0x2C70, 0x2C70, -10782), (0x2C72, 0x2C72, 1), (0x2C75, 0x2C75, 1), (0x2C7E, 0x2C7F, -10815),
   (0x2C80, 0x2CE3, UpperLower), (0x2CEB, 0x2CEE, UpperLower), (0x2CF2, 0x2CF2, 1),
   (0xA640, 0xA66D, UpperLower), (0xA680, 0xA69B, UpperLower), (0xA722, 0xA72F, UpperLower),
   (0xA732, 0xA76F, UpperLower), (0xA779, 0xA77C, UpperLower), (0xA77D, 0xA77D, -35332),
   (0xA77E, 0xA787, UpperLower), (0xA78B, 0xA78B, 1), (0xA78D, 0xA78D, -42280),
   (0xA790, 0xA793, UpperLower), (0xA796, 0xA7A9, UpperLower), (0xA7AA, 0xA7AA, -42308),
   (0xA7AB, 0xA7AB, -42319), (0xA7AC, 0xA7AC, -42315), (0xA7AD, 0xA7AD, -42305),
   (0xA7AE, 0xA7AE, -42308), (0xA7B0, 0xA7B0, -42258), (0xA7B1, 0xA7B1, -42282),
   (0xA7B2, 0xA7B2, -42261), (0xA7B3, 0xA7B3, 928), (0xA7B4, 0xA7C3, UpperLower),
   (0xA7C4, 0xA7C4, -48), (0xA7C5, 0xA7C5, -42307), (0xA7C6, 0xA7C6, -35384),
   (0xA7C7, 0xA7CA, UpperLower), (0xA7D0, 0xA7D0, 1), (0xA7D6, 0xA7D9, UpperLower),
   (0xA7F5, 0xA7F5, 1), (0xFF21, 0xFF3A, 32), (0x10400, 0x10427, 40), (0x104B0, 0x104D3, 40),
   (0x10570, 0x1057A, 39), (0x1057C, 0x1058A, 39), (0x1058C, 0x10592, 39), (0x10594, 0x10595, 39),
   (0x10C80, 0x10CB2, 64), (0x118A0, 0x118BF, 32), (0x16E40, 0x16E5F, 32), (0x1E900, 0x1E921, 34)]

/-- `unicode.ToLower`: ASCII first, then the range of the table that holds
the rune. In an `UpperLower` range the rune at an even offset maps to its
successor and the rune at an odd offset to itself. -/
def toLowerRune (r : Nat) : Nat :=
  if r ≤ 0x7F then
    if 0x41 ≤ r ∧ r ≤ 0x5A then r + 32 else r
  else
    match CaseRanges.find? (fun cr => decide (cr.1 ≤ r ∧ r ≤ cr.2.1)) with
    | some (lo, _, delta) =>
        if delta > MaxRune then lo + ((r - lo) / 2 * 2 + 1) else (r + delta).toNat
    | none => r

/-- `utf8.DecodeRuneInString` on a string that is not empty: the rune at its
head and the width of its encoding; `utf8.RuneError` and width 1 where the
head starts no well-formed sequence. -/
def decodeRune (s : GoString) : Nat × Nat :=
  let n := utf8SeqLen s
  let b := fun i => (s.getD i 0).val
  if n = 1 then (b 0, 1)
  else if n = 2 then (b 0 % 32 * 64 + b 1 % 64, 2)
  else if n = 3 then (b 0 % 16 * 4096 + b 1 % 64 * 64 + b 2 % 64, 3)
  else if n = 4 then (b 0 % 8 * 262144 + b 1 % 64 * 4096 + b 2 % 64 * 64 + b 3 % 64, 4)
  else (0xFFFD, 1)

/-- The loop of `strings.Map` over the runes of a string, for a mapping that
drops no rune: each rune is written as its image is encoded. A byte that
starts no well-formed sequence is read as `utf8.RuneError`. The first argument
bounds the number of runes. -/
def mapRunes (mapping : Nat → Nat) : Nat → GoString → GoString
  | 0, _ => []
  | _ + 1, [] => []
  | fuel + 1, c :: rest =>
      let d := decodeRune (c :: rest)
      encodeRune (mapping d.1) ++ mapRunes mapping fuel ((c :: rest).drop d.2)

/-- `strings.Map(mapping, s)`. -/
def Map (mapping : Nat → Nat) (s : GoString) : GoString := mapRunes mapping s.length s

/-- `strings.ToLower`: a string of ASCII bytes is lower-cased byte by byte,
any other string by `strings.Map(unicode.ToLower, s)`. -/
def ToLower (s : GoString) : GoString :=
  if s.all (fun c => decide (c.val < 0x80)) then
    if s.any (fun c => decide (65 ≤ c.val ∧ c.val ≤ 90)) then s.map toLowerByte else s
  else Map toLowerRune s

/-- `strings.Index(s, substr)`: the offset of the first occurrence of `substr`
in `s`, and `none` for `-1`. -/
def Index : GoString → GoString → Option Nat
  | [], substr => if substr = [] then some 0 else none
  | c :: rest, substr =>
      if substr.isPrefixOf (c :: rest) then some 0 else (Index rest substr).map (· + 1)

/-- `strings.SplitN(s, sep, 2)` for a separator of one byte: the text before
the first separator and the text after it, or the string alone. -/
def SplitN2 (s : GoString) (sep : Byte) : List GoString :=
  match Index s [sep] with
  | some m => [s.take m, s.drop (m + 1)]
  | none => [s]

/-! ## `auth.HashPassword`, `auth.CheckPasswordHash`, `auth.GetBearerToken` -/

/-- `HashPassword` of `internal/auth/auth.go`. -/
def HashPassword (src : RandSource) (password : GoString) : GoString × Option GoError :=
  match GenerateFromPassword src password with
  | .error err => ([], some err)
  | .ok hashedPassword => (hashedPassword, none)

/-- `CheckPasswordHash` of `internal/auth/auth.go`. -/
def CheckPasswordHash (password hash : GoString) : Bool :=
  CompareHashAndPassword hash password

/-- `GetBearerToken` of `internal/auth/auth.go`: the header is split at its
first space, the part before it must lower-case to `bearer`, and the part
after it is the token. -/
def GetBearerToken (authHeader : GoString) : GoString × Option GoError :=
  if authHeader = [] then ([], some "missing authorization header")
  else
    match SplitN2 authHeader (byte 32) with
    | [scheme, token] =>
        if ToLower scheme ≠ lit "bearer" then ([], some "invalid authorization header format")
        else (token, none)
    | _ => ([], some "invalid authorization header format")

/-- The functions of package `auth` during a request whose clock reads `now1`
and `now2` in `MakeJWT` and whose entropy source is `src`. -/
def realAuth (now1 now2 : Time) (src : RandSource) : Auth :=
  { CheckPasswordHash := CheckPasswordHash
    MakeJWT := MakeJWT now1 now2
    MakeRefreshToken := MakeRefreshToken src
    GetBearerToken := GetBearerToken }

/-- Whether a string has the form that `bcrypt.CompareHashAndPassword` insists
on: at least 59 bytes; a `$`; a major version of at most `2`; optionally one
byte of minor version; a `$`-terminated field position holding a cost of two
characters between 4 and 31; and 22 bytes of salt that decode in the alphabet
of bcrypt. -/
def hashReadable (h : GoString) : Bool :=
  let n := if h.getD 2 0 = byte 36 then 3 else 4
  decide (59 ≤ h.length) && decide (h.getD 0 0 = byte 36) && decide ((h.getD 1 0).val ≤ 50)
    && (match atoi2 (h.getD n 0) (h.getD (n + 1) 0) with
        | some cost => decide (4 ≤ cost ∧ cost ≤ 31)
        | none => false)
    && (base64Decode ((h.drop (n + 3)).take 22)).isSome

/-- Whether a string is a well-formed bcrypt hash: 60 bytes, made of the
version `$2a$`, `$2b$` or `$2y$`, a cost of two decimal digits between 04 and
31, a `$`, and 53 characters of bcrypt's alphabet for the salt and the hash. -/
def wellFormedHash (h : GoString) : Bool :=
  decide (h.length = 60)
    && decide (h.take 4 ∈ [lit "$2a$", lit "$2b$", lit "$2y$"])
    && isDigit (h.getD 4 0) && isDigit (h.getD 5 0)
    && decide (4 ≤ ((h.getD 4 0).val - 48) * 10 + ((h.getD 5 0).val - 48)
        ∧ ((h.getD 4 0).val - 48) * 10 + ((h.getD 5 0).val - 48) ≤ 31)
    && decide (h.getD 6 0 = byte 36)
    && (h.drop 7).all (fun c => decide (c ∈ bcEncoding.alphabet))

/-- The encoding without its padding. -/
def Encoding.raw (e : Encoding) : Encoding := { e with padChar := none }

/-! ## An in-memory store -/

/-- A row of refresh tokens. -/
structure RefreshTokenRow where
  Token : GoString
  UserID : UUID
  ExpiresAt : Time
  RevokedAt : Option Time
  deriving DecidableEq

/-- Modelled from the spec: the persistence collaborator of section 6, whose
package `internal/database` is outside the given sources. The store holds the
users, the refresh tokens and the clock of the database. -/
structure Store where
  users : List User
  refreshTokens : List RefreshTokenRow
  now : Time
  deriving DecidableEq

/-- Modelled from the spec: the queries of section 6 on the in-memory store.
A lookup that finds nothing reports `sql.ErrNoRows`; an insert fails on a
token that is already stored and otherwise adds a row that expires after 60
days; a refresh token resolves to its user while it is neither revoked nor
expired; revoking sets `revoked_at` on the rows of the token. -/
def memoryQueries : Queries Store :=
  { GetUserByEmail := fun st email =>
      match st.users.find? (fun u => u.Email = email) with
      | some u => .ok u
      | none => .error .ErrNoRows
    CreateRefreshToken := fun st arg =>
      if st.refreshTokens.any (fun row => row.Token = arg.Token) then
        (.error (.other "duplicate token"), st)
      else
        (.ok (), { st with refreshTokens := st.refreshTokens ++
          [{ Token := arg.Token, UserID := arg.UserID, ExpiresAt := st.now + 60 * 24 * Hour
             RevokedAt := none }] })
    GetUserFromRefreshToken := fun st token =>
      match st.refreshTokens.find?
          (fun row => row.Token = token ∧ row.RevokedAt = none ∧ st.now < row.ExpiresAt) with
      | some row =>
          match st.users.find? (fun u => u.ID = row.UserID) with
          | some u => .ok u
          | none => .error .ErrNoRows
      | none => .error .ErrNoRows
    RevokeRefreshToken := fun st token =>
      if st.refreshTokens.any (fun row => row.Token = token) then
        (.ok (), { st with refreshTokens := st.refreshTokens.map fun row =>
          if row.Token = token then { row with RevokedAt := some st.now } else row })
      else (.error .ErrNoRows, st) }

/-! ## `handlerRefresh`, `handlerRevoke` -/

/-- `handlerRefresh` of `handler_refresh.go`, from the store `st`. -/
def handlerRefresh {σ : Type} (cfg : apiConfig σ) (auth : Auth) (st : σ) (r : Request) :
    Outcome σ :=
  match auth.GetBearerToken r.Authorization with
  | (_, some err) =>
      { response := .respondWithError StatusUnauthorized "Invalid authorization header"
          (some (.message err))
        store := st, effects := [] }
  | (refreshToken, none) =>
      match cfg.DB.GetUserFromRefreshToken st refreshToken with
      | .error .ErrNoRows =>
          { response := .respondWithError StatusUnauthorized "Invalid or expired refresh token"
              none
            store := st, effects := [] }
      | .error e =>
          { response := .respondWithError StatusInternalServerError
              "Couldn't validate refresh token" (some (.db e))
            store := st, effects := [] }
      | .ok user =>
          match auth.MakeJWT user.ID cfg.secret Hour with
          | (_, some err) =>
              { response := .respondWithError StatusUnauthorized "Couldn't validate token"
                  (some (.auth err))
                store := st, effects := [.MakeJWT user.ID Hour] }
          | (accessToken, none) =>
              { response := .respondWithJSON StatusOK (.token accessToken)
                store := st, effects := [.MakeJWT user.ID Hour] }

/-- `handlerRevoke` of `handler_refresh.go`, from the store `st`. -/
def handlerRevoke {σ : Type} (cfg : apiConfig σ) (auth : Auth) (st : σ) (r : Request) :
    Outcome σ :=
  match auth.GetBearerToken r.Authorization with
  | (_, some err) =>
      { response := .respondWithError StatusBadRequest "Couldn't find token"
          (some (.message err))
        store := st, effects := [] }
  | (refreshToken, none) =>
      match cfg.DB.RevokeRefreshToken st refreshToken with
      | (.error e, st1) =>
          { response := .respondWithError StatusInternalServerError "Couldn't revoke session"
              (some (.db e))
            store := st1, effects := [.RevokeRefreshToken refreshToken] }
      | (.ok _, st1) =>
          { response := .WriteHeader StatusNoContent
            store := st1, effects := [.RevokeRefreshToken refreshToken] }

/-! ## `main` -/

/-- What `main` comes to: `log.Fatal` with a message, or `srv.ListenAndServe`
on an address with the configuration the handlers are bound to and the
patterns registered on the mux. -/
inductive Startup (σ : Type) where
  | Fatal (msg : String)
  | ListenAndServe (apiCfg : apiConfig σ) (addr : String) (patterns : List String)

/-- Whether start-up ended in `log.Fatal`. -/
def Startup.aborted {σ : Type} : Startup σ → Bool
  | .Fatal _ => true
  | .ListenAndServe _ _ _ => false

/-- The signing secret of the configuration that is served, if one is. -/
def Startup.secret {σ : Type} : Startup σ → Option GoString
  | .Fatal _ => none
  | .ListenAndServe apiCfg _ _ => some apiCfg.secret

/-- The patterns that are served. -/
def Startup.patterns {σ : Type} : Startup σ → List String
  | .Fatal _ => []
  | .ListenAndServe _ _ patterns => patterns

/-- `main` of `main.go`. `Getenv` is `os.Getenv` after `godotenv.Load()`, and
`sqlOpen` stands for `sql.Open` followed by `database.New`, both outside the
given sources. -/
def main {σ : Type} (Getenv : String → GoString)
    (sqlOpen : String → GoString → Except GoError (Queries σ)) : Startup σ :=
  let dbURL := Getenv "DB_URL"
  let platform := Getenv "PLATFORM"
  if platform = [] then .Fatal "PLATFORM must be set"
  else
    match sqlOpen "postgres" dbURL with
    | .error err => .Fatal ("Failed to connect to database: " ++ err)
    | .ok dbQueries =>
        let secret := Getenv "secret"
        if platform = [] then .Fatal "Secret must be set"
        else
          let polkaKey := Getenv "POLKA_KEY"
          if polkaKey = [] then .Fatal "POLKA_KEY not found"
          else
            .ListenAndServe
              { fileserverHits := 0, DB := dbQueries, PLATFORM := platform, secret := secret
                polkaWebhookSecret := polkaKey }
              ":8080"
              ["/app/", "POST /admin/reset", "POST /api/chirps", "POST /api/users",
                "POST /api/login", "POST /api/refresh", "POST /api/revoke",
                "POST /api/polka/webhooks", "GET /admin/metrics", "GET /api/healthz",
                "GET /api/chirps", "GET /api/chirps/\x7bchirpID\x7d", "PUT /api/users",
                "DELETE /api/chirps/\x7bchirpID\x7d"]

/-! ## The word filter of `handlerCreateChirp` -/

/-- How a loop of the handler ends: with a value, in a run-time panic (a slice
expression out of range), or not within the steps it was given. -/
inductive Run (α : Type) where
  | done (a : α)
  | panicked
  | unfinished
  deriving DecidableEq

/-- The expression `s[:index] + "****" + s[index+n:]`: `none` where a slice
bound lies beyond the length of `s`. -/
def censorAt (s : GoString) (index n : Nat) : Option GoString :=
  if index + n ≤ s.length then some (s.take index ++ lit "****" ++ s.drop (index + n)) else none

/-- The inner loop of the filter for one word, on `cleanedBody` and
`lowerText`, for at most `fuel` tests of its condition. -/
def censorWord (profaneWord : GoString) : Nat → GoString → GoString → Run (GoString × GoString)
  | 0, _, _ => .unfinished
  | fuel + 1, cleanedBody, lowerText =>
      match Index lowerText profaneWord with
      | none => .done (cleanedBody, lowerText)
      | some index =>
          match censorAt cleanedBody index profaneWord.length,
              censorAt lowerText index profaneWord.length with
          | some cleanedBody1, some lowerText1 => censorWord profaneWord fuel cleanedBody1 lowerText1
          | _, _ => .panicked

/-- The outer loop of the filter over the words. -/
def censorWords : List GoString → Nat → GoString → GoString → Run (GoString × GoString)
  | [], _, cleanedBody, lowerText => .done (cleanedBody, lowerText)
  | profaneWord :: more, fuel, cleanedBody, lowerText =>
      match censorWord profaneWord fuel cleanedBody lowerText with
      | .done (cleanedBody1, lowerText1) => censorWords more fuel cleanedBody1 lowerText1
      | .panicked => .panicked
      | .unfinished => .unfinished

/-- The words of `profaneWords`. -/
def profaneWords : List GoString := [lit "kerfuffle", lit "sharbert", lit "fornax"]

/-- The word filter of `handlerCreateChirp` on the body of a chirp, each inner
loop with at most `fuel` tests of its condition: the value of `cleanedBody`
after the loops. -/
def cleanBody (fuel : Nat) (body : GoString) : Run GoString :=
  match censorWords profaneWords fuel body (ToLower body) with
  | .done (cleanedBody, _) => .done cleanedBody
  | .panicked => .panicked
  | .unfinished => .unfinished

/-! ## Sample data -/

/-- A registered user whose password `pw` was hashed with a salt of zero
bytes. -/
def sampleUser : User :=
  { ID := UUID.ofPrefix [byte 1], Email := lit "a@b.c"
    HashedPassword := (HashPassword (.ok fun _ => byte 0) (lit "pw")).1, IsChirpyRed := false }

/-- A store with the sample user and one live refresh token of that user. -/
def sampleStore : Store :=
  { users := [sampleUser]
    refreshTokens := [{ Token := lit "feed", UserID := UUID.ofPrefix [byte 1]
                        ExpiresAt := 60 * 24 * Hour, RevokedAt := none }]
    now := 0 }

/-- A configuration over the in-memory store. -/
def sampleConfig : apiConfig Store := { DB := memoryQueries, secret := lit "secret" }

/-- A login request with the credentials of the sample user. -/
def sampleLogin : Request :=
  { Authorization := [], Body := lit "\x7b\"email\":\"a@b.c\",\"password\":\"pw\"\x7d" }

/-- A request that bears the stored refresh token. -/
def sampleBearer : Request := { Authorization := lit "Bearer feed", Body := [] }

/-- A request that bears a refresh token the store does not hold. -/
def strangerBearer : Request := { Authorization := lit "Bearer beef", Body := [] }

/-- The queries against a database whose connection is down: each reports the
error of the driver. -/
def downQueries : Queries Store :=
  { GetUserByEmail := fun _ _ => .error (.other "connection refused")
    CreateRefreshToken := fun st _ => (.error (.other "connection refused"), st)
    GetUserFromRefreshToken := fun _ _ => .error (.other "connection refused")
    RevokeRefreshToken := fun st _ => (.error (.other "connection refused"), st) }

/-- A configuration over the database whose connection is down. -/
def downConfig : apiConfig Store := { DB := downQueries, secret := lit "secret" }

/-- The signing input of a token whose claims segment encodes the claims of an
issued token followed by the text `garbage`. -/
def garbageSigningString : GoString :=
  EncodeSegment (marshalHeader (lit "HS256")) ++ byte 46 ::
    EncodeSegment (marshalClaims (MakeJWTClaims 0 0 (UUID.ofPrefix [byte 1]) Hour)
      ++ lit "garbage")

/-- That token, signed under `secret`. -/
def garbageToken (secret : GoString) : GoString :=
  garbageSigningString ++ byte 46 :: hmacSign SHA256 garbageSigningString secret

/-- An environment with `PLATFORM`, `DB_URL` and `POLKA_KEY` set and `secret`
not set. -/
def sampleEnv (key : String) : GoString :=
  if key = "PLATFORM" then lit "dev"
  else if key = "DB_URL" then lit "postgres://localhost:5432/chirpy"
  else if key = "POLKA_KEY" then lit "f271c81ff7084ee5b99a5091b42d486e"
  else []

/-- A database that opens. -/
def sampleOpen (_driver : String) (_dbURL : GoString) : Except GoError (Queries Store) :=
  .ok memoryQueries

/-! # Theorems -/

/-! ## Proofs: `encoding/hex` -/

theorem byte_val (n : Nat) : (byte n).val = n % 256 := rfl

theorem byte_of_val (b : Byte) : byte b.val = b := by
  apply Fin.ext
  simp [byte_val, Nat.mod_eq_of_lt b.isLt]

theorem fromHexChar_hextable_hi (b : Byte) :
    fromHexChar (hextable.getD (b.val / 16) 0) = some (b.val / 16) := by
  revert b; decide!

theorem fromHexChar_hextable_lo (b : Byte) :
    fromHexChar (hextable.getD (b.val % 16) 0) = some (b.val % 16) := by
  revert b; decide!

theorem isLowerHexDigit_hextable (n : Nat) (h : n < 16) :
    isLowerHexDigit (hextable.getD n 0) = true := by
  interval_cases n <;> decide

theorem byte_nibbles (b : Byte) : byte (b.val / 16 * 16 + b.val % 16) = b := by
  have : b.val / 16 * 16 + b.val % 16 = b.val := by omega
  rw [this, byte_of_val]

theorem hexDecodeString_hexEncodeToString (bs : List Byte) :
    hexDecodeString (hexEncodeToString bs) = some bs := by
  induction bs with
  | nil => rfl
  | cons b rest ih =>
      simp only [hexEncodeToString, hexDecodeString, fromHexChar_hextable_hi,
        fromHexChar_hextable_lo, ih, byte_nibbles]

theorem hexEncodeToString_length (bs : List Byte) :
    (hexEncodeToString bs).length = 2 * bs.length := by
  induction bs with
  | nil => rfl
  | cons b rest ih => simp [hexEncodeToString, ih]; omega

theorem hexEncodeToString_lower (bs : List Byte) :
    ∀ c ∈ hexEncodeToString bs, isLowerHexDigit c = true := by
  induction bs with
  | nil => simp [hexEncodeToString]
  | cons b rest ih =>
      intro c hc
      simp only [hexEncodeToString, List.mem_cons] at hc
      rcases hc with rfl | rfl | hc
      · exact isLowerHexDigit_hextable _ (by omega)
      · exact isLowerHexDigit_hextable _ (by omega)
      · exact ih c hc

/-! ## Proofs: `encoding/base64` -/

theorem RawURLEncoding_sound : RawURLEncoding.Sound where
  inv := by decide!
  padOut := by intro p h; simp [RawURLEncoding] at h

theorem Encoding.Sound.inv_lt {e : Encoding} (h : e.Sound) (i : Nat) (hi : i < 64) :
    e.decodeMap (e.enc i) = some i := h.inv ⟨i, hi⟩

theorem quantumBytes_four (a b c : Byte) :
    quantumBytes [(a.val * 65536 + b.val * 256 + c.val) / 262144 % 64,
      (a.val * 65536 + b.val * 256 + c.val) / 4096 % 64,
      (a.val * 65536 + b.val * 256 + c.val) / 64 % 64,
      (a.val * 65536 + b.val * 256 + c.val) % 64] = [a, b, c] := by
  have ha := a.isLt; have hb := b.isLt; have hc := c.isLt
  simp only [quantumBytes, List.getD_cons_zero, List.getD_cons_succ, List.length_cons,
    List.length_nil, List.take]
  refine List.cons_eq_cons.2 ⟨?_, List.cons_eq_cons.2 ⟨?_, List.cons_eq_cons.2 ⟨?_, rfl⟩⟩⟩ <;>
    (apply Fin.ext; simp only [byte_val]; omega)

theorem quantumBytes_three (a b : Byte) :
    quantumBytes [(a.val * 65536 + b.val * 256) / 262144 % 64,
      (a.val * 65536 + b.val * 256) / 4096 % 64,
      (a.val * 65536 + b.val * 256) / 64 % 64] = [a, b] := by
  have ha := a.isLt; have hb := b.isLt
  simp only [quantumBytes, List.getD_cons_zero, List.getD_cons_succ, List.length_cons,
    List.length_nil, List.getD_nil, List.take]
  refine List.cons_eq_cons.2 ⟨?_, List.cons_eq_cons.2 ⟨?_, rfl⟩⟩ <;>
    (apply Fin.ext; simp only [byte_val]; omega)

theorem quantumBytes_two (a : Byte) :
    quantumBytes [(a.val * 65536) / 262144 % 64, (a.val * 65536) / 4096 % 64] = [a] := by
  have ha := a.isLt
  simp only [quantumBytes, List.getD_cons_zero, List.getD_cons_succ, List.length_cons,
    List.length_nil, List.getD_nil, List.take]
  refine List.cons_eq_cons.2 ⟨?_, rfl⟩
  apply Fin.ext; simp only [byte_val]; omega

theorem Encoding.decodeFrom_enc_lt3 {e : Encoding} (h : e.Sound) (i : Nat) (hi : i < 64)
    (dbuf : List Nat) (hd : dbuf.length ≠ 3) (rest : List Byte) :
    e.decodeFrom dbuf (e.enc i :: rest) = e.decodeFrom (dbuf ++ [i]) rest := by
  rw [Encoding.decodeFrom, h.inv_lt i hi]
  simp only [hd, if_false]

theorem Encoding.decodeFrom_enc_eq3 {e : Encoding} (h : e.Sound) (i : Nat) (hi : i < 64)
    (dbuf : List Nat) (hd : dbuf.length = 3) (rest : List Byte) :
    e.decodeFrom dbuf (e.enc i :: rest)
      = (e.decodeFrom [] rest).map (quantumBytes (dbuf ++ [i]) ++ ·) := by
  rw [Encoding.decodeFrom, h.inv_lt i hi]
  simp only [hd, if_true]

theorem Encoding.decodeFrom_pad_three {e : Encoding} (h : e.Sound) (dbuf : List Nat)
    (hd : dbuf.length = 3) : e.decodeFrom dbuf (e.pad 1) = some (quantumBytes dbuf) := by
  cases hp : e.padChar with
  | none => simp [Encoding.pad, hp, Encoding.decodeFrom, hd]
  | some p =>
      obtain ⟨h1, h2⟩ := h.padOut p hp
      simp [Encoding.pad, hp, Encoding.decodeFrom, hd, h1, h2, skipNewlines]

theorem Encoding.decodeFrom_pad_two {e : Encoding} (h : e.Sound) (dbuf : List Nat)
    (hd : dbuf.length = 2) : e.decodeFrom dbuf (e.pad 2) = some (quantumBytes dbuf) := by
  cases hp : e.padChar with
  | none => simp [Encoding.pad, hp, Encoding.decodeFrom, hd]
  | some p =>
      obtain ⟨h1, h2⟩ := h.padOut p hp
      simp [Encoding.pad, hp, Encoding.decodeFrom, hd, h1, h2, skipNewlines, List.replicate]

/-- Decoding inverts encoding, for every byte sequence. -/
theorem Encoding.DecodeString_Encode {e : Encoding} (h : e.Sound) :
    ∀ src : List Byte, e.DecodeString (e.Encode src) = some src
  | [] => by simp [Encoding.DecodeString, Encoding.Encode, Encoding.decodeFrom]
  | [a] => by
      have ha := a.isLt
      simp only [Encoding.DecodeString, Encoding.Encode, List.cons_append, List.nil_append]
      rw [Encoding.decodeFrom_enc_lt3 h _ (Nat.mod_lt _ (by decide)) _ (by simp),
        Encoding.decodeFrom_enc_lt3 h _ (Nat.mod_lt _ (by decide)) _ (by simp),
        Encoding.decodeFrom_pad_two h _ (by simp)]
      simp only [List.nil_append, List.cons_append]
      rw [quantumBytes_two]
  | [a, b] => by
      simp only [Encoding.DecodeString, Encoding.Encode, List.cons_append, List.nil_append]
      rw [Encoding.decodeFrom_enc_lt3 h _ (Nat.mod_lt _ (by decide)) _ (by simp),
        Encoding.decodeFrom_enc_lt3 h _ (Nat.mod_lt _ (by decide)) _ (by simp),
        Encoding.decodeFrom_enc_lt3 h _ (Nat.mod_lt _ (by decide)) _ (by simp),
        Encoding.decodeFrom_pad_three h _ (by simp)]
      simp only [List.nil_append, List.cons_append]
      rw [quantumBytes_three]
  | a :: b :: c :: rest => by
      have ih := Encoding.DecodeString_Encode h rest
      simp only [Encoding.DecodeString] at ih
      simp only [Encoding.DecodeString, Encoding.Encode]
      rw [Encoding.decodeFrom_enc_lt3 h _ (Nat.mod_lt _ (by decide)) _ (by simp),
        Encoding.decodeFrom_enc_lt3 h _ (Nat.mod_lt _ (by decide)) _ (by simp),
        Encoding.decodeFrom_enc_lt3 h _ (Nat.mod_lt _ (by decide)) _ (by simp),
        Encoding.decodeFrom_enc_eq3 h _ (Nat.mod_lt _ (by decide)) _ (by simp), ih]
      simp only [List.nil_append, List.cons_append, Option.map_some']
      rw [quantumBytes_four]
      rfl

theorem RawURLEncoding_enc_ne_period (i : Nat) (hi : i < 64) :
    RawURLEncoding.enc i ≠ byte 46 := by
  have h : ∀ j : Fin 64, RawURLEncoding.enc j.val ≠ byte 46 := by decide!
  exact h ⟨i, hi⟩

theorem EncodeSegment_no_period : ∀ src : List Byte, byte 46 ∉ EncodeSegment src
  | [] => by simp [EncodeSegment, Encoding.Encode]
  | [a] => by
      have h1 := RawURLEncoding_enc_ne_period (a.val * 65536 / 262144 % 64) (Nat.mod_lt _ (by decide))
      have h2 := RawURLEncoding_enc_ne_period (a.val * 65536 / 4096 % 64) (Nat.mod_lt _ (by decide))
      simp only [EncodeSegment, Encoding.Encode, Encoding.pad, RawURLEncoding, List.append_nil,
        List.mem_cons, List.mem_singleton, List.not_mem_nil, or_false, not_or] at *
      exact ⟨Ne.symm h1, Ne.symm h2⟩
  | [a, b] => by
      have h1 := RawURLEncoding_enc_ne_period ((a.val * 65536 + b.val * 256) / 262144 % 64)
        (Nat.mod_lt _ (by decide))
      have h2 := RawURLEncoding_enc_ne_period ((a.val * 65536 + b.val * 256) / 4096 % 64)
        (Nat.mod_lt _ (by decide))
      have h3 := RawURLEncoding_enc_ne_period ((a.val * 65536 + b.val * 256) / 64 % 64)
        (Nat.mod_lt _ (by decide))
      simp only [EncodeSegment, Encoding.Encode, Encoding.pad, RawURLEncoding, List.append_nil,
        List.mem_cons, List.mem_singleton, List.not_mem_nil, or_false, not_or] at *
      exact ⟨Ne.symm h1, Ne.symm h2, Ne.symm h3⟩
  | a :: b :: c :: rest => by
      have ih := EncodeSegment_no_period rest
      have h1 := RawURLEncoding_enc_ne_period ((a.val * 65536 + b.val * 256 + c.val) / 262144 % 64)
        (Nat.mod_lt _ (by decide))
      have h2 := RawURLEncoding_enc_ne_period ((a.val * 65536 + b.val * 256 + c.val) / 4096 % 64)
        (Nat.mod_lt _ (by decide))
      have h3 := RawURLEncoding_enc_ne_period ((a.val * 65536 + b.val * 256 + c.val) / 64 % 64)
        (Nat.mod_lt _ (by decide))
      have h4 := RawURLEncoding_enc_ne_period ((a.val * 65536 + b.val * 256 + c.val) % 64)
        (Nat.mod_lt _ (by decide))
      simp only [EncodeSegment, Encoding.Encode, List.mem_cons, not_or] at *
      exact ⟨Ne.symm h1, Ne.symm h2, Ne.symm h3, Ne.symm h4, ih⟩

theorem DecodeSegment_EncodeSegment (src : List Byte) :
    DecodeSegment (EncodeSegment src) = some src :=
  Encoding.DecodeString_Encode RawURLEncoding_sound src

theorem splitOn_no_sep (sep : Byte) : ∀ s : GoString, sep ∉ s → splitOn sep s = [s]
  | [], _ => rfl
  | c :: rest, h => by
      have hc : c ≠ sep := fun e => h (e ▸ List.mem_cons_self _ _)
      have hr : sep ∉ rest := fun e => h (List.mem_cons_of_mem _ e)
      simp [splitOn, hc, splitOn_no_sep sep rest hr]

theorem splitOn_append (sep : Byte) (rest : GoString) :
    ∀ s : GoString, sep ∉ s → splitOn sep (s ++ sep :: rest) = s :: splitOn sep rest
  | [], _ => by simp [splitOn]
  | c :: s, h => by
      have hc : c ≠ sep := fun e => h (e ▸ List.mem_cons_self _ _)
      have hr : sep ∉ s := fun e => h (List.mem_cons_of_mem _ e)
      simp [splitOn, hc, splitOn_append sep rest s hr]

theorem splitOn_three (sep : Byte) (a b c : GoString) (ha : sep ∉ a) (hb : sep ∉ b)
    (hc : sep ∉ c) : splitOn sep (a ++ sep :: (b ++ sep :: c)) = [a, b, c] := by
  rw [splitOn_append sep _ a ha, splitOn_append sep _ b hb, splitOn_no_sep sep c hc]

/-! ## Proofs: decimal numbers -/

theorem isDigit_byte_digit (d : Nat) (h : d < 10) : isDigit (byte (48 + d)) = true := by
  interval_cases d <;> decide

theorem byte_digit_val (d : Nat) (h : d < 10) : (byte (48 + d)).val - 48 = d := by
  interval_cases d <;> decide

theorem fmtDigits_all_digits : ∀ (fuel n : Nat), ∀ c ∈ fmtDigits fuel n, isDigit c = true
  | 0, _ => by simp [fmtDigits]
  | fuel + 1, n => by
      intro c hc
      simp only [fmtDigits] at hc
      split at hc
      · simp only [List.mem_singleton] at hc
        subst hc
        exact isDigit_byte_digit n (by omega)
      · rcases List.mem_append.1 hc with h | h
        · exact fmtDigits_all_digits fuel (n / 10) c h
        · simp only [List.mem_singleton] at h
          subst h
          exact isDigit_byte_digit _ (Nat.mod_lt _ (by decide))

theorem digitsVal_append (l : List Byte) (d : Byte) :
    digitsVal (l ++ [d]) = digitsVal l * 10 + (d.val - 48) := by
  simp [digitsVal, List.foldl_append]

theorem digitsVal_fmtDigits : ∀ (fuel n : Nat), n < fuel → digitsVal (fmtDigits fuel n) = n
  | 0, _, h => by omega
  | fuel + 1, n, h => by
      simp only [fmtDigits]
      split
      · rename_i hn
        simp [digitsVal, byte_digit_val n hn]
      · rename_i hn
        rw [digitsVal_append, digitsVal_fmtDigits fuel (n / 10) (by omega),
          byte_digit_val _ (Nat.mod_lt _ (by decide))]
        omega

/-- The digits of a positive number start with a digit other than `0`. -/
theorem fmtDigits_head : ∀ (fuel n : Nat), n < fuel → 0 < n →
    ∃ d ds, fmtDigits fuel n = d :: ds ∧ isDigit d = true ∧ d.val ≠ 48
  | 0, _, h, _ => by omega
  | fuel + 1, n, h, hpos => by
      simp only [fmtDigits]
      split
      · rename_i hn
        refine ⟨_, [], rfl, isDigit_byte_digit n hn, ?_⟩
        interval_cases n <;> simp_all [byte_val]
      · rename_i hn
        obtain ⟨d, ds, hds, hd1, hd2⟩ := fmtDigits_head fuel (n / 10) (by omega) (by omega)
        exact ⟨d, ds ++ [byte (48 + n % 10)], by rw [hds]; rfl, hd1, hd2⟩

theorem fmtDigits_zero (fuel : Nat) : fmtDigits (fuel + 1) 0 = [byte 48] := by
  simp [fmtDigits]

theorem spanDigits_append (rest : List Byte) (hrest : ∀ c ∈ rest.head?, isDigit c = false) :
    ∀ ds : List Byte, (∀ c ∈ ds, isDigit c = true) → spanDigits (ds ++ rest) = (ds, rest)
  | [], _ => by
      cases rest with
      | nil => rfl
      | cons c r =>
          have := hrest c (by simp)
          simp [spanDigits, this]
  | d :: ds, h => by
      have hd := h d (List.mem_cons_self _ _)
      have ih := spanDigits_append rest hrest ds (fun c hc => h c (List.mem_cons_of_mem _ hc))
      simp [spanDigits, hd, ih]

theorem isDigit_val {d : Byte} (h : isDigit d = true) : 48 ≤ d.val ∧ d.val ≤ 57 := by
  simpa [isDigit] using h

theorem scanNumber_unsigned (d : Byte) (ds : List Byte) (c : Byte) (rest : List Byte)
    (hd : isDigit d = true) (hds : ∀ x ∈ ds, isDigit x = true) (hz : d.val = 48 → ds = [])
    (hc : endsNumber c) :
    scanNumber (d :: ds ++ c :: rest) = some (d :: ds, c :: rest) := by
  obtain ⟨hc1, hc2, hc3, hc4⟩ := hc
  have hdv := isDigit_val hd
  have h45 : d.val ≠ 45 := by omega
  have hspan : spanDigits (ds ++ c :: rest) = (ds, c :: rest) :=
    spanDigits_append (c :: rest) (by simp [hc1]) ds hds
  by_cases h0 : d.val = 48
  · have := hz h0
    subst this
    simp [scanNumber, h45, hd, h0, hc2, hc3, hc4]
  · simp [scanNumber, h45, hd, h0, hc2, hc3, hc4, hspan]

theorem scanNumber_signed (d : Byte) (ds : List Byte) (c : Byte) (rest : List Byte)
    (hd : isDigit d = true) (hds : ∀ x ∈ ds, isDigit x = true) (hz : d.val = 48 → ds = [])
    (hc : endsNumber c) :
    scanNumber (byte 45 :: d :: ds ++ c :: rest) = some (byte 45 :: d :: ds, c :: rest) := by
  obtain ⟨hc1, hc2, hc3, hc4⟩ := hc
  have hdv := isDigit_val hd
  have hspan : spanDigits (ds ++ c :: rest) = (ds, c :: rest) :=
    spanDigits_append (c :: rest) (by simp [hc1]) ds hds
  have hm : (byte 45).val = 45 := rfl
  by_cases h0 : d.val = 48
  · have := hz h0
    subst this
    simp [scanNumber, hm, hd, h0, hc2, hc3, hc4]
  · simp [scanNumber, hm, hd, h0, hc2, hc3, hc4, hspan]

/-- The shape of the digits of a natural number. -/
theorem fmtDigits_shape (n : Nat) :
    ∃ d ds, fmtDigits (n + 1) n = d :: ds ∧ isDigit d = true
      ∧ (∀ x ∈ ds, isDigit x = true) ∧ (d.val = 48 → ds = []) := by
  rcases Nat.eq_zero_or_pos n with h | h
  · subst h
    exact ⟨byte 48, [], by simp [fmtDigits], by decide, by simp, fun _ => rfl⟩
  · obtain ⟨d, ds, hds, hd1, hd2⟩ := fmtDigits_head (n + 1) n (by omega) h
    refine ⟨d, ds, hds, hd1, fun x hx => ?_, fun h0 => absurd h0 hd2⟩
    exact fmtDigits_all_digits (n + 1) n x (by rw [hds]; exact List.mem_cons_of_mem _ hx)

theorem scanNumber_formatInt (n : Int) (c : Byte) (rest : List Byte) (hc : endsNumber c) :
    scanNumber (formatInt n ++ c :: rest) = some (formatInt n, c :: rest) := by
  obtain ⟨d, ds, hds, hd, hall, hz⟩ := fmtDigits_shape n.natAbs
  unfold formatInt
  split
  · rw [hds]; exact scanNumber_signed d ds c rest hd hall hz hc
  · rw [hds]; exact scanNumber_unsigned d ds c rest hd hall hz hc

theorem spanDigits_all (ds : List Byte) (h : ∀ c ∈ ds, isDigit c = true) :
    spanDigits ds = (ds, []) := by
  have := spanDigits_append [] (by simp) ds h
  simpa using this

theorem parseDecimal_formatInt (n : Int) :
    parseDecimal (formatInt n) = { neg := decide (n < 0), mant := n.natAbs, exp := 0 } := by
  obtain ⟨d, ds, hds, hd, hall, _⟩ := fmtDigits_shape n.natAbs
  have hdv := isDigit_val hd
  have hall2 : ∀ c ∈ d :: ds, isDigit c = true := by
    intro c hc
    rcases List.mem_cons.1 hc with h | h
    · exact h ▸ hd
    · exact hall c h
  have hspan := spanDigits_all (d :: ds) hall2
  have hval : digitsVal (d :: ds) = n.natAbs := by
    rw [← hds]; exact digitsVal_fmtDigits _ _ (by omega)
  have hm : (byte 45).val = 45 := rfl
  have h45 : d.val ≠ 45 := by omega
  unfold formatInt
  split
  · rename_i hn
    rw [hds]
    simp [parseDecimal, hm, hspan, hval, hn]
  · rename_i hn
    rw [hds]
    simp [parseDecimal, h45, hspan, hval, hn]

theorem unixNanos_formatInt (n : Int) :
    (parseDecimal (formatInt n)).unixNanos = n * 1000000000 := by
  rw [parseDecimal_formatInt]
  have e9 : ((0 : Int) + 9).toNat = 9 := rfl
  simp only [Decimal.unixNanos, e9, show (0 : Int) ≤ 0 + 9 by decide, if_true]
  by_cases hn : n < 0
  · have : (n.natAbs : Int) = -n := by omega
    simp only [hn, decide_True, if_true, Nat.cast_mul, this]
    norm_num
  · have : (n.natAbs : Int) = n := by omega
    simp only [hn, decide_False, Nat.cast_mul, this]
    norm_num

set_option exponentiation.threshold 2000 in
theorem inFloatRange_formatInt (n : Int) (h : n.natAbs < 2 ^ 64) :
    (parseDecimal (formatInt n)).inFloatRange = true := by
  rw [parseDecimal_formatInt]
  have hb : (2 : Nat) ^ 64 ≤ 2 ^ 1024 - 2 ^ 970 := by norm_num
  simp only [Decimal.inFloatRange, le_refl, if_true, Int.toNat_zero, pow_zero, mul_one,
    decide_eq_true_eq]
  omega

/-! ## Proofs: JSON strings -/

theorem htmlSafe_val {c : Byte} (h : htmlSafe c = true) :
    32 ≤ c.val ∧ c.val < 128 ∧ c.val ≠ 34 ∧ c.val ≠ 92 := by
  simp [htmlSafe] at h
  omega

theorem scanString_plain (rest : List Byte) :
    ∀ (s : List Byte) (fuel : Nat), (∀ c ∈ s, htmlSafe c = true) → s.length < fuel →
      scanString fuel (s ++ byte 34 :: rest) = some (s, rest)
  | [], fuel, _, hf => by
      obtain ⟨f, rfl⟩ : ∃ f, fuel = f + 1 := ⟨fuel - 1, by simp at hf; omega⟩
      simp [scanString, byte_val]
  | c :: s, fuel, h, hf => by
      obtain ⟨f, rfl⟩ : ∃ f, fuel = f + 1 := ⟨fuel - 1, by simp at hf; omega⟩
      have hc := htmlSafe_val (h c (List.mem_cons_self _ _))
      have ih := scanString_plain rest s f (fun x hx => h x (List.mem_cons_of_mem _ hx))
        (by simp at hf; omega)
      have h1 : c.val ≠ 34 := hc.2.2.1
      have h2 : c.val ≠ 92 := hc.2.2.2
      have h3 : ¬ c.val < 32 := by omega
      have h4 : c.val < 128 := hc.2.1
      simp [scanString, h1, h2, h3, h4, ih]

theorem quoteBody_plain :
    ∀ (s : List Byte) (fuel : Nat), (∀ c ∈ s, htmlSafe c = true) → s.length ≤ fuel →
      quoteBody fuel s = s
  | [], fuel, _, _ => by cases fuel <;> simp [quoteBody]
  | c :: s, fuel, h, hf => by
      obtain ⟨f, rfl⟩ : ∃ f, fuel = f + 1 := ⟨fuel - 1, by simp at hf; omega⟩
      have hc := h c (List.mem_cons_self _ _)
      have ih := quoteBody_plain s f (fun x hx => h x (List.mem_cons_of_mem _ hx))
        (by simp at hf; omega)
      simp [quoteBody, hc, ih]

theorem jsonQuote_plain (s : List Byte) (h : ∀ c ∈ s, htmlSafe c = true) :
    jsonQuote s = byte 34 :: s ++ [byte 34] := by
  simp [jsonQuote, quoteBody_plain s s.length h (le_refl _)]

theorem htmlSafe_of_lowerHex {c : Byte} (h : isLowerHexDigit c = true) : htmlSafe c = true := by
  revert c; decide!

theorem htmlSafe_hex (bs : List Byte) : ∀ c ∈ hexEncodeToString bs, htmlSafe c = true :=
  fun c hc => htmlSafe_of_lowerHex (hexEncodeToString_lower bs c hc)

theorem UUID_String_plain (u : UUID) : ∀ c ∈ u.String, htmlSafe c = true := by
  intro c hc
  have hd : htmlSafe (byte 45) = true := by decide
  simp only [UUID.String, List.mem_append, List.mem_cons] at hc
  rcases hc with (((h | h | h) | h | h) | h | h) | h | h
  all_goals first | exact h ▸ hd | exact htmlSafe_hex _ c h

theorem UUID_String_length (u : UUID) : u.String.length = 36 := by
  have := u.property
  simp only [UUID.String, List.length_append, List.length_cons, hexEncodeToString_length,
    List.length_take, List.length_drop]
  omega

/-! ## Proofs: reading the claims object -/

theorem skipSpace_cons (c : Byte) (rest : List Byte) (h : isSpace c = false) :
    skipSpace (c :: rest) = c :: rest := by
  simp [skipSpace, h]

theorem parseValue_string (fuel depth : Nat) (s rest : List Byte)
    (h : ∀ c ∈ s, htmlSafe c = true) :
    parseValue (fuel + 1) depth (byte 34 :: s ++ byte 34 :: rest) = some (.string s, rest) := by
  have hs := scanString_plain rest s (s.length + (rest.length + 1) + 1) h (by omega)
  simp [parseValue, byte_val, hs]

/-- The first byte of a formatted integer: a minus sign or a digit. -/
theorem formatInt_head (n : Int) :
    ∃ x xs, formatInt n = x :: xs ∧ (x.val = 45 ∨ isDigit x = true) := by
  obtain ⟨d, ds, hds, hd, _, _⟩ := fmtDigits_shape n.natAbs
  unfold formatInt
  split
  · exact ⟨byte 45, _, rfl, Or.inl rfl⟩
  · exact ⟨d, ds, hds, Or.inr hd⟩

theorem parseValue_number (fuel depth : Nat) (n : Int) (c : Byte) (rest : List Byte)
    (hc : endsNumber c) :
    parseValue (fuel + 1) depth (formatInt n ++ c :: rest)
      = some (.number (formatInt n), c :: rest) := by
  have hnum := scanNumber_formatInt n c rest hc
  obtain ⟨x, xs, hx, hx2⟩ := formatInt_head n
  rw [hx] at hnum ⊢
  have hv : x.val = 45 ∨ (48 ≤ x.val ∧ x.val ≤ 57) := by
    rcases hx2 with h | h
    · exact Or.inl h
    · exact Or.inr (isDigit_val h)
  have h1 : x.val ≠ 123 := by omega
  have h2 : x.val ≠ 91 := by omega
  have h3 : x.val ≠ 34 := by omega
  have h4 : x.val ≠ 116 := by omega
  have h5 : x.val ≠ 102 := by omega
  have h6 : x.val ≠ 110 := by omega
  simp only [List.cons_append] at hnum ⊢
  simp [parseValue, h1, h2, h3, h4, h5, h6, hnum]

theorem skipSpace_formatInt (n : Int) (rest : List Byte) :
    skipSpace (formatInt n ++ rest) = formatInt n ++ rest := by
  obtain ⟨x, xs, hx, hx2⟩ := formatInt_head n
  rw [hx]
  have hv : x.val = 45 ∨ (48 ≤ x.val ∧ x.val ≤ 57) := by
    rcases hx2 with h | h
    · exact Or.inl h
    · exact Or.inr (isDigit_val h)
  have : isSpace x = false := by
    simp [isSpace]; omega
  simp [skipSpace, this]

theorem endsNumber_comma : endsNumber (byte 44) := by unfold endsNumber; decide

theorem endsNumber_brace : endsNumber (byte 125) := by unfold endsNumber; decide

theorem parseMembers_last (fuel depth : Nat) (k vtext rest : List Byte) (v : JSON)
    (hk : ∀ c ∈ k, htmlSafe c = true)
    (hsp : skipSpace (vtext ++ byte 125 :: rest) = vtext ++ byte 125 :: rest)
    (hv : parseValue fuel depth (vtext ++ byte 125 :: rest) = some (v, byte 125 :: rest)) :
    parseMembers (fuel + 1) depth (byte 34 :: k ++ byte 34 :: byte 58 :: (vtext ++ byte 125 :: rest))
      = some ([(k, v)], rest) := by
  have hs := fun F hF => scanString_plain (byte 58 :: (vtext ++ byte 125 :: rest)) k F hk hF
  have h58 : skipSpace (byte 58 :: (vtext ++ byte 125 :: rest))
      = byte 58 :: (vtext ++ byte 125 :: rest) := skipSpace_cons _ _ (by decide)
  have h125 : skipSpace (byte 125 :: rest) = byte 125 :: rest := skipSpace_cons _ _ (by decide)
  simp only [List.cons_append, parseMembers, List.append_eq]
  rw [hs _ (by simp only [List.length_append, List.length_cons]; omega)]
  simp only [byte_val, Nat.reduceMod, ne_eq, not_true_eq_false, if_false, h58, hsp, hv, h125,
    if_true]

theorem parseMembers_mid (fuel depth : Nat) (k vtext rest : List Byte) (v : JSON)
    (hk : ∀ c ∈ k, htmlSafe c = true)
    (hsp : skipSpace (vtext ++ byte 44 :: rest) = vtext ++ byte 44 :: rest)
    (hv : parseValue fuel depth (vtext ++ byte 44 :: rest) = some (v, byte 44 :: rest))
    (hrest : skipSpace rest = rest) :
    parseMembers (fuel + 1) depth (byte 34 :: k ++ byte 34 :: byte 58 :: (vtext ++ byte 44 :: rest))
      = (parseMembers fuel depth rest).map fun r => ((k, v) :: r.1, r.2) := by
  have hs := fun F hF => scanString_plain (byte 58 :: (vtext ++ byte 44 :: rest)) k F hk hF
  have h58 : skipSpace (byte 58 :: (vtext ++ byte 44 :: rest))
      = byte 58 :: (vtext ++ byte 44 :: rest) := skipSpace_cons _ _ (by decide)
  have h44 : skipSpace (byte 44 :: rest) = byte 44 :: rest := skipSpace_cons _ _ (by decide)
  simp only [List.cons_append, parseMembers, List.append_eq]
  rw [hs _ (by simp only [List.length_append, List.length_cons]; omega)]
  simp only [byte_val, Nat.reduceMod, ne_eq, not_true_eq_false, if_false, h58, hsp, hv, h44,
    if_true, hrest]
  simp

theorem truncateSecond_mul (n : Int) : truncateSecond (n * Second) = n * Second := by
  simp [truncateSecond, Second]

theorem marshalNumericDate_mul (n : Int) : marshalNumericDate (n * Second) = formatInt n := by
  simp [marshalNumericDate, truncateSecond, Second]

theorem htmlSafe_lit_chirpy : ∀ c ∈ lit "chirpy", htmlSafe c = true := by decide!

theorem htmlSafe_lit_iss : ∀ c ∈ lit "iss", htmlSafe c = true := by decide!

theorem htmlSafe_lit_sub : ∀ c ∈ lit "sub", htmlSafe c = true := by decide!

theorem htmlSafe_lit_exp : ∀ c ∈ lit "exp", htmlSafe c = true := by decide!

theorem htmlSafe_lit_iat : ∀ c ∈ lit "iat", htmlSafe c = true := by decide!

/-- The claims that `MakeJWT` signs, as JSON text. -/
theorem marshalClaims_issued (sub : GoString) (hsub : ∀ c ∈ sub, htmlSafe c = true)
    (hne : sub ≠ []) (E I : Int) :
    marshalClaims { Issuer := lit "chirpy", Subject := sub, Audience := []
                    ExpiresAt := some (E * Second), NotBefore := none
                    IssuedAt := some (I * Second), ID := [] }
      = byte 123 :: (byte 34 :: lit "iss" ++ byte 34 :: byte 58 ::
          ((byte 34 :: lit "chirpy" ++ [byte 34]) ++ byte 44 ::
          (byte 34 :: lit "sub" ++ byte 34 :: byte 58 ::
          ((byte 34 :: sub ++ [byte 34]) ++ byte 44 ::
          (byte 34 :: lit "exp" ++ byte 34 :: byte 58 ::
          (formatInt E ++ byte 44 ::
          (byte 34 :: lit "iat" ++ byte 34 :: byte 58 ::
          (formatInt I ++ byte 125 :: [])))))))) := by
  have h1 : (lit "chirpy").isEmpty = false := by decide
  have h2 : sub.isEmpty = false := by cases sub <;> simp_all
  simp only [marshalClaims, omitEmpty, jsonMember, joinComma, h1, h2, Bool.not_false,
    Bool.not_true, if_true, List.isEmpty_nil, if_false, Option.isSome_some, Option.isSome_none,
    Option.getD_some, marshalNumericDate_mul, jsonQuote_plain _ htmlSafe_lit_chirpy,
    jsonQuote_plain _ hsub, List.append_nil, List.nil_append, List.cons_append, List.append_assoc,
    List.singleton_append, Bool.false_eq_true]

theorem skipSpace_quote (rest : List Byte) : skipSpace (byte 34 :: rest) = byte 34 :: rest :=
  skipSpace_cons _ _ (by decide)

theorem parseValue_object (fuel depth : Nat) (rest : List Byte) :
    parseValue (fuel + 1) (depth + 1) (byte 123 :: byte 34 :: rest)
      = (parseMembers fuel depth (byte 34 :: rest)).map fun r => (.object r.1, r.2) := by
  simp [parseValue, byte_val, skipSpace_quote]

/-- The value that `Decoder.Decode` reads from the claims `MakeJWT` signs. -/
theorem readValue_issued (sub : GoString) (hsub : ∀ c ∈ sub, htmlSafe c = true) (E I : Int) :
    readValue (byte 123 :: (byte 34 :: lit "iss" ++ byte 34 :: byte 58 ::
          ((byte 34 :: lit "chirpy" ++ [byte 34]) ++ byte 44 ::
          (byte 34 :: lit "sub" ++ byte 34 :: byte 58 ::
          ((byte 34 :: sub ++ [byte 34]) ++ byte 44 ::
          (byte 34 :: lit "exp" ++ byte 34 :: byte 58 ::
          (formatInt E ++ byte 44 ::
          (byte 34 :: lit "iat" ++ byte 34 :: byte 58 ::
          (formatInt I ++ byte 125 :: []))))))))) =
      some (.object [(lit "iss", .string (lit "chirpy")), (lit "sub", .string sub),
        (lit "exp", .number (formatInt E)), (lit "iat", .number (formatInt I))], []) := by
  generalize hfuel : (byte 123 :: (byte 34 :: lit "iss" ++ byte 34 :: byte 58 ::
          ((byte 34 :: lit "chirpy" ++ [byte 34]) ++ byte 44 ::
          (byte 34 :: lit "sub" ++ byte 34 :: byte 58 ::
          ((byte 34 :: sub ++ [byte 34]) ++ byte 44 ::
          (byte 34 :: lit "exp" ++ byte 34 :: byte 58 ::
          (formatInt E ++ byte 44 ::
          (byte 34 :: lit "iat" ++ byte 34 :: byte 58 ::
          (formatInt I ++ byte 125 :: []))))))))).length = L
  have hL : 6 ≤ L := by
    rw [← hfuel]
    simp only [List.length_cons, List.length_append]
    omega
  obtain ⟨f, rfl⟩ : ∃ f, L = f + 6 := ⟨L - 6, by omega⟩
  unfold readValue
  rw [hfuel, skipSpace_cons _ _ (by decide)]
  show parseValue (f + 6 + 1) (9999 + 1) _ = _
  simp only [List.cons_append]
  rw [parseValue_object]
  have step1 := parseMembers_mid (f + 5) 9999 (lit "iss") (byte 34 :: lit "chirpy" ++ [byte 34])
    (byte 34 :: lit "sub" ++ byte 34 :: byte 58 ::
          ((byte 34 :: sub ++ [byte 34]) ++ byte 44 ::
          (byte 34 :: lit "exp" ++ byte 34 :: byte 58 ::
          (formatInt E ++ byte 44 ::
          (byte 34 :: lit "iat" ++ byte 34 :: byte 58 ::
          (formatInt I ++ byte 125 :: []))))))
    (.string (lit "chirpy")) htmlSafe_lit_iss (skipSpace_quote _)
    (by simpa using parseValue_string (f + 4) 9999 (lit "chirpy") _ htmlSafe_lit_chirpy)
    (skipSpace_quote _)
  have step2 := parseMembers_mid (f + 4) 9999 (lit "sub") (byte 34 :: sub ++ [byte 34])
    (byte 34 :: lit "exp" ++ byte 34 :: byte 58 ::
          (formatInt E ++ byte 44 ::
          (byte 34 :: lit "iat" ++ byte 34 :: byte 58 ::
          (formatInt I ++ byte 125 :: []))))
    (.string sub) htmlSafe_lit_sub (skipSpace_quote _)
    (by simpa using parseValue_string (f + 3) 9999 sub _ hsub)
    (skipSpace_quote _)
  have step3 := parseMembers_mid (f + 3) 9999 (lit "exp") (formatInt E)
    (byte 34 :: lit "iat" ++ byte 34 :: byte 58 :: (formatInt I ++ byte 125 :: []))
    (.number (formatInt E)) htmlSafe_lit_exp (skipSpace_formatInt _ _)
    (parseValue_number (f + 2) 9999 E _ _ endsNumber_comma)
    (skipSpace_quote _)
  have step4 := parseMembers_last (f + 2) 9999 (lit "iat") (formatInt I) []
    (.number (formatInt I)) htmlSafe_lit_iat (skipSpace_formatInt _ _)
    (parseValue_number (f + 1) 9999 I _ _ endsNumber_brace)
  simp only [List.cons_append] at step1 step2 step3 step4
  rw [step1, step2, step3, step4]
  rfl

theorem decodeNumericDate_formatInt (n : Int) (h : n.natAbs < 2 ^ 64) :
    decodeNumericDate (.number (formatInt n)) = some (some (n * Second)) := by
  have h2 : NewNumericDate (n * 1000000000) = n * Second := truncateSecond_mul n
  simp only [decodeNumericDate, inFloatRange_formatInt n h, if_true, unixNanos_formatInt, h2]

theorem setClaim_iss (c : RegisteredClaims) (s : GoString) :
    setClaim c (lit "iss", .string s) = some { c with Issuer := s } := by
  have hk : foldName (lit "iss") = lit "iss" := by decide!
  simp [setClaim, hk, decodeStringField]

theorem setClaim_sub (c : RegisteredClaims) (s : GoString) :
    setClaim c (lit "sub", .string s) = some { c with Subject := s } := by
  have hk : foldName (lit "sub") = lit "sub" := by decide!
  have h1 : lit "sub" ≠ lit "iss" := by decide!
  simp [setClaim, hk, h1, decodeStringField]

theorem setClaim_exp (c : RegisteredClaims) (n : Int) (h : n.natAbs < 2 ^ 64) :
    setClaim c (lit "exp", .number (formatInt n)) = some { c with ExpiresAt := some (n * Second) } := by
  have hk : foldName (lit "exp") = lit "exp" := by decide!
  have h1 : lit "exp" ≠ lit "iss" := by decide!
  have h2 : lit "exp" ≠ lit "sub" := by decide!
  have h3 : lit "exp" ≠ lit "aud" := by decide!
  simp [setClaim, hk, h1, h2, h3, decodeNumericDate_formatInt n h]

theorem setClaim_iat (c : RegisteredClaims) (n : Int) (h : n.natAbs < 2 ^ 64) :
    setClaim c (lit "iat", .number (formatInt n)) = some { c with IssuedAt := some (n * Second) } := by
  have hk : foldName (lit "iat") = lit "iat" := by decide!
  have h1 : lit "iat" ≠ lit "iss" := by decide!
  have h2 : lit "iat" ≠ lit "sub" := by decide!
  have h3 : lit "iat" ≠ lit "aud" := by decide!
  have h4 : lit "iat" ≠ lit "exp" := by decide!
  have h5 : lit "iat" ≠ lit "nbf" := by decide!
  simp [setClaim, hk, h1, h2, h3, h4, h5, decodeNumericDate_formatInt n h]

/-- Decoding inverts the marshalling of the claims that `MakeJWT` signs. -/
theorem decodeClaims_issued (sub : GoString) (hsub : ∀ c ∈ sub, htmlSafe c = true)
    (hne : sub ≠ []) (E I : Int) (hE : E.natAbs < 2 ^ 64) (hI : I.natAbs < 2 ^ 64) :
    decodeClaims (marshalClaims { Issuer := lit "chirpy", Subject := sub, Audience := []
                                  ExpiresAt := some (E * Second), NotBefore := none
                                  IssuedAt := some (I * Second), ID := [] })
      = some { Issuer := lit "chirpy", Subject := sub, Audience := []
               ExpiresAt := some (E * Second), NotBefore := none
               IssuedAt := some (I * Second), ID := [] } := by
  rw [marshalClaims_issued sub hsub hne, decodeClaims, readValue_issued sub hsub]
  simp only [setClaims, setClaim_iss, setClaim_sub, setClaim_exp _ E hE, setClaim_iat _ I hI,
    RegisteredClaims.zero]

/-- The header that `SignedStringHS256` writes, read back. -/
theorem unmarshalHeader_HS256 :
    unmarshalHeader (marshalHeader (lit "HS256"))
      = some [(lit "alg", .string (lit "HS256")), (lit "typ", .string (lit "JWT"))] := by
  rfl

theorem headerLookup_HS256 :
    headerLookup (lit "alg") [(lit "alg", .string (lit "HS256")), (lit "typ", .string (lit "JWT"))]
      = some (.string (lit "HS256")) := by
  rfl

theorem GetSigningMethod_HS256 : GetSigningMethod (lit "HS256") = some .HS256 := by
  rfl

/-! ## Proofs: identities -/

theorem xtob_hextable (b : Byte) :
    xtob (hextable.getD (b.val / 16) 0) (hextable.getD (b.val % 16) 0) = some b := by
  simp only [xtob, fromHexChar_hextable_hi, fromHexChar_hextable_lo, byte_nibbles]

/-- Parsing inverts the string form of an identity. -/
theorem uuidParse_String (u : UUID) : uuidParse u.String = (u, none) := by
  have hlen := UUID_String_length u
  obtain ⟨bs, hbs⟩ := u
  rcases bs with _ | ⟨b0, _ | ⟨b1, _ | ⟨b2, _ | ⟨b3, _ | ⟨b4, _ | ⟨b5, _ | ⟨b6, _ | ⟨b7, _ | ⟨b8, _ | ⟨b9, _ | ⟨b10, _ | ⟨b11, _ | ⟨b12, _ | ⟨b13, _ | ⟨b14, _ | ⟨b15, _ | ⟨x, t⟩⟩⟩⟩⟩⟩⟩⟩⟩⟩⟩⟩⟩⟩⟩⟩⟩
  all_goals try (simp at hbs; done)
  unfold uuidParse
  rw [if_pos hlen]
  simp only [UUID.String, List.take, List.drop, hexEncodeToString, List.cons_append,
    List.nil_append, parseDashed, List.getD_cons_zero, List.getD_cons_succ, ne_eq,
    not_true_eq_false, or_self, if_false, parsePairs, xtob_hextable, if_true]
  refine Prod.ext ?_ rfl
  apply Subtype.ext
  simp [UUID.ofPrefix]

/-! ## Proofs: issuing and validating -/

theorem MakeJWTClaims_eq (now1 now2 : Time) (u : UUID) (ttl : Duration) :
    MakeJWTClaims now1 now2 u ttl =
      { Issuer := lit "chirpy", Subject := u.String, Audience := []
        ExpiresAt := some ((now2 + ttl) / Second * Second), NotBefore := none
        IssuedAt := some (now1 / Second * Second), ID := [] } := rfl

theorem natAbs_div_Second (x : Int)
    (h : -(2 ^ 64) * 1000000000 + 1000000000 ≤ x ∧ x < 2 ^ 64 * 1000000000) :
    (x / Second).natAbs < 2 ^ 64 := by
  unfold Second
  omega

theorem UUID_String_ne_nil (u : UUID) : u.String ≠ [] := by
  intro h
  have := UUID_String_length u
  rw [h] at this
  simp at this

/-- What `ParseUnverified` extracts from a token that `MakeJWT` issued. -/
theorem ParseUnverified_MakeJWT (now1 now2 : Time) (u : UUID) (s : GoString) (ttl : Duration)
    (h1 : validTime now1) (h2 : validTime now2) (h3 : fitsInt64 ttl) :
    ParseUnverified (MakeJWT now1 now2 u s ttl).1 =
      .ok { Method := .HS256, Claims := MakeJWTClaims now1 now2 u ttl
            signingString := SigningString (lit "HS256") (MakeJWTClaims now1 now2 u ttl)
            Signature := hmacSign SHA256
              (SigningString (lit "HS256") (MakeJWTClaims now1 now2 u ttl)) s } := by
  have hsplit : splitOn (byte 46) (MakeJWT now1 now2 u s ttl).1 =
      [EncodeSegment (marshalHeader (lit "HS256")),
       EncodeSegment (marshalClaims (MakeJWTClaims now1 now2 u ttl)),
       hmacSign SHA256 (SigningString (lit "HS256") (MakeJWTClaims now1 now2 u ttl)) s] := by
    simp only [MakeJWT, SignedStringHS256, SigningString, List.append_assoc, List.cons_append]
    exact splitOn_three _ _ _ _ (EncodeSegment_no_period _) (EncodeSegment_no_period _)
      (EncodeSegment_no_period _)
  have hclaims : decodeClaims (marshalClaims (MakeJWTClaims now1 now2 u ttl))
      = some (MakeJWTClaims now1 now2 u ttl) := by
    rw [MakeJWTClaims_eq]
    refine decodeClaims_issued _ (UUID_String_plain u) (UUID_String_ne_nil u) _ _
      (natAbs_div_Second _ ?_) (natAbs_div_Second _ ?_)
    · unfold validTime at h2; unfold fitsInt64 at h3; omega
    · unfold validTime at h1; omega
  unfold ParseUnverified
  rw [hsplit]
  simp only [DecodeSegment_EncodeSegment, unmarshalHeader_HS256, hclaims, headerLookup_HS256,
    GetSigningMethod_HS256, SigningString]

theorem hmacVerify_hmacSign (h : Sha2) (sstr s1 s2 : GoString) :
    hmacVerify h sstr (hmacSign h sstr s1) s2 = decide (hmacSum h s1 sstr = hmacSum h s2 sstr) := by
  simp [hmacVerify, hmacSign, DecodeSegment_EncodeSegment]

theorem Valid_MakeJWTClaims (now now1 now2 : Time) (u : UUID) (ttl : Duration) :
    (MakeJWTClaims now1 now2 u ttl).Valid now =
      (if now < truncateSecond (now2 + ttl) then 0 else ValidationErrorExpired)
      + (if truncateSecond now1 ≤ now then 0 else ValidationErrorIssuedAt) := by
  simp [RegisteredClaims.Valid, MakeJWTClaims, NewNumericDate]

/-- The result of validating, at `now` and under `s2`, a token issued under
`s1`: decided by the two tags and the two time claims. -/
theorem ValidateJWT_MakeJWT (now now1 now2 : Time) (u : UUID) (s1 s2 : GoString) (ttl : Duration)
    (h1 : validTime now1) (h2 : validTime now2) (h3 : fitsInt64 ttl) :
    ValidateJWT now (MakeJWT now1 now2 u s1 ttl).1 s2 =
      if hmacSum SHA256 s1 (SigningString (lit "HS256") (MakeJWTClaims now1 now2 u ttl))
          ≠ hmacSum SHA256 s2 (SigningString (lit "HS256") (MakeJWTClaims now1 now2 u ttl)) then
        (UUID.Nil, some (.validation ValidationErrorSignatureInvalid))
      else if (MakeJWTClaims now1 now2 u ttl).Valid now ≠ 0 then
        (UUID.Nil, some (.validation ((MakeJWTClaims now1 now2 u ttl).Valid now)))
      else (u, none) := by
  unfold ValidateJWT ParseWithClaims
  rw [ParseUnverified_MakeJWT now1 now2 u s1 ttl h1 h2 h3]
  simp only [SigningMethod.Verify, hmacVerify_hmacSign, decide_eq_true_eq]
  by_cases ht : hmacSum SHA256 s1 (SigningString (lit "HS256") (MakeJWTClaims now1 now2 u ttl))
      = hmacSum SHA256 s2 (SigningString (lit "HS256") (MakeJWTClaims now1 now2 u ttl))
  · by_cases hv : (MakeJWTClaims now1 now2 u ttl).Valid now = 0
    · simp only [ht, hv, not_true_eq_false, if_false, ne_eq]
      simp only [MakeJWTClaims, uuidParse_String, Option.map_none']
    · simp only [ht, hv, not_true_eq_false, if_false, ne_eq, not_false_eq_true, if_true]
  · simp only [ht, not_false_eq_true, if_true, ne_eq]

/-! ## Claims about access tokens -/

theorem hmacKeyBlock_append_zero (h : Sha2) (key : List Byte) (hlen : key.length < h.blockSize) :
    hmacKeyBlock h (key ++ [byte 0]) = hmacKeyBlock h key := by
  have h1 : ¬ (key ++ [byte 0]).length > h.blockSize := by
    simp only [List.length_append, List.length_singleton]; omega
  have h2 : ¬ key.length > h.blockSize := by omega
  unfold hmacKeyBlock
  simp only []
  rw [if_neg h1, if_neg h2]
  have : h.blockSize - key.length = (h.blockSize - (key ++ [byte 0]).length) + 1 := by
    simp only [List.length_append, List.length_singleton]; omega
  rw [this, List.replicate_succ, List.append_assoc, List.singleton_append]

theorem hmacSum_append_zero (h : Sha2) (key msg : List Byte) (hlen : key.length < h.blockSize) :
    hmacSum h (key ++ [byte 0]) msg = hmacSum h key msg := by
  simp only [hmacSum, hmacKeyBlock_append_zero h key hlen]

theorem lt_floor_add (t ttl : Int) (h : 1000000000 ≤ ttl) :
    t < (t + ttl) / 1000000000 * 1000000000 := by omega

theorem floor_le (t : Int) : t / 1000000000 * 1000000000 ≤ t := by omega

theorem MakeJWT_ok (now1 now2 : Time) (u : UUID) (s : GoString) (ttl : Duration) :
    (MakeJWT now1 now2 u s ttl).2 = none := rfl

/-- C1, counterexample: a token issued at the instant 1.5 s with a ttl of one
nanosecond, validated at the same instant under the same secret, is rejected
as expired: its expires-at is 1.5 s + 1 ns cut to the whole second 1 s. -/
theorem validate_at_issuance_subsecond_ttl_expired :
    (0 : Duration) < 1 ∧
    ValidateJWT 1500000000
        (MakeJWT 1500000000 1500000000 (UUID.ofPrefix [byte 1]) (lit "secret") 1).1 (lit "secret")
      = (UUID.Nil, some (.validation ValidationErrorExpired)) := by
  refine ⟨by decide, ?_⟩
  rw [ValidateJWT_MakeJWT _ _ _ _ _ _ _ (by decide) (by decide) (by decide),
    Valid_MakeJWTClaims]
  simp only [ne_eq, not_true_eq_false, if_false]
  decide

/-- C1, amended: for every identity `i`, secret `s` and ttl of at least one
second, a token issued at the instant `t` and validated at `t` under `s` gives
`i` and no error (and issuing gives no error). -/
theorem validate_at_issuance_ttl_ge_second (i : UUID) (s : GoString) (ttl : Duration) (t : Time)
    (ht : validTime t) (httl : fitsInt64 ttl) (h : Second ≤ ttl) :
    (MakeJWT t t i s ttl).2 = none ∧ ValidateJWT t (MakeJWT t t i s ttl).1 s = (i, none) := by
  refine ⟨rfl, ?_⟩
  rw [ValidateJWT_MakeJWT _ _ _ _ _ _ _ ht ht httl, Valid_MakeJWTClaims]
  have h1 : t < truncateSecond (t + ttl) := lt_floor_add t ttl h
  have h2 : truncateSecond t ≤ t := floor_le t
  simp only [ne_eq, not_true_eq_false, if_false, h1, h2, if_true, add_zero]

theorem validate_at_issuance_ttl_ge_second_witness :
    (MakeJWT 1500000000 1500000000 (UUID.ofPrefix [byte 1]) (lit "secret") Hour).2 = none ∧
    ValidateJWT 1500000000
        (MakeJWT 1500000000 1500000000 (UUID.ofPrefix [byte 1]) (lit "secret") Hour).1
        (lit "secret")
      = (UUID.ofPrefix [byte 1], none) :=
  validate_at_issuance_ttl_ge_second (UUID.ofPrefix [byte 1]) (lit "secret") Hour 1500000000
    (by decide) (by decide) (by decide)

/-- C2, counterexample: the secrets `secret` and `secret` followed by a zero
byte differ, yet a token issued under the first validates under the second
and yields the identity: `hmac.New` pads both to the same key block. -/
theorem validate_under_zero_padded_secret_accepts :
    lit "secret" ≠ lit "secret" ++ [byte 0] ∧
    ValidateJWT 0 (MakeJWT 0 0 (UUID.ofPrefix [byte 1]) (lit "secret") Hour).1
        (lit "secret" ++ [byte 0])
      = (UUID.ofPrefix [byte 1], none) := by
  refine ⟨by decide, ?_⟩
  rw [ValidateJWT_MakeJWT _ _ _ _ _ _ _ (by decide) (by decide) (by decide),
    Valid_MakeJWTClaims, hmacSum_append_zero SHA256 _ _ (by decide)]
  simp only [ne_eq, not_true_eq_false, if_false]
  decide

theorem hmacSum_same_key_block (h : Sha2) (s1 s2 msg : List Byte)
    (hk : hmacKeyBlock h s1 = hmacKeyBlock h s2) : hmacSum h s1 msg = hmacSum h s2 msg := by
  simp only [hmacSum, hk]

/-- Secrets with one key block are interchangeable: a token issued under one
validates under the other as under the first. -/
theorem ValidateJWT_same_key_block (i : UUID) (s1 s2 : GoString) (ttl : Duration)
    (now1 now2 now : Time) (h1 : validTime now1) (h2 : validTime now2) (h3 : fitsInt64 ttl)
    (hk : hmacKeyBlock SHA256 s1 = hmacKeyBlock SHA256 s2) :
    ValidateJWT now (MakeJWT now1 now2 i s1 ttl).1 s2
      = ValidateJWT now (MakeJWT now1 now2 i s1 ttl).1 s1 := by
  rw [ValidateJWT_MakeJWT _ _ _ _ _ _ _ h1 h2 h3, ValidateJWT_MakeJWT _ _ _ _ _ _ _ h1 h2 h3,
    hmacSum_same_key_block SHA256 s1 s2 _ hk]

/-- C2, amended: for every identity `i`, ttl and secrets `s1`, `s2` whose
HMAC-SHA256 tags of the token's signing input differ, validating under `s2` a
token issued under `s1` gives the nil identity and the signature-invalid
error, at every instant. -/
theorem validate_under_other_secret (i : UUID) (s1 s2 : GoString) (ttl : Duration)
    (now1 now2 now : Time) (h1 : validTime now1) (h2 : validTime now2) (h3 : fitsInt64 ttl)
    (htag : hmacSum SHA256 s2 (SigningString (lit "HS256") (MakeJWTClaims now1 now2 i ttl))
      ≠ hmacSum SHA256 s1 (SigningString (lit "HS256") (MakeJWTClaims now1 now2 i ttl))) :
    ValidateJWT now (MakeJWT now1 now2 i s1 ttl).1 s2
      = (UUID.Nil, some (.validation ValidationErrorSignatureInvalid)) := by
  rw [ValidateJWT_MakeJWT _ _ _ _ _ _ _ h1 h2 h3]
  have ht : hmacSum SHA256 s1 (SigningString (lit "HS256") (MakeJWTClaims now1 now2 i ttl))
      ≠ hmacSum SHA256 s2 (SigningString (lit "HS256") (MakeJWTClaims now1 now2 i ttl)) :=
    fun e => htag e.symm
  rw [if_pos ht]

theorem validate_under_other_secret_witness :
    hmacSum SHA256 (lit "wrong-secret")
        (SigningString (lit "HS256") (MakeJWTClaims 0 0 (UUID.ofPrefix [byte 1]) Hour))
      ≠ hmacSum SHA256 (lit "correct-secret")
        (SigningString (lit "HS256") (MakeJWTClaims 0 0 (UUID.ofPrefix [byte 1]) Hour))
    ∧ ValidateJWT 0 (MakeJWT 0 0 (UUID.ofPrefix [byte 1]) (lit "correct-secret") Hour).1
        (lit "wrong-secret")
      = (UUID.Nil, some (.validation ValidationErrorSignatureInvalid)) :=
  ⟨by decide!, validate_under_other_secret (UUID.ofPrefix [byte 1]) (lit "correct-secret")
    (lit "wrong-secret") Hour 0 0 0 (by decide) (by decide) (by decide) (by decide!)⟩

theorem floor_le_of_le (a b : Int) (h : a ≤ b) : ¬ b < a / 1000000000 * 1000000000 := by
  omega

theorem floor_le_of_le_le (a b c : Int) (h1 : a ≤ b) (h2 : b ≤ c) :
    a / 1000000000 * 1000000000 ≤ c := by omega

/-- C3: a ttl of zero is legal and yields an expired token. For every identity
`i` and secret `s`, `MakeJWT(i, s, 0)` returns no error, and validating its
token under `s` at any instant at or after the clock readings of the issuance
gives the nil identity and the expired error. -/
theorem zero_ttl_token_is_expired (i : UUID) (s : GoString) (now1 now2 now : Time)
    (h1 : validTime now1) (h2 : validTime now2) (h12 : now1 ≤ now2) (h2n : now2 ≤ now) :
    (MakeJWT now1 now2 i s 0).2 = none ∧
    ValidateJWT now (MakeJWT now1 now2 i s 0).1 s
      = (UUID.Nil, some (.validation ValidationErrorExpired)) := by
  refine ⟨rfl, ?_⟩
  rw [ValidateJWT_MakeJWT _ _ _ _ _ _ _ h1 h2 (by decide), Valid_MakeJWTClaims]
  have hexp : ¬ now < truncateSecond now2 := floor_le_of_le now2 now h2n
  have hiat : truncateSecond now1 ≤ now := floor_le_of_le_le now1 now2 now h12 h2n
  simp [hexp, hiat, ValidationErrorExpired]

theorem zero_ttl_token_is_expired_witness :
    (MakeJWT 1500000000 1500000000 (UUID.ofPrefix [byte 1]) (lit "secret") 0).2 = none ∧
    ValidateJWT 1500000000
        (MakeJWT 1500000000 1500000000 (UUID.ofPrefix [byte 1]) (lit "secret") 0).1 (lit "secret")
      = (UUID.Nil, some (.validation ValidationErrorExpired)) :=
  zero_ttl_token_is_expired (UUID.ofPrefix [byte 1]) (lit "secret") 1500000000 1500000000
    1500000000 (by decide) (by decide) (by decide) (by decide)

theorem ParseUnverified_malformed (tokenString : GoString)
    (h : parserAccepts tokenString = false) :
    ParseUnverified tokenString = .error (.validation ValidationErrorMalformed) := by
  unfold parserAccepts at h
  unfold ParseUnverified
  split
  · rename_i p0 p1 p2 hs
    rw [hs] at h
    cases h0 : DecodeSegment p0 with
    | none => simp
    | some hb =>
        cases h1 : unmarshalHeader hb with
        | none => simp [h1]
        | some header =>
            cases h2 : DecodeSegment p1 with
            | none => simp [h1]
            | some cb =>
                cases h3 : decodeClaims cb with
                | none => simp [h1, h3]
                | some claims => simp [h0, h1, h2, h3] at h
  · rfl

theorem parseDocument_of_unmarshalHeader (bs : List Byte) (ms : List (GoString × JSON))
    (h : unmarshalHeader bs = some ms) : (parseDocument bs).isSome = true := by
  unfold unmarshalHeader at h
  cases hp : parseDocument bs with
  | none => simp [hp] at h
  | some v => rfl

theorem readValue_of_decodeClaims (bs : List Byte) (c : RegisteredClaims)
    (h : decodeClaims bs = some c) : (readValue bs).isSome = true := by
  unfold decodeClaims at h
  cases hp : readValue bs with
  | none => simp [hp] at h
  | some v => rfl

theorem parserAccepts_readable (tokenString : GoString)
    (h : segmentsReadable tokenString = false) : parserAccepts tokenString = false := by
  unfold segmentsReadable at h
  unfold parserAccepts
  split
  · rename_i p0 p1 p2 hs
    rw [hs] at h
    cases h0 : DecodeSegment p0 with
    | none => simp
    | some hb =>
        cases h1 : unmarshalHeader hb with
        | none => simp [h1]
        | some header =>
            cases h2 : DecodeSegment p1 with
            | none => simp
            | some cb =>
                cases h3 : decodeClaims cb with
                | none => simp [h3]
                | some claims =>
                    have e1 := parseDocument_of_unmarshalHeader hb header h1
                    have e2 := readValue_of_decodeClaims cb claims h3
                    simp [h0, h2, e1, e2] at h
  · rfl

theorem readValue_of_parseDocument (bs : List Byte) (h : (parseDocument bs).isSome = true) :
    (readValue bs).isSome = true := by
  unfold parseDocument at h
  cases hp : readValue bs with
  | none => simp [hp] at h
  | some v => rfl

/-- A token that is structurally valid in the words of the specification has
segments that can be read. -/
theorem segmentsReadable_of_structurallyValid (tokenString : GoString)
    (h : structurallyValid tokenString = true) : segmentsReadable tokenString = true := by
  unfold structurallyValid at h
  unfold segmentsReadable
  split
  · rename_i p0 p1 p2 hs
    rw [hs] at h
    simp only [isEncodedJSON, Bool.and_eq_true] at h
    obtain ⟨h0, h1⟩ := h
    cases d0 : DecodeSegment p0 with
    | none => simp [d0] at h0
    | some b0 =>
        cases d1 : DecodeSegment p1 with
        | none => simp [d1] at h1
        | some b1 =>
            simp only [d0, d1, Bool.and_eq_true, decide_eq_true_eq] at h0 h1
            simp [h0.2, readValue_of_parseDocument b1 h1.2]
  · rename_i hs
    split at h
    · rename_i p0 p1 p2 hs2
      exact absurd hs2 (hs p0 p1 p2)
    · exact absurd h (by simp)

theorem isEncodedJSON_EncodeSegment (bs : List Byte) :
    isEncodedJSON (EncodeSegment bs) = (parseDocument bs).isSome := by
  unfold isEncodedJSON
  rw [DecodeSegment_EncodeSegment]
  simp

/-- A token with the HS256 header, any claims bytes that decode, and the tag of
its signing input under `secret` validates under `secret` when its time claims
are valid: the result is that of `uuid.Parse` on the subject. -/
theorem ValidateJWT_signed (now : Time) (claimBytes : List Byte) (claims : RegisteredClaims)
    (secret : GoString) (hc : decodeClaims claimBytes = some claims)
    (hv : claims.Valid now = 0) :
    ValidateJWT now
        ((EncodeSegment (marshalHeader (lit "HS256")) ++ byte 46 :: EncodeSegment claimBytes)
          ++ byte 46 :: hmacSign SHA256
            (EncodeSegment (marshalHeader (lit "HS256")) ++ byte 46 :: EncodeSegment claimBytes)
            secret)
        secret
      = ((uuidParse claims.Subject).1, (uuidParse claims.Subject).2.map AuthError.message) := by
  have hsplit : splitOn (byte 46)
      ((EncodeSegment (marshalHeader (lit "HS256")) ++ byte 46 :: EncodeSegment claimBytes)
        ++ byte 46 :: hmacSign SHA256
          (EncodeSegment (marshalHeader (lit "HS256")) ++ byte 46 :: EncodeSegment claimBytes)
          secret)
      = [EncodeSegment (marshalHeader (lit "HS256")), EncodeSegment claimBytes,
         hmacSign SHA256
          (EncodeSegment (marshalHeader (lit "HS256")) ++ byte 46 :: EncodeSegment claimBytes)
          secret] := by
    simp only [List.append_assoc, List.cons_append]
    exact splitOn_three _ _ _ _ (EncodeSegment_no_period _) (EncodeSegment_no_period _)
      (EncodeSegment_no_period _)
  unfold ValidateJWT ParseWithClaims ParseUnverified
  rw [hsplit]
  simp only [DecodeSegment_EncodeSegment, unmarshalHeader_HS256, hc, headerLookup_HS256,
    GetSigningMethod_HS256, SigningMethod.Verify, hmacVerify_hmacSign, decide_True,
    not_true_eq_false, if_false, hv, ne_eq]

/-- C4, counterexample: the token whose claims segment encodes the claims of an
issued token followed by the text `garbage`, signed under `secret`, is not
structurally valid, since its claims segment does not encode JSON; yet
`ValidateJWT` under `secret` returns the identity and no error. -/
theorem garbage_after_claims_validates :
    structurallyValid (garbageToken (lit "secret")) = false
      ∧ ValidateJWT 0 (garbageToken (lit "secret")) (lit "secret")
          = (UUID.ofPrefix [byte 1], none) := by
  have hdoc : (parseDocument (marshalClaims (MakeJWTClaims 0 0 (UUID.ofPrefix [byte 1]) Hour)
      ++ lit "garbage")).isSome = false := by decide!
  have hclaims : decodeClaims (marshalClaims (MakeJWTClaims 0 0 (UUID.ofPrefix [byte 1]) Hour)
      ++ lit "garbage") = some (MakeJWTClaims 0 0 (UUID.ofPrefix [byte 1]) Hour) := by decide!
  have hvalid : (MakeJWTClaims 0 0 (UUID.ofPrefix [byte 1]) Hour).Valid 0 = 0 := by decide
  constructor
  · have hsplit : splitOn (byte 46) (garbageToken (lit "secret"))
        = [EncodeSegment (marshalHeader (lit "HS256")),
           EncodeSegment (marshalClaims (MakeJWTClaims 0 0 (UUID.ofPrefix [byte 1]) Hour)
             ++ lit "garbage"),
           hmacSign SHA256 garbageSigningString (lit "secret")] := by
      simp only [garbageToken, garbageSigningString, List.append_assoc, List.cons_append]
      exact splitOn_three _ _ _ _ (EncodeSegment_no_period _) (EncodeSegment_no_period _)
        (EncodeSegment_no_period _)
    unfold structurallyValid
    rw [hsplit]
    show (isEncodedJSON _ && isEncodedJSON _) = false
    rw [isEncodedJSON_EncodeSegment, isEncodedJSON_EncodeSegment, hdoc, Bool.and_false]
  · have h := ValidateJWT_signed 0 _ _ (lit "secret") hclaims hvalid
    have hs : uuidParse (MakeJWTClaims 0 0 (UUID.ofPrefix [byte 1]) Hour).Subject
        = (UUID.ofPrefix [byte 1], none) := uuidParse_String _
    rw [hs] at h
    unfold garbageToken garbageSigningString
    exact h

/-- C4, amended: for every token string whose segments cannot be read (it does
not have exactly three segments separated by periods, or its header segment
is refused by the base64 decoder or does not hold one JSON document, or its
claims segment is refused by the base64 decoder or does not begin with a JSON
value), every secret and every instant, `ValidateJWT` returns the nil identity
together with the malformed-token error. -/
theorem malformed_token_rejected (now : Time) (tokenString tokenSecret : GoString)
    (h : segmentsReadable tokenString = false) :
    ValidateJWT now tokenString tokenSecret
      = (UUID.Nil, some (.validation ValidationErrorMalformed)) := by
  unfold ValidateJWT ParseWithClaims
  rw [ParseUnverified_malformed tokenString (parserAccepts_readable tokenString h)]

theorem malformed_token_rejected_witness :
    segmentsReadable (lit "invalid.token.format") = false ∧
    ValidateJWT 0 (lit "invalid.token.format") (lit "test-secret")
      = (UUID.Nil, some (.validation ValidationErrorMalformed)) :=
  ⟨by decide!, malformed_token_rejected 0 (lit "invalid.token.format") (lit "test-secret")
    (by decide!)⟩

theorem tokenClaims_MakeJWT (now1 now2 : Time) (u : UUID) (s : GoString) (ttl : Duration)
    (h1 : validTime now1) (h2 : validTime now2) (h3 : fitsInt64 ttl) :
    tokenClaims (MakeJWT now1 now2 u s ttl).1 = some (MakeJWTClaims now1 now2 u ttl) := by
  unfold tokenClaims
  rw [ParseUnverified_MakeJWT now1 now2 u s ttl h1 h2 h3]

theorem floor_add_sub_floor (t ttl : Int) :
    ttl - 1000000000 < (t + ttl) / 1000000000 * 1000000000 - t / 1000000000 * 1000000000
    ∧ (t + ttl) / 1000000000 * 1000000000 - t / 1000000000 * 1000000000 < ttl + 1000000000
    ∧ (ttl % 1000000000 = 0 →
        (t + ttl) / 1000000000 * 1000000000 - t / 1000000000 * 1000000000 = ttl) := by
  refine ⟨by omega, by omega, fun h => by omega⟩

/-- C5, counterexample: the token issued at the instant 1.5 s with a ttl of one
nanosecond carries issued-at 1 s, not the instant of the call, and expires-at
1 s, which is not one nanosecond after issued-at. -/
theorem issued_claims_are_cut_to_seconds :
    (tokenClaims (MakeJWT 1500000000 1500000000 (UUID.ofPrefix [byte 1]) (lit "secret") 1).1).map
        (fun c => (c.IssuedAt, c.ExpiresAt))
      = some (some 1000000000, some 1000000000) := by
  rw [tokenClaims_MakeJWT _ _ _ _ _ (by decide) (by decide) (by decide)]
  decide

theorem floor_add_sub_floor_two (a b ttl : Int) :
    ttl + (b - a) - 1000000000 < (b + ttl) / 1000000000 * 1000000000 - a / 1000000000 * 1000000000
    ∧ (b + ttl) / 1000000000 * 1000000000 - a / 1000000000 * 1000000000
        < ttl + (b - a) + 1000000000
    ∧ (ttl % 1000000000 = 0 → a / 1000000000 * 1000000000 = b / 1000000000 * 1000000000 →
        (b + ttl) / 1000000000 * 1000000000 - a / 1000000000 * 1000000000 = ttl) := by
  refine ⟨by omega, by omega, fun h1 h2 => by omega⟩

/-- C5, amended: for every identity `i`, secret `s` and ttl, the token that
`MakeJWT` returns carries issuer `chirpy`, subject the string form of `i`,
issued-at the first clock reading `now1` of the call cut to the whole second,
and expires-at the second clock reading `now2` plus ttl cut to the whole
second. So expires-at minus issued-at differs from ttl plus the time between
the two readings by less than a second, and it equals ttl when ttl is a whole
number of seconds and both readings fall into the same second. -/
theorem issued_claims (i : UUID) (s : GoString) (ttl : Duration) (now1 now2 : Time)
    (h1 : validTime now1) (h2 : validTime now2) (httl : fitsInt64 ttl) :
    ∃ c, tokenClaims (MakeJWT now1 now2 i s ttl).1 = some c
      ∧ c.Issuer = lit "chirpy" ∧ c.Subject = i.String
      ∧ c.IssuedAt = some (truncateSecond now1)
      ∧ c.ExpiresAt = some (truncateSecond (now2 + ttl))
      ∧ ttl + (now2 - now1) - Second < truncateSecond (now2 + ttl) - truncateSecond now1
      ∧ truncateSecond (now2 + ttl) - truncateSecond now1 < ttl + (now2 - now1) + Second
      ∧ (ttl % Second = 0 → truncateSecond now1 = truncateSecond now2 →
          truncateSecond (now2 + ttl) - truncateSecond now1 = ttl) := by
  refine ⟨MakeJWTClaims now1 now2 i ttl, tokenClaims_MakeJWT now1 now2 i s ttl h1 h2 httl, rfl,
    rfl, rfl, rfl, ?_⟩
  exact floor_add_sub_floor_two now1 now2 ttl

theorem issued_claims_witness :
    ∃ c, tokenClaims (MakeJWT 999999999 1000000000 (UUID.ofPrefix [byte 1]) (lit "secret")
          Hour).1 = some c
      ∧ c.Issuer = lit "chirpy" ∧ c.Subject = (UUID.ofPrefix [byte 1]).String
      ∧ c.IssuedAt = some 0
      ∧ c.ExpiresAt = some (3601 * Second)
      ∧ Hour + (1000000000 - 999999999) - Second < 3601 * Second - 0
      ∧ 3601 * Second - 0 < Hour + (1000000000 - 999999999) + Second
      ∧ (Hour % Second = 0 → truncateSecond 999999999 = truncateSecond 1000000000 →
          3601 * Second - 0 = Hour) :=
  issued_claims (UUID.ofPrefix [byte 1]) (lit "secret") Hour 999999999 1000000000 (by decide)
    (by decide) (by decide)

/-! ## Claims about refresh tokens -/

/-- C8: `MakeRefreshToken` returns the hex encoding of 32 random bytes. When
the entropy source yields a stream, there is no error and the result is a
string of exactly 64 characters, each in `0-9a-f`, that `hex.DecodeString`
turns back into the 32 bytes read; when the source fails, the result is the
empty string together with an error. -/
theorem refresh_token_is_hex_of_32_bytes :
    (∀ stream : Nat → Byte,
      (MakeRefreshToken (.ok stream)).2 = none
      ∧ (MakeRefreshToken (.ok stream)).1.length = 64
      ∧ (MakeRefreshToken (.ok stream)).1.all isLowerHexDigit = true
      ∧ ((List.range 32).map stream).length = 32
      ∧ hexDecodeString (MakeRefreshToken (.ok stream)).1 = some ((List.range 32).map stream))
    ∧ (∀ e : GoError,
      (MakeRefreshToken (.error e)).1 = [] ∧ (MakeRefreshToken (.error e)).2.isSome = true) := by
  refine ⟨fun stream => ⟨rfl, ?_, ?_, by simp, ?_⟩, fun e => ⟨rfl, rfl⟩⟩
  · simp [MakeRefreshToken, randRead, hexEncodeToString_length]
  · simp only [MakeRefreshToken, randRead, List.all_eq_true]
    exact hexEncodeToString_lower _
  · simp only [MakeRefreshToken, randRead]
    exact hexDecodeString_hexEncodeToString _

/-! ## Claims about passwords -/

theorem getD_drop (l : List Byte) (n i : Nat) : (l.drop n).getD i 0 = l.getD (n + i) 0 := by
  simp [List.getD_eq_getElem?_getD, List.getElem?_drop]

theorem bcryptHash_bad_salt (password : List Byte) (cost : Nat) (salt : GoString)
    (h : base64Decode salt = none) : bcryptHash password cost salt = none := by
  simp [bcryptHash, expensiveBlowfishSetup, h]

/-- What `newFromHash` returns on a string it accepts. -/
theorem newFromHash_some (h : GoString) (p : Hashed) (hp : newFromHash h = some p) :
    59 ≤ h.length ∧ h.getD 0 0 = byte 36 ∧ (h.getD 1 0).val ≤ 50
      ∧ (∃ cost : Int, atoi2 (h.getD (if h.getD 2 0 = byte 36 then 3 else 4) 0)
            (h.getD ((if h.getD 2 0 = byte 36 then 3 else 4) + 1) 0) = some cost
          ∧ 4 ≤ cost ∧ cost ≤ 31 ∧ p.cost = cost.toNat)
      ∧ p.salt = (h.drop ((if h.getD 2 0 = byte 36 then 3 else 4) + 3)).take 22
      ∧ p.hash = (h.drop ((if h.getD 2 0 = byte 36 then 3 else 4) + 3)).drop 22
      ∧ p.major = h.getD 1 0
      ∧ p.minor = (if h.getD 2 0 = byte 36 then byte 0 else h.getD 2 0) := by
  unfold newFromHash at hp
  split at hp
  · exact absurd hp (by simp)
  rename_i h1
  split at hp
  · exact absurd hp (by simp)
  rename_i h2
  split at hp
  · exact absurd hp (by simp)
  rename_i h3
  simp only [getD_drop, List.drop_drop] at hp
  simp only [ne_eq, Decidable.not_not] at h2
  split at hp
  · exact absurd hp (by simp)
  rename_i cost hc
  split at hp
  · exact absurd hp (by simp)
  rename_i h5
  simp only [Option.some.injEq] at hp
  subst hp
  simp only [MinCost, MaxCost] at h5
  by_cases h4 : h.getD 2 0 = byte 36
  · simp only [h4, if_true, ne_eq, not_true_eq_false, if_false] at hc ⊢
    refine ⟨by omega, h2, by omega, ⟨cost, hc, by omega, by omega, rfl⟩, ?_⟩
    simp
  · simp only [h4, if_false, ne_eq, not_false_eq_true, if_true] at hc ⊢
    refine ⟨by omega, h2, by omega, ⟨cost, hc, by omega, by omega, rfl⟩, ?_⟩
    simp

/-- C7, amended: `CheckPasswordHash` is a total function to the booleans, and
for every password and every hash string without the form that bcrypt insists
on (fewer than 59 bytes, no leading `$`, a major version above `2`, a cost that
is not two characters between 4 and 31, or a salt outside bcrypt's alphabet)
it returns false. -/
theorem malformed_hash_is_rejected (password hash : GoString)
    (h : hashReadable hash = false) : CheckPasswordHash password hash = false := by
  unfold CheckPasswordHash CompareHashAndPassword
  cases hp : newFromHash hash with
  | none => rfl
  | some p =>
      obtain ⟨h1, h2, h3, ⟨cost, hc, hc1, hc2, _⟩, hsalt, _, _, _⟩ := newFromHash_some hash p hp
      have hdec : base64Decode p.salt = none := by
        unfold hashReadable at h
        simp only [h1, h2, h3, hc, hc1, hc2, decide_True, Bool.true_and, and_self] at h
        rw [hsalt]
        cases hb : base64Decode
            ((hash.drop ((if hash.getD 2 0 = byte 36 then 3 else 4) + 3)).take 22) with
        | none => rfl
        | some v => rw [hb] at h; exact absurd h (by simp)
      simp only [bcryptHash_bad_salt password p.cost p.salt hdec]

theorem malformed_hash_is_rejected_witness :
    (hashReadable (lit "not-a-valid-bcrypt-hash") = false ∧
      CheckPasswordHash (lit "SecureP@ssw0rd123") (lit "not-a-valid-bcrypt-hash") = false)
    ∧ (hashReadable (lit "$2a$10$" ++ List.replicate 53 (byte 33)) = false ∧
      CheckPasswordHash (lit "SecureP@ssw0rd123")
        (lit "$2a$10$" ++ List.replicate 53 (byte 33)) = false) :=
  ⟨⟨by decide, malformed_hash_is_rejected (lit "SecureP@ssw0rd123")
      (lit "not-a-valid-bcrypt-hash") (by decide)⟩,
    ⟨by decide!, malformed_hash_is_rejected (lit "SecureP@ssw0rd123")
      (lit "$2a$10$" ++ List.replicate 53 (byte 33)) (by decide!)⟩⟩

theorem bcEncoding_sound : bcEncoding.Sound where
  inv := by decide!
  padOut := by
    intro p h
    simp only [bcEncoding, Option.some.injEq] at h
    subst h
    exact ⟨by decide!, by decide⟩

theorem bcEncoding_enc_ne_pad (i : Nat) (hi : i < 64) : bcEncoding.enc i ≠ byte 61 := by
  have h : ∀ j : Fin 64, bcEncoding.enc j.val ≠ byte 61 := by decide!
  exact h ⟨i, hi⟩

theorem raw_enc (e : Encoding) (i : Nat) : e.raw.enc i = e.enc i := rfl

/-- An encoding is its unpadded form followed by the padding. -/
theorem Encoding.Encode_eq_raw (e : Encoding) :
    ∀ l : List Byte, e.Encode l = e.raw.Encode l ++ e.pad ((3 - l.length % 3) % 3)
  | [] => by simp [Encoding.Encode, Encoding.pad]; cases e.padChar <;> simp
  | [a] => by simp [Encoding.Encode, Encoding.pad, Encoding.raw, Encoding.enc]
  | [a, b] => by simp [Encoding.Encode, Encoding.pad, Encoding.raw, Encoding.enc]
  | a :: b :: c :: rest => by
      have ih := Encoding.Encode_eq_raw e rest
      have hlen : (a :: b :: c :: rest).length % 3 = rest.length % 3 := by
        simp only [List.length_cons]; omega
      simp only [Encoding.Encode, ih, hlen, raw_enc, List.cons_append]

theorem Encoding.raw_Encode_length (e : Encoding) :
    ∀ l : List Byte, (e.raw.Encode l).length = (4 * l.length + 2) / 3
  | [] => by simp [Encoding.Encode]
  | [a] => by simp [Encoding.Encode, Encoding.pad, Encoding.raw]
  | [a, b] => by simp [Encoding.Encode, Encoding.pad, Encoding.raw]
  | a :: b :: c :: rest => by
      have ih := Encoding.raw_Encode_length e rest
      simp only [Encoding.Encode, List.length_cons, ih]
      omega

theorem bcEncoding_raw_ne_pad : ∀ l : List Byte, ∀ x ∈ bcEncoding.raw.Encode l, x ≠ byte 61
  | [], x, hx => by simp [Encoding.Encode] at hx
  | [a], x, hx => by
      simp only [Encoding.Encode, Encoding.pad, Encoding.raw, List.append_nil, List.mem_cons,
        List.mem_singleton, List.not_mem_nil, or_false] at hx
      rcases hx with rfl | rfl <;> exact bcEncoding_enc_ne_pad _ (Nat.mod_lt _ (by decide))
  | [a, b], x, hx => by
      simp only [Encoding.Encode, Encoding.pad, Encoding.raw, List.append_nil, List.mem_cons,
        List.mem_singleton, List.not_mem_nil, or_false] at hx
      rcases hx with rfl | rfl | rfl <;> exact bcEncoding_enc_ne_pad _ (Nat.mod_lt _ (by decide))
  | a :: b :: c :: rest, x, hx => by
      simp only [Encoding.Encode, List.mem_cons] at hx
      rcases hx with rfl | rfl | rfl | rfl | hx
      · exact bcEncoding_enc_ne_pad _ (Nat.mod_lt _ (by decide))
      · exact bcEncoding_enc_ne_pad _ (Nat.mod_lt _ (by decide))
      · exact bcEncoding_enc_ne_pad _ (Nat.mod_lt _ (by decide))
      · exact bcEncoding_enc_ne_pad _ (Nat.mod_lt _ (by decide))
      · exact bcEncoding_raw_ne_pad rest x hx

theorem dropTrailing_replicate (c : Byte) : ∀ k : Nat, dropTrailing c (List.replicate k c) = []
  | 0 => rfl
  | k + 1 => by simp [List.replicate_succ, dropTrailing, dropTrailing_replicate c k]

theorem dropTrailing_append (c : Byte) (k : Nat) :
    ∀ body : List Byte, (∀ x ∈ body, x ≠ c) → dropTrailing c (body ++ List.replicate k c) = body
  | [], _ => by simpa using dropTrailing_replicate c k
  | x :: body, h => by
      have hx : x ≠ c := h x (List.mem_cons_self _ _)
      have ih := dropTrailing_append c k body (fun y hy => h y (List.mem_cons_of_mem _ hy))
      rw [List.cons_append, dropTrailing, ih]
      cases body with
      | nil => simp [hx]
      | cons y ys => rfl

theorem base64Encode_eq_raw (l : List Byte) : base64Encode l = bcEncoding.raw.Encode l := by
  unfold base64Encode
  rw [Encoding.Encode_eq_raw]
  exact dropTrailing_append _ _ _ (bcEncoding_raw_ne_pad l)

theorem base64Encode_length (l : List Byte) : (base64Encode l).length = (4 * l.length + 2) / 3 := by
  rw [base64Encode_eq_raw, Encoding.raw_Encode_length]

/-- The bcrypt decoding inverts the bcrypt encoding of 16 bytes. -/
theorem base64Decode_base64Encode (l : List Byte) (h : l.length = 16) :
    base64Decode (base64Encode l) = some l := by
  have hlen := base64Encode_length l
  rw [h] at hlen
  unfold base64Decode
  rw [hlen, base64Encode_eq_raw]
  have hpad : bcEncoding.pad ((3 - l.length % 3) % 3) = List.replicate (4 - 22 % 4) (byte 61) := by
    rw [h]; rfl
  rw [← hpad, ← Encoding.Encode_eq_raw]
  exact Encoding.DecodeString_Encode bcEncoding_sound l

theorem Encrypt_length (c : Cipher) (src : List Byte) : (c.Encrypt src).length = 8 := by
  simp [Cipher.Encrypt, beBytes]

theorem iterate_Encrypt_length (c : Cipher) :
    ∀ (n : Nat) (src : List Byte), src.length = 8 → (iterate c.Encrypt n src).length = 8
  | 0, _, h => h
  | n + 1, src, _ => iterate_Encrypt_length c n (c.Encrypt src) (Encrypt_length c src)

theorem chunks_magic :
    chunks 7 3 magicCipherData = [lit "OrpheanB", lit "eholderS", lit "cryDoubt"] := by
  decide

/-- With a salt that encodes 16 bytes, `bcrypt` succeeds and returns 31
characters. -/
theorem bcryptHash_some (password : List Byte) (cost : Nat) (s16 : List Byte)
    (h : s16.length = 16) :
    ∃ hsh, bcryptHash password cost (base64Encode s16) = some hsh ∧ hsh.length = 31 := by
  have hkey : ¬ (password ++ [byte 0]).length < 1 := by simp
  have hsalt : ¬ s16.length = 0 := by omega
  simp only [bcryptHash, expensiveBlowfishSetup, base64Decode_base64Encode s16 h, NewSaltedCipher,
    hkey, hsalt, if_false, chunks_magic, List.flatMap_cons, List.flatMap_nil, List.append_nil]
  refine ⟨_, rfl, ?_⟩
  rw [base64Encode_length, List.length_take, List.length_append, List.length_append,
    iterate_Encrypt_length _ 64 _ (by decide), iterate_Encrypt_length _ 64 _ (by decide),
    iterate_Encrypt_length _ 64 _ (by decide)]
  rfl

theorem lit_bcrypt_prefix :
    [byte 36, byte 50] ++ (if (byte 97).val ≠ 0 then [byte 97] else []) ++ [byte 36]
      ++ twoDigits DefaultCost ++ [byte 36]
      = [byte 36, byte 50, byte 97, byte 36, byte 49, byte 48, byte 36] := by
  decide

/-- The hash string of a freshly generated `hashed`: the prefix `$2a$10$`, the
salt and the hash. -/
theorem Hash_generated (salt hsh : GoString) (hs : salt.length = 22) (hh : hsh.length = 31) :
    ({ hash := hsh, salt := salt, cost := DefaultCost, major := byte 50, minor := byte 97 }
      : Hashed).Hash
      = [byte 36, byte 50, byte 97, byte 36, byte 49, byte 48, byte 36] ++ salt ++ hsh := by
  simp only [Hashed.Hash, lit_bcrypt_prefix]
  have h1 : List.take 22 salt = salt := List.take_of_length_le (by omega)
  have h2 : List.replicate (22 - salt.length) (byte 0) = [] := by rw [hs]; rfl
  rw [h1, h2, List.append_nil]
  have hlen : ([byte 36, byte 50, byte 97, byte 36, byte 49, byte 48, byte 36] ++ salt ++ hsh).length
      = 60 := by simp [hs, hh]
  have e1 : List.take 60 ([byte 36, byte 50, byte 97, byte 36, byte 49, byte 48, byte 36] ++ salt
      ++ hsh ++ List.replicate 60 (byte 0))
      = [byte 36, byte 50, byte 97, byte 36, byte 49, byte 48, byte 36] ++ salt ++ hsh := by
    rw [List.take_append_of_le_length (by rw [hlen]), List.take_of_length_le (by rw [hlen])]
  rw [e1]
  exact List.take_of_length_le (by rw [hlen]; decide)

theorem newFromHash_generated (salt hsh : GoString) (hs : salt.length = 22)
    (hh : hsh.length = 31) :
    newFromHash ([byte 36, byte 50, byte 97, byte 36, byte 49, byte 48, byte 36] ++ salt ++ hsh)
      = some { hash := hsh, salt := salt, cost := DefaultCost, major := byte 50
               minor := byte 97 } := by
  have hlen : ¬ ([byte 36, byte 50, byte 97, byte 36, byte 49, byte 48, byte 36] ++ salt
      ++ hsh).length < 59 := by simp [hs, hh]
  have hcost : atoi2 (byte 49) (byte 48) = some 10 := by decide
  have h2 : (byte 97 : Byte) ≠ byte 36 := by decide
  have h3 : ¬ ((byte 50 : Byte).val > 50) := by decide
  have hc : ¬ ((10 : Int) < (MinCost : Int) ∨ (10 : Int) > (MaxCost : Int)) := by decide
  unfold newFromHash
  rw [if_neg hlen]
  simp only [List.cons_append, List.nil_append, List.append_assoc, List.getD_cons_zero,
    List.getD_cons_succ, ne_eq, not_true_eq_false, if_false, h2, not_false_eq_true, if_true, h3,
    List.drop_succ_cons, List.drop_zero, hcost, hc]
  have ht : List.take 22 (salt ++ hsh) = salt := by
    rw [List.take_append_of_le_length (by omega), List.take_of_length_le (by omega)]
  have hd : List.drop 22 (salt ++ hsh) = hsh := by
    rw [← hs, List.drop_left]
  simp only [ht, hd]
  rfl

/-- C6, counterexample: for a password of 73 bytes `HashPassword` does not
succeed; it returns the empty string and the error of bcrypt for a password
longer than 72 bytes. -/
theorem hash_password_rejects_73_bytes :
    HashPassword (.ok fun _ => byte 0) (List.replicate 73 (byte 97))
      = ([], some "bcrypt: password length exceeds 72 bytes") := by
  decide

/-- C6, amended: for every password `p` of at most 72 bytes, the empty
password and a password of 72 bytes among them, and every stream of the
entropy source, `HashPassword(p)` succeeds and
`CheckPasswordHash(p, HashPassword(p))` is true. -/
theorem check_accepts_own_hash (stream : Nat → Byte) (p : GoString) (hp : p.length ≤ 72) :
    (HashPassword (.ok stream) p).2 = none
      ∧ CheckPasswordHash p (HashPassword (.ok stream) p).1 = true := by
  have h16 : ((List.range 16).map stream).length = 16 := by simp
  obtain ⟨hsh, hb, hh⟩ := bcryptHash_some p DefaultCost ((List.range 16).map stream) h16
  have hs : (base64Encode ((List.range 16).map stream)).length = 22 := by
    rw [base64Encode_length, h16]
  have hgen : HashPassword (.ok stream) p
      = ([byte 36, byte 50, byte 97, byte 36, byte 49, byte 48, byte 36]
          ++ base64Encode ((List.range 16).map stream) ++ hsh, none) := by
    have hlen : ¬ p.length > 72 := by omega
    simp only [HashPassword, GenerateFromPassword, hlen, if_false, randRead, hb,
      Hash_generated _ _ hs hh]
  rw [hgen]
  refine ⟨rfl, ?_⟩
  simp only [CheckPasswordHash, CompareHashAndPassword, newFromHash_generated _ _ hs hh, hb,
    decide_eq_true_eq]

theorem check_accepts_own_hash_witness :
    ((HashPassword (.ok fun _ => byte 0) []).2 = none
      ∧ CheckPasswordHash [] (HashPassword (.ok fun _ => byte 0) []).1 = true)
    ∧ ((HashPassword (.ok fun _ => byte 0) (List.replicate 72 (byte 97))).2 = none
      ∧ CheckPasswordHash (List.replicate 72 (byte 97))
          (HashPassword (.ok fun _ => byte 0) (List.replicate 72 (byte 97))).1 = true) :=
  ⟨check_accepts_own_hash (fun _ => byte 0) [] (by decide),
    check_accepts_own_hash (fun _ => byte 0) (List.replicate 72 (byte 97)) (by decide)⟩

theorem newFromHash_generated_rest (salt rest : GoString) (hs : salt.length = 22)
    (hr : 30 ≤ rest.length) :
    newFromHash ([byte 36, byte 50, byte 97, byte 36, byte 49, byte 48, byte 36] ++ salt ++ rest)
      = some { hash := rest, salt := salt, cost := DefaultCost, major := byte 50
               minor := byte 97 } := by
  have hlen : ¬ ([byte 36, byte 50, byte 97, byte 36, byte 49, byte 48, byte 36] ++ salt
      ++ rest).length < 59 := by
    simp only [List.length_append, List.length_cons, List.length_nil, hs]; omega
  have hcost : atoi2 (byte 49) (byte 48) = some 10 := by decide
  have h2 : (byte 97 : Byte) ≠ byte 36 := by decide
  have h3 : ¬ ((byte 50 : Byte).val > 50) := by decide
  have hc : ¬ ((10 : Int) < (MinCost : Int) ∨ (10 : Int) > (MaxCost : Int)) := by decide
  unfold newFromHash
  rw [if_neg hlen]
  simp only [List.cons_append, List.nil_append, List.append_assoc, List.getD_cons_zero,
    List.getD_cons_succ, ne_eq, not_true_eq_false, if_false, h2, not_false_eq_true, if_true, h3,
    List.drop_succ_cons, List.drop_zero, hcost, hc]
  have ht : List.take 22 (salt ++ rest) = salt := by
    rw [List.take_append_of_le_length (by omega), List.take_of_length_le (by omega)]
  have hd : List.drop 22 (salt ++ rest) = rest := by
    rw [← hs, List.drop_left]
  simp only [ht, hd]
  rfl

theorem Hash_generated_extra (salt hsh extra : GoString) (hs : salt.length = 22)
    (hh : hsh.length = 31) :
    ({ hash := hsh ++ extra, salt := salt, cost := DefaultCost, major := byte 50
       minor := byte 97 } : Hashed).Hash
      = [byte 36, byte 50, byte 97, byte 36, byte 49, byte 48, byte 36] ++ salt ++ hsh := by
  simp only [Hashed.Hash, lit_bcrypt_prefix]
  have h1 : List.take 22 salt = salt := List.take_of_length_le (by omega)
  have h2 : List.replicate (22 - salt.length) (byte 0) = [] := by rw [hs]; rfl
  rw [h1, h2, List.append_nil]
  have hlen : ([byte 36, byte 50, byte 97, byte 36, byte 49, byte 48, byte 36] ++ salt ++ hsh).length
      = 60 := by simp [hs, hh]
  have e0 : [byte 36, byte 50, byte 97, byte 36, byte 49, byte 48, byte 36] ++ salt
      ++ (hsh ++ extra) ++ List.replicate 60 (byte 0)
      = ([byte 36, byte 50, byte 97, byte 36, byte 49, byte 48, byte 36] ++ salt ++ hsh)
        ++ (extra ++ List.replicate 60 (byte 0)) := by
    simp only [List.append_assoc]
  have e1 : List.take 60 ([byte 36, byte 50, byte 97, byte 36, byte 49, byte 48, byte 36] ++ salt
      ++ (hsh ++ extra) ++ List.replicate 60 (byte 0))
      = [byte 36, byte 50, byte 97, byte 36, byte 49, byte 48, byte 36] ++ salt ++ hsh := by
    rw [e0, List.take_append_of_le_length (by rw [hlen]), List.take_of_length_le (by rw [hlen])]
  rw [e1]
  exact List.take_of_length_le (by rw [hlen]; decide)

/-- A generated hash followed by any bytes: its length, and that the password
still verifies against it. -/
theorem CheckPasswordHash_trailing (stream : Nat → Byte) (p extra : GoString)
    (hp : p.length ≤ 72) :
    ((HashPassword (.ok stream) p).1 ++ extra).length = 60 + extra.length
      ∧ CheckPasswordHash p ((HashPassword (.ok stream) p).1 ++ extra) = true := by
  have h16 : ((List.range 16).map stream).length = 16 := by simp
  obtain ⟨hsh, hb, hh⟩ := bcryptHash_some p DefaultCost ((List.range 16).map stream) h16
  have hs : (base64Encode ((List.range 16).map stream)).length = 22 := by
    rw [base64Encode_length, h16]
  have hgen : HashPassword (.ok stream) p
      = ([byte 36, byte 50, byte 97, byte 36, byte 49, byte 48, byte 36]
          ++ base64Encode ((List.range 16).map stream) ++ hsh, none) := by
    have hlen : ¬ p.length > 72 := by omega
    simp only [HashPassword, GenerateFromPassword, hlen, if_false, randRead, hb,
      Hash_generated _ _ hs hh]
  rw [hgen]
  constructor
  · simp only [List.length_append, List.length_cons, List.length_nil, hs, hh]
  · have hassoc : [byte 36, byte 50, byte 97, byte 36, byte 49, byte 48, byte 36]
        ++ base64Encode ((List.range 16).map stream) ++ hsh ++ extra
        = [byte 36, byte 50, byte 97, byte 36, byte 49, byte 48, byte 36]
        ++ base64Encode ((List.range 16).map stream) ++ (hsh ++ extra) := by
      simp only [List.append_assoc]
    have hr : 30 ≤ (hsh ++ extra).length := by
      simp only [List.length_append, hh]; omega
    simp only [CheckPasswordHash, CompareHashAndPassword, hassoc,
      newFromHash_generated_rest _ _ hs hr, hb, Hash_generated_extra _ _ _ hs hh,
      Hash_generated _ _ hs hh, decide_eq_true_eq]

theorem wellFormedHash_length (h : GoString) (hne : h.length ≠ 60) :
    wellFormedHash h = false := by
  simp [wellFormedHash, hne]

/-- C7, counterexample: the hash generated for the password `pw`, followed by
the five bytes `EXTRA`, has 65 bytes and so is not a well-formed bcrypt hash;
yet `CheckPasswordHash` returns true for `pw` and that string. -/
theorem hash_with_trailing_bytes_verifies :
    wellFormedHash ((HashPassword (.ok fun _ => byte 0) (lit "pw")).1 ++ lit "EXTRA") = false
      ∧ CheckPasswordHash (lit "pw")
          ((HashPassword (.ok fun _ => byte 0) (lit "pw")).1 ++ lit "EXTRA") = true := by
  have h := CheckPasswordHash_trailing (fun _ => byte 0) (lit "pw") (lit "EXTRA") (by decide)
  refine ⟨wellFormedHash_length _ ?_, h.2⟩
  rw [h.1]
  decide

/-! ## Claims about login -/

/-- C9: login does not reveal whether an email is registered. For every login
request whose body decodes, the response when the lookup by email reports
not-found and the response when the lookup finds a user whose password does
not verify are identical: status 401 and the message
`Invalid email or password`. -/
theorem login_rejections_are_identical {σ₁ σ₂ : Type} (cfg₁ : apiConfig σ₁) (cfg₂ : apiConfig σ₂)
    (auth₁ auth₂ : Auth) (st₁ : σ₁) (st₂ : σ₂) (r : Request) (req : Credentials) (user : User)
    (hreq : decodeCredentials r.Body = some req)
    (h1 : cfg₁.DB.GetUserByEmail st₁ req.Email = .error .ErrNoRows)
    (h2 : cfg₂.DB.GetUserByEmail st₂ req.Email = .ok user)
    (h3 : auth₂.CheckPasswordHash req.Password user.HashedPassword = false) :
    (handlerLogin cfg₁ auth₁ st₁ r).response = (handlerLogin cfg₂ auth₂ st₂ r).response
      ∧ (handlerLogin cfg₁ auth₁ st₁ r).response.status = 401
      ∧ (handlerLogin cfg₁ auth₁ st₁ r).response.message = some "Invalid email or password" := by
  simp [handlerLogin, hreq, h1, h2, h3, Response.status, Response.message, StatusUnauthorized]

theorem login_rejections_are_identical_witness :
    (handlerLogin { DB := memoryQueries, secret := lit "secret" } (realAuth 0 0 (.error "no entropy"))
        { users := [], refreshTokens := [], now := 0 }
        { Authorization := [], Body := lit "\x7b\"email\":\"a@b.c\",\"password\":\"pw\"\x7d" }).response
      = (handlerLogin { DB := memoryQueries, secret := lit "secret" }
        (realAuth 0 0 (.error "no entropy"))
        { users := [{ ID := UUID.Nil, Email := lit "a@b.c"
                      HashedPassword := lit "not-a-valid-bcrypt-hash", IsChirpyRed := false }]
          refreshTokens := [], now := 0 }
        { Authorization := [], Body := lit "\x7b\"email\":\"a@b.c\",\"password\":\"pw\"\x7d" }).response
      ∧ (handlerLogin { DB := memoryQueries, secret := lit "secret" }
        (realAuth 0 0 (.error "no entropy"))
        { users := [], refreshTokens := [], now := 0 }
        { Authorization := [], Body := lit "\x7b\"email\":\"a@b.c\",\"password\":\"pw\"\x7d" }
        ).response.status = 401
      ∧ (handlerLogin { DB := memoryQueries, secret := lit "secret" }
        (realAuth 0 0 (.error "no entropy"))
        { users := [], refreshTokens := [], now := 0 }
        { Authorization := [], Body := lit "\x7b\"email\":\"a@b.c\",\"password\":\"pw\"\x7d" }
        ).response.message = some "Invalid email or password" :=
  login_rejections_are_identical { DB := memoryQueries, secret := lit "secret" }
    { DB := memoryQueries, secret := lit "secret" } (realAuth 0 0 (.error "no entropy"))
    (realAuth 0 0 (.error "no entropy")) { users := [], refreshTokens := [], now := 0 }
    { users := [{ ID := UUID.Nil, Email := lit "a@b.c"
                  HashedPassword := lit "not-a-valid-bcrypt-hash", IsChirpyRed := false }]
      refreshTokens := [], now := 0 }
    { Authorization := [], Body := lit "\x7b\"email\":\"a@b.c\",\"password\":\"pw\"\x7d" }
    { Email := lit "a@b.c", Password := lit "pw" }
    { ID := UUID.Nil, Email := lit "a@b.c", HashedPassword := lit "not-a-valid-bcrypt-hash"
      IsChirpyRed := false }
    (by decide!) rfl rfl (by decide!)

/-- C10: a rejected login issues no tokens. For every login request whose
email is not found or whose password does not verify, `handlerLogin` performs
no call that generates an access token, generates a refresh token or inserts
one, leaves the store as it was, and sends a response without a token. -/
theorem rejected_login_issues_no_tokens {σ : Type} (cfg : apiConfig σ) (auth : Auth) (st : σ)
    (r : Request) (req : Credentials) (hreq : decodeCredentials r.Body = some req)
    (h : cfg.DB.GetUserByEmail st req.Email = .error .ErrNoRows
      ∨ ∃ user, cfg.DB.GetUserByEmail st req.Email = .ok user
          ∧ auth.CheckPasswordHash req.Password user.HashedPassword = false) :
    (handlerLogin cfg auth st r).effects = []
      ∧ (handlerLogin cfg auth st r).store = st
      ∧ (handlerLogin cfg auth st r).response.tokens = [] := by
  rcases h with h | ⟨user, h1, h2⟩
  · simp [handlerLogin, hreq, h, Response.tokens]
  · simp [handlerLogin, hreq, h1, h2, Response.tokens]

theorem rejected_login_issues_no_tokens_witness :
    (handlerLogin { DB := memoryQueries, secret := lit "secret" }
        (realAuth 0 0 (.ok fun _ => byte 0))
        { users := [{ ID := UUID.Nil, Email := lit "a@b.c"
                      HashedPassword := lit "not-a-valid-bcrypt-hash", IsChirpyRed := false }]
          refreshTokens := [], now := 0 }
        { Authorization := [], Body := lit "\x7b\"email\":\"a@b.c\",\"password\":\"pw\"\x7d" }).effects
      = []
      ∧ (handlerLogin { DB := memoryQueries, secret := lit "secret" }
        (realAuth 0 0 (.ok fun _ => byte 0))
        { users := [{ ID := UUID.Nil, Email := lit "a@b.c"
                      HashedPassword := lit "not-a-valid-bcrypt-hash", IsChirpyRed := false }]
          refreshTokens := [], now := 0 }
        { Authorization := [], Body := lit "\x7b\"email\":\"a@b.c\",\"password\":\"pw\"\x7d" }).store
      = { users := [{ ID := UUID.Nil, Email := lit "a@b.c"
                      HashedPassword := lit "not-a-valid-bcrypt-hash", IsChirpyRed := false }]
          refreshTokens := [], now := 0 }
      ∧ (handlerLogin { DB := memoryQueries, secret := lit "secret" }
        (realAuth 0 0 (.ok fun _ => byte 0))
        { users := [{ ID := UUID.Nil, Email := lit "a@b.c"
                      HashedPassword := lit "not-a-valid-bcrypt-hash", IsChirpyRed := false }]
          refreshTokens := [], now := 0 }
        { Authorization := [], Body := lit "\x7b\"email\":\"a@b.c\",\"password\":\"pw\"\x7d" }
        ).response.tokens = [] :=
  rejected_login_issues_no_tokens { DB := memoryQueries, secret := lit "secret" }
    (realAuth 0 0 (.ok fun _ => byte 0))
    { users := [{ ID := UUID.Nil, Email := lit "a@b.c"
                  HashedPassword := lit "not-a-valid-bcrypt-hash", IsChirpyRed := false }]
      refreshTokens := [], now := 0 }
    { Authorization := [], Body := lit "\x7b\"email\":\"a@b.c\",\"password\":\"pw\"\x7d" }
    { Email := lit "a@b.c", Password := lit "pw" } (by decide!)
    (Or.inr ⟨{ ID := UUID.Nil, Email := lit "a@b.c"
               HashedPassword := lit "not-a-valid-bcrypt-hash", IsChirpyRed := false },
      rfl, by decide!⟩)

/-! ## Claims about the handlers -/

theorem CheckPasswordHash_HashPassword (stream : Nat → Byte) (p : GoString)
    (hp : p.length ≤ 72) : CheckPasswordHash p (HashPassword (.ok stream) p).1 = true := by
  have h16 : ((List.range 16).map stream).length = 16 := by simp
  obtain ⟨hsh, hb, hh⟩ := bcryptHash_some p DefaultCost ((List.range 16).map stream) h16
  have hs : (base64Encode ((List.range 16).map stream)).length = 22 := by
    rw [base64Encode_length, h16]
  have hgen : HashPassword (.ok stream) p
      = ([byte 36, byte 50, byte 97, byte 36, byte 49, byte 48, byte 36]
          ++ base64Encode ((List.range 16).map stream) ++ hsh, none) := by
    have hlen : ¬ p.length > 72 := by omega
    simp only [HashPassword, GenerateFromPassword, hlen, if_false, randRead, hb,
      Hash_generated _ _ hs hh]
  rw [hgen]
  simp only [CheckPasswordHash, CompareHashAndPassword, newFromHash_generated _ _ hs hh, hb,
    decide_eq_true_eq]

/-- C11: in `handlerLogin`, once the password has verified, a failure of
access-token signing, of refresh-token generation or of refresh-token
persistence is answered with status 500 and never with the 401 credential
rejection. -/
theorem login_downstream_failure_is_500 {σ : Type} (cfg : apiConfig σ) (auth : Auth) (st : σ)
    (r : Request) (req : Credentials) (user : User)
    (hreq : decodeCredentials r.Body = some req)
    (huser : cfg.DB.GetUserByEmail st req.Email = .ok user)
    (hpw : auth.CheckPasswordHash req.Password user.HashedPassword = true)
    (hfail : (auth.MakeJWT user.ID cfg.secret Hour).2 ≠ none
      ∨ auth.MakeRefreshToken.2 ≠ none
      ∨ (cfg.DB.CreateRefreshToken st
          { UserID := user.ID, Token := auth.MakeRefreshToken.1 }).1 ≠ .ok ()) :
    (handlerLogin cfg auth st r).response.status = 500
      ∧ (handlerLogin cfg auth st r).response.status ≠ 401
      ∧ (handlerLogin cfg auth st r).response.message ≠ some "Invalid email or password" := by
  have key : (handlerLogin cfg auth st r).response.status = 500
      ∧ (handlerLogin cfg auth st r).response.message ≠ some "Invalid email or password" := by
    simp only [handlerLogin, hreq, huser, hpw, not_true_eq_false, if_false]
    rcases hj : auth.MakeJWT user.ID cfg.secret Hour with ⟨accessToken, _ | err⟩
    · rcases hr : auth.MakeRefreshToken with ⟨refreshTokenString, _ | err⟩
      · rcases hc : cfg.DB.CreateRefreshToken st
            { UserID := user.ID, Token := refreshTokenString } with ⟨_ | _, st1⟩
        · simp [hc, Response.status, Response.message, StatusInternalServerError]
        · rw [hj, hr, hc] at hfail
          simp at hfail
      · simp [hr, Response.status, Response.message, StatusInternalServerError]
    · simp [hj, Response.status, Response.message, StatusInternalServerError]
  exact ⟨key.1, by rw [key.1]; decide, key.2⟩

theorem login_downstream_failure_is_500_witness :
    (handlerLogin sampleConfig (realAuth 0 0 (.error "entropy unavailable")) sampleStore
        sampleLogin).response.status = 500
      ∧ (handlerLogin sampleConfig (realAuth 0 0 (.error "entropy unavailable")) sampleStore
        sampleLogin).response.status ≠ 401
      ∧ (handlerLogin sampleConfig (realAuth 0 0 (.error "entropy unavailable")) sampleStore
        sampleLogin).response.message ≠ some "Invalid email or password" :=
  login_downstream_failure_is_500 sampleConfig (realAuth 0 0 (.error "entropy unavailable"))
    sampleStore sampleLogin { Email := lit "a@b.c", Password := lit "pw" } sampleUser
    (by decide!) rfl
    (by simp only [realAuth, sampleUser]
        exact CheckPasswordHash_HashPassword (fun _ => byte 0) (lit "pw") (by simp [lit]))
    (Or.inr (Or.inl (by simp [realAuth, MakeRefreshToken, randRead])))

/-- C12: a successful refresh reissues only the access token. On every request
that `handlerRefresh` answers with 200, the bearer token resolved to a user,
the response holds exactly the access token that `MakeJWT` made for that
user's id with the ttl `time.Hour`, the store is the one the handler was given,
and the only effect is that call of `MakeJWT`: no refresh token is made,
inserted or revoked. -/
theorem refresh_reissues_access_token_only {σ : Type} (cfg : apiConfig σ) (auth : Auth)
    (st : σ) (r : Request) (h : (handlerRefresh cfg auth st r).response.status = 200) :
    ∃ refreshToken user,
      auth.GetBearerToken r.Authorization = (refreshToken, none)
        ∧ cfg.DB.GetUserFromRefreshToken st refreshToken = .ok user
        ∧ (auth.MakeJWT user.ID cfg.secret Hour).2 = none
        ∧ (handlerRefresh cfg auth st r).response
            = .respondWithJSON 200
                (.token (auth.MakeJWT user.ID cfg.secret Hour).1)
        ∧ (handlerRefresh cfg auth st r).response.tokens
            = [(auth.MakeJWT user.ID cfg.secret Hour).1]
        ∧ (handlerRefresh cfg auth st r).store = st
        ∧ (handlerRefresh cfg auth st r).effects = [.MakeJWT user.ID Hour] := by
  unfold handlerRefresh at h ⊢
  rcases hb : auth.GetBearerToken r.Authorization with ⟨refreshToken, _ | err⟩
  · rcases hu : cfg.DB.GetUserFromRefreshToken st refreshToken with e | user
    · cases e <;> simp [hb, hu, Response.status, StatusUnauthorized,
        StatusInternalServerError] at h
    · rcases hj : auth.MakeJWT user.ID cfg.secret Hour with ⟨accessToken, _ | err⟩
      · refine ⟨refreshToken, user, rfl, ?_⟩
        simp [hu, hj, Response.tokens, StatusOK]
      · simp [hb, hu, hj, Response.status, StatusUnauthorized] at h
  · simp [hb, Response.status, StatusUnauthorized] at h

theorem refresh_reissues_access_token_only_witness :
    (handlerRefresh sampleConfig (realAuth 0 0 (.ok fun _ => byte 0)) sampleStore
        sampleBearer).response.status = 200
      ∧ ∃ refreshToken user,
        (realAuth 0 0 (.ok fun _ => byte 0)).GetBearerToken sampleBearer.Authorization
            = (refreshToken, none)
          ∧ sampleConfig.DB.GetUserFromRefreshToken sampleStore refreshToken = .ok user
          ∧ ((realAuth 0 0 (.ok fun _ => byte 0)).MakeJWT user.ID sampleConfig.secret
              Hour).2 = none
          ∧ (handlerRefresh sampleConfig (realAuth 0 0 (.ok fun _ => byte 0)) sampleStore
              sampleBearer).response
              = .respondWithJSON 200
                  (.token ((realAuth 0 0 (.ok fun _ => byte 0)).MakeJWT user.ID
                    sampleConfig.secret Hour).1)
          ∧ (handlerRefresh sampleConfig (realAuth 0 0 (.ok fun _ => byte 0)) sampleStore
              sampleBearer).response.tokens
              = [((realAuth 0 0 (.ok fun _ => byte 0)).MakeJWT user.ID sampleConfig.secret
                  Hour).1]
          ∧ (handlerRefresh sampleConfig (realAuth 0 0 (.ok fun _ => byte 0)) sampleStore
              sampleBearer).store = sampleStore
          ∧ (handlerRefresh sampleConfig (realAuth 0 0 (.ok fun _ => byte 0)) sampleStore
              sampleBearer).effects = [.MakeJWT user.ID Hour] :=
  ⟨by decide!, refresh_reissues_access_token_only sampleConfig
    (realAuth 0 0 (.ok fun _ => byte 0)) sampleStore sampleBearer (by decide!)⟩

/-- C13, the behaviour of the code: when the revoke of the store reports
not-found for the bearer token, `handlerRevoke` answers with status 500 and
the message `Couldn't revoke session`, which is not a 4xx status. -/
theorem revoke_missing_token_is_500 {σ : Type} (cfg : apiConfig σ) (auth : Auth) (st st1 : σ)
    (r : Request) (refreshToken : GoString)
    (hb : auth.GetBearerToken r.Authorization = (refreshToken, none))
    (hmiss : cfg.DB.RevokeRefreshToken st refreshToken = (.error .ErrNoRows, st1)) :
    (handlerRevoke cfg auth st r).response
        = .respondWithError 500 "Couldn't revoke session" (some (.db .ErrNoRows))
      ∧ (handlerRevoke cfg auth st r).response.status = 500
      ∧ ¬ (400 ≤ (handlerRevoke cfg auth st r).response.status
          ∧ (handlerRevoke cfg auth st r).response.status < 500) := by
  simp [handlerRevoke, hb, hmiss, Response.status, StatusInternalServerError]

theorem revoke_missing_token_is_500_witness :
    (handlerRevoke sampleConfig (realAuth 0 0 (.ok fun _ => byte 0)) sampleStore
        strangerBearer).response
        = .respondWithError 500 "Couldn't revoke session" (some (.db .ErrNoRows))
      ∧ (handlerRevoke sampleConfig (realAuth 0 0 (.ok fun _ => byte 0)) sampleStore
        strangerBearer).response.status = 500
      ∧ ¬ (400 ≤ (handlerRevoke sampleConfig (realAuth 0 0 (.ok fun _ => byte 0)) sampleStore
            strangerBearer).response.status
          ∧ (handlerRevoke sampleConfig (realAuth 0 0 (.ok fun _ => byte 0)) sampleStore
            strangerBearer).response.status < 500) :=
  revoke_missing_token_is_500 sampleConfig (realAuth 0 0 (.ok fun _ => byte 0)) sampleStore
    sampleStore strangerBearer (lit "beef") (by decide!) rfl

/-- C14: in `handlerRefresh`, with the functions of package `auth` as they
are, once the bearer token is read: every store error other than not-found is
answered with status 500, the store reporting not-found is answered with
status 401, and when the token resolves to a user `MakeJWT` returns no error
and the answer is 200. A signing fault therefore never arises; the last part
states the claim for it as it is worded. -/
theorem refresh_faults_are_classified {σ : Type} (cfg : apiConfig σ) (st : σ) (r : Request)
    (now1 now2 : Time) (src : RandSource) (refreshToken : GoString)
    (hb : GetBearerToken r.Authorization = (refreshToken, none)) :
    (∀ msg, cfg.DB.GetUserFromRefreshToken st refreshToken = .error (.other msg) →
        (handlerRefresh cfg (realAuth now1 now2 src) st r).response.status = 500)
      ∧ (cfg.DB.GetUserFromRefreshToken st refreshToken = .error .ErrNoRows →
        (handlerRefresh cfg (realAuth now1 now2 src) st r).response.status = 401)
      ∧ (∀ user, cfg.DB.GetUserFromRefreshToken st refreshToken = .ok user →
        (MakeJWT now1 now2 user.ID cfg.secret Hour).2 = none
          ∧ (handlerRefresh cfg (realAuth now1 now2 src) st r).response.status = 200)
      ∧ (∀ user token err, cfg.DB.GetUserFromRefreshToken st refreshToken = .ok user →
        MakeJWT now1 now2 user.ID cfg.secret Hour = (token, some err) →
        (handlerRefresh cfg (realAuth now1 now2 src) st r).response.status = 500) := by
  refine ⟨fun msg h => ?_, fun h => ?_, fun user h => ⟨rfl, ?_⟩, fun user token err _ hj => ?_⟩
  · simp [handlerRefresh, realAuth, hb, h, Response.status, StatusInternalServerError]
  · simp [handlerRefresh, realAuth, hb, h, Response.status, StatusUnauthorized]
  · simp [handlerRefresh, realAuth, hb, h, MakeJWT, SignedStringHS256, Response.status, StatusOK]
  · have hok := MakeJWT_ok now1 now2 user.ID cfg.secret Hour
    rw [hj] at hok
    exact absurd hok (by simp)

theorem refresh_faults_are_classified_witness :
    (handlerRefresh downConfig (realAuth 0 0 (.ok fun _ => byte 0)) sampleStore
        sampleBearer).response.status = 500
      ∧ (handlerRefresh sampleConfig (realAuth 0 0 (.ok fun _ => byte 0)) sampleStore
        strangerBearer).response.status = 401
      ∧ ((MakeJWT 0 0 sampleUser.ID sampleConfig.secret Hour).2 = none
        ∧ (handlerRefresh sampleConfig (realAuth 0 0 (.ok fun _ => byte 0)) sampleStore
          sampleBearer).response.status = 200) :=
  ⟨(refresh_faults_are_classified downConfig sampleStore sampleBearer 0 0
      (.ok fun _ => byte 0) (lit "feed") (by decide!)).1 "connection refused" rfl,
    (refresh_faults_are_classified sampleConfig sampleStore strangerBearer 0 0
      (.ok fun _ => byte 0) (lit "beef") (by decide!)).2.1 rfl,
    (refresh_faults_are_classified sampleConfig sampleStore sampleBearer 0 0
      (.ok fun _ => byte 0) (lit "feed") (by decide!)).2.2.1 sampleUser rfl⟩

/-- C16, the behaviour of the code: in an environment where `PLATFORM` and
`POLKA_KEY` are set, the database opens and the variable `secret` is empty,
`main` does not abort: it constructs `apiConfig` with the empty secret and
serves the routes, `POST /api/login` among them. -/
theorem main_serves_with_empty_secret {σ : Type} (Getenv : String → GoString)
    (sqlOpen : String → GoString → Except GoError (Queries σ)) (dbQueries : Queries σ)
    (hplatform : Getenv "PLATFORM" ≠ [])
    (hopen : sqlOpen "postgres" (Getenv "DB_URL") = .ok dbQueries)
    (hpolka : Getenv "POLKA_KEY" ≠ [])
    (hsecret : Getenv "secret" = []) :
    (main Getenv sqlOpen).aborted = false
      ∧ (main Getenv sqlOpen).secret = some []
      ∧ "POST /api/login" ∈ (main Getenv sqlOpen).patterns := by
  simp [main, hplatform, hopen, hpolka, hsecret, Startup.aborted, Startup.secret,
    Startup.patterns]

theorem main_serves_with_empty_secret_witness :
    sampleEnv "secret" = []
      ∧ (main sampleEnv sampleOpen).aborted = false
      ∧ (main sampleEnv sampleOpen).secret = some []
      ∧ "POST /api/login" ∈ (main sampleEnv sampleOpen).patterns :=
  ⟨by decide, main_serves_with_empty_secret sampleEnv sampleOpen memoryQueries (by decide) rfl
    (by decide) (by decide)⟩

/-! ## Claims about the bearer token -/

theorem Index_single_none (sep : Byte) : ∀ s : GoString, sep ∉ s → Index s [sep] = none
  | [], _ => by simp [Index]
  | c :: rest, h => by
      have hc : sep ≠ c := fun e => h (e ▸ List.mem_cons_self _ _)
      have hr : sep ∉ rest := fun m => h (List.mem_cons_of_mem _ m)
      simp [Index, List.isPrefixOf, hc, Index_single_none sep rest hr]

theorem Index_single_append (sep : Byte) (b : GoString) :
    ∀ a : GoString, sep ∉ a → Index (a ++ sep :: b) [sep] = some a.length
  | [], _ => by simp [Index, List.isPrefixOf]
  | c :: rest, h => by
      have hc : sep ≠ c := fun e => h (e ▸ List.mem_cons_self _ _)
      have hr : sep ∉ rest := fun m => h (List.mem_cons_of_mem _ m)
      simp [Index, List.isPrefixOf, hc, Index_single_append sep b rest hr]

theorem exists_first_sep (sep : Byte) :
    ∀ s : GoString, sep ∈ s → ∃ a b, sep ∉ a ∧ s = a ++ sep :: b
  | [], h => by simp at h
  | c :: rest, h => by
      by_cases hc : sep = c
      · exact ⟨[], rest, by simp, by simp [hc]⟩
      · have hr : sep ∈ rest := by
          rcases List.mem_cons.mp h with e | m
          · exact absurd e hc
          · exact m
        obtain ⟨a, b, ha, hs⟩ := exists_first_sep sep rest hr
        refine ⟨c :: a, b, ?_, by simp [hs]⟩
        intro m
        rcases List.mem_cons.mp m with e | m
        · exact hc e
        · exact ha m

theorem SplitN2_no_sep (sep : Byte) (s : GoString) (h : sep ∉ s) : SplitN2 s sep = [s] := by
  simp [SplitN2, Index_single_none sep s h]

theorem SplitN2_append (sep : Byte) (a b : GoString) (h : sep ∉ a) :
    SplitN2 (a ++ sep :: b) sep = [a, b] := by
  simp [SplitN2, Index_single_append sep b a h]

theorem GetBearerToken_split (scheme token : GoString) (h : byte 32 ∉ scheme) :
    GetBearerToken (scheme ++ byte 32 :: token)
      = if ToLower scheme ≠ lit "bearer" then ([], some "invalid authorization header format")
        else (token, none) := by
  simp [GetBearerToken, SplitN2_append _ _ _ h]

theorem GetBearerToken_no_space (authHeader : GoString) (h : byte 32 ∉ authHeader) :
    (GetBearerToken authHeader).1 = [] ∧ (GetBearerToken authHeader).2 ≠ none := by
  unfold GetBearerToken
  by_cases he : authHeader = []
  · simp [he]
  · simp [he, SplitN2_no_sep _ _ h]

theorem append_sep_inj (sep : Byte) :
    ∀ a a2 b b2 : GoString, sep ∉ a → sep ∉ a2 → a ++ sep :: b = a2 ++ sep :: b2 →
      a = a2 ∧ b = b2
  | [], [], _, _, _, _, h => by simpa using h
  | [], c :: a2, _, _, _, h2, h => by
      simp at h
      exact absurd (h.1 ▸ List.mem_cons_self _ _) h2
  | c :: a, [], _, _, h1, _, h => by
      simp at h
      exact absurd (h.1 ▸ List.mem_cons_self _ _) h1
  | c :: a, d :: a2, b, b2, h1, h2, h => by
      simp at h
      have := append_sep_inj sep a a2 b b2 (fun m => h1 (List.mem_cons_of_mem _ m))
        (fun m => h2 (List.mem_cons_of_mem _ m)) h.2
      simp [h.1, this.1, this.2]

/-- C17: `GetBearerToken` returns a token without error exactly when the
header is a scheme without a space, one space and that token, the scheme being
`bearer` after lower-casing; the token is everything after the first space,
unchanged. In every other case, the empty header among them, it returns the
empty string and an error. -/
theorem bearer_token_exact (authHeader : GoString) :
    (∀ token, GetBearerToken authHeader = (token, none) ↔
        ∃ scheme, byte 32 ∉ scheme ∧ authHeader = scheme ++ byte 32 :: token
          ∧ ToLower scheme = lit "bearer")
      ∧ ((GetBearerToken authHeader).2 = none
        ∨ ((GetBearerToken authHeader).1 = [] ∧ (GetBearerToken authHeader).2 ≠ none))
      ∧ (GetBearerToken [] = ([], some "missing authorization header")) := by
  by_cases hs : byte 32 ∈ authHeader
  · obtain ⟨a, b, ha, rfl⟩ := exists_first_sep _ _ hs
    rw [GetBearerToken_split a b ha]
    by_cases hl : ToLower a = lit "bearer"
    · refine ⟨fun token => ⟨fun h => ?_, fun h => ?_⟩, Or.inl (by simp [hl]), rfl⟩
      · simp [hl] at h
        exact ⟨a, ha, by rw [h], hl⟩
      · obtain ⟨scheme, h1, h2, _⟩ := h
        have := append_sep_inj _ _ _ _ _ ha h1 h2
        simp [hl, this.2]
    · refine ⟨fun token => ⟨fun h => ?_, fun h => ?_⟩, Or.inr (by simp [hl]), rfl⟩
      · simp [hl] at h
      · obtain ⟨scheme, h1, h2, h3⟩ := h
        have := append_sep_inj _ _ _ _ _ ha h1 h2
        rw [this.1] at hl
        exact absurd h3 hl
  · have hn := GetBearerToken_no_space authHeader hs
    refine ⟨fun token => ⟨fun h => ?_, fun h => ?_⟩, Or.inr hn, rfl⟩
    · rw [h] at hn
      exact absurd rfl hn.2
    · obtain ⟨scheme, _, h2, _⟩ := h
      exact absurd (h2 ▸ List.mem_append_right _ (List.mem_cons_self _ _)) hs

/-! ## Claims about the word filter -/

theorem censorAt_length (s t : GoString) (index n : Nat) (h : censorAt s index n = some t) :
    t.length + n = s.length + 4 := by
  unfold censorAt at h
  split at h
  · injection h with h
    subst h
    simp [lit]
    omega
  · exact absurd h (by simp)

theorem censorWord_finishes (w : GoString) (hw : 4 < w.length) :
    ∀ (fuel : Nat) (cleanedBody lowerText : GoString), lowerText.length < fuel →
      censorWord w fuel cleanedBody lowerText ≠ .unfinished
        ∧ ∀ c l, censorWord w fuel cleanedBody lowerText = .done (c, l) →
            l.length ≤ lowerText.length
  | 0, _, _, h => absurd h (Nat.not_lt_zero _)
  | fuel + 1, cleanedBody, lowerText, h => by
      unfold censorWord
      cases hi : Index lowerText w with
      | none =>
          refine ⟨by simp, fun c l hd => ?_⟩
          simp at hd
          rw [hd.2]
      | some index =>
          cases hc : censorAt cleanedBody index w.length with
          | none => exact ⟨by simp [hc], fun c l hd => by simp [hc] at hd⟩
          | some cleanedBody1 =>
              cases hl : censorAt lowerText index w.length with
              | none => exact ⟨by simp [hc, hl], fun c l hd => by simp [hc, hl] at hd⟩
              | some lowerText1 =>
                  have hlen := censorAt_length lowerText lowerText1 index w.length hl
                  have ih := censorWord_finishes w hw fuel cleanedBody1 lowerText1 (by omega)
                  refine ⟨by simpa [hc, hl] using ih.1, fun c l hd => ?_⟩
                  have := ih.2 c l (by simpa [hc, hl] using hd)
                  omega

theorem censorWords_finishes :
    ∀ (ws : List GoString), (∀ w ∈ ws, 4 < w.length) →
      ∀ (fuel : Nat) (cleanedBody lowerText : GoString), lowerText.length < fuel →
        censorWords ws fuel cleanedBody lowerText ≠ .unfinished
  | [], _, _, _, _, _ => by simp [censorWords]
  | w :: more, hws, fuel, cleanedBody, lowerText, h => by
      have hw := censorWord_finishes w (hws w (List.mem_cons_self _ _)) fuel cleanedBody
        lowerText h
      unfold censorWords
      cases hr : censorWord w fuel cleanedBody lowerText with
      | unfinished => exact absurd hr hw.1
      | panicked => simp
      | done p =>
          obtain ⟨c, l⟩ := p
          have hl := hw.2 c l hr
          simpa using censorWords_finishes more
            (fun v hv => hws v (List.mem_cons_of_mem _ hv)) fuel c l (by omega)

theorem cleanBody_finishes (body : GoString) (fuel : Nat) (h : (ToLower body).length < fuel) :
    cleanBody fuel body ≠ .unfinished := by
  have hws : ∀ w ∈ profaneWords, 4 < w.length := by decide
  have := censorWords_finishes profaneWords hws fuel body (ToLower body) h
  unfold cleanBody
  cases hr : censorWords profaneWords fuel body (ToLower body) with
  | unfinished => exact absurd hr this
  | panicked => simp
  | done p => simp

/-- C15, the behaviour of the code on bodies that are not ASCII. The filter
takes byte offsets in the lower-cased text and cuts the body at them. For the
body of nine letters `İ` (U+0130, two bytes, one byte in lower case) followed
by `kerfuffle`, the loops end, the cleaned body is four letters `İ`, a byte
`0xC4`, `****` and the word `kerfuffle` untouched, and its lower-cased form
still contains the word. For the body `Ⱥkerfuffle` (U+023A, two bytes, three
bytes in lower case) the slice expression is out of range and the handler
panics. -/
theorem word_filter_fails_on_non_ascii :
    (∀ fuel, cleanBody (fuel + 2)
        ((List.replicate 9 [byte 0xC4, byte 0xB0]).flatten ++ lit "kerfuffle")
      = .done ((List.replicate 4 [byte 0xC4, byte 0xB0]).flatten ++ [byte 0xC4]
          ++ lit "****" ++ lit "kerfuffle"))
    ∧ Index (ToLower ((List.replicate 4 [byte 0xC4, byte 0xB0]).flatten ++ [byte 0xC4]
          ++ lit "****" ++ lit "kerfuffle")) (lit "kerfuffle") = some 11
    ∧ (∀ fuel, cleanBody (fuel + 1) ([byte 0xC8, byte 0xBA] ++ lit "kerfuffle") = .panicked) :=
  ⟨fun _ => by rfl, by decide!, fun _ => by rfl⟩

end Goserver
